import Mathlib

/-!
I.aê WhatsApp assistant: a shallow embedding of `src/index.js`

The development follows the source file function by function: the place filters, the
sponsored-slot promotion, the ranking, the search finalization and the webhook dispatcher
with the session record it works on.

Conventions of the embedding

* A JavaScript field that may be missing is an `Option`; `none` stands for `undefined`
  (and for `null` where the code does not tell them apart).
* Numbers that arrive through JSON (coordinates, ratings, priorities) are finite, so they
  are rationals (`ℚ`) or integers. The result of the trigonometric `haversineKm` is a
  parameter of the functions that use it; it returns an `Option ℚ` whose `none` is the
  JavaScript `NaN`, on which every comparison is false. `Math.log10` is a parameter too.
* Outbound messages are recorded by label (`Msg`), in the order of the calls of
  `sendMessage` with a non-empty text. `sendMessage` catches every error of the gateway, so
  a call never raises.
* The handler of one event runs to its end before the next event of the same sender is
  handled. The state is the one of a single sender: the dispatcher reads and writes
  `userState[from]` and `personasCache[from]` only.
* What the external services answer while an event is handled (clock, speech-to-text,
  language model, geocoding, places) is an input of the handler (`Env`, `SearchEnv`), and so
  is the outcome of the pure text tests on the message (`TextMessage`).
* Exceptions are modelled where the code lets them travel: inside the steps of
  `finalizeSearch`, up to the `catch` of the caller.
-/

namespace Iae

/-! ## Places (records returned by the Maps provider) -/

/-- A place as returned by the Maps provider; only the fields the code reads. -/
structure Place where
  place_id : Option String := none
  name : Option String := none
  types : List String := []
  business_status : Option String := none
  /-- `geometry.location.lat` when `typeof` is `number`, else `none` -/
  lat : Option ℚ := none
  /-- `geometry.location.lng` when `typeof` is `number`, else `none` -/
  lng : Option ℚ := none
  rating : Option ℚ := none
  user_ratings_total : Option ℚ := none
  /-- `price_level` when it is a number; the value `null` is written as the number 0, from
  which no test on the field tells it (`null <= 1` holds and `null === 2` fails, as for 0);
  `none` when the field is absent -/
  price_level : Option ℚ := none
deriving DecidableEq

/-- JavaScript truthiness of an optional string: present and not the empty string. -/
def truthyStr : Option String → Bool
  | some s => s != ""
  | none => false

/-- JavaScript truthiness of an optional number: present and not zero. -/
def truthyNum : Option ℚ → Bool
  | some x => x != 0
  | none => false

/-! ## Geospatial filter (`filterByDistance`, index.js 339-370) -/

/-- The test `d <= maxKm` on a possibly-`NaN` distance. -/
def leKm : Option ℚ → ℚ → Bool
  | some d, maxKm => decide (d ≤ maxKm)
  | none, _ => false

/-- One iteration of the `for (const p of places)` loop of `filterByDistance`:
`out` is the accumulator array, the result is the array after the iteration. -/
def filterByDistanceStep (haversineKm : ℚ → ℚ → ℚ → ℚ → Option ℚ)
    (centerLat centerLng maxKm : ℚ) (out : List Place) (p : Place) : List Place :=
  match p.lat, p.lng with
  | some plat, some plng =>
      let d := haversineKm centerLat centerLng plat plng
      if leKm d maxKm then out ++ [p] else out
  | _, _ => out ++ [p]

/-- Embedding of `filterByDistance(places, centerLat, centerLng, maxKm)`. -/
def filterByDistance (haversineKm : ℚ → ℚ → ℚ → ℚ → Option ℚ)
    (places : List Place) (centerLat centerLng maxKm : ℚ) : List Place :=
  places.foldl (filterByDistanceStep haversineKm centerLat centerLng maxKm) []

/-- The rule of the specification for the distance filter (sections 4.1 and 8), in its own
words: a place is kept when it lacks a numeric latitude or longitude, or when its haversine
distance to the centre is at most `maxKm`. -/
def KeptByDistanceSpec (haversineKm : ℚ → ℚ → ℚ → ℚ → Option ℚ)
    (centerLat centerLng maxKm : ℚ) (p : Place) : Prop :=
  (p.lat = none ∨ p.lng = none) ∨
  ∃ plat plng d, p.lat = some plat ∧ p.lng = some plng ∧
    haversineKm centerLat centerLng plat plng = some d ∧ d ≤ maxKm

/-! ## Type filter (`ALLOWED_TYPES`, `EXCLUDED_TYPES`, `filterPlacesByType`, index.js 450-503) -/

/-- The table `ALLOWED_TYPES`, with `|| new Set()` for an unknown domain. -/
def ALLOWED_TYPES (domain : String) : List String :=
  if domain = "bar" then ["bar", "pub", "night_club"]
  else if domain = "restaurante" then ["restaurant", "cafe"]
  else []

/-- The set `EXCLUDED_TYPES`. -/
def EXCLUDED_TYPES : List String :=
  ["bakery", "beauty_salon", "store", "supermarket", "gas_station", "lodging", "pharmacy",
   "church", "place_of_worship", "school", "university", "hospital", "doctor", "dentist",
   "veterinary_care", "gym", "car_repair", "car_wash", "hair_care", "laundry", "finance",
   "atm", "bank", "real_estate_agency", "lawyer", "accounting", "local_government_office"]

/-- The loop `for (const t of types) if (EXCLUDED_TYPES.has(t)) return false`:
`true` when the loop returns. -/
def hasExcludedType : List String → Bool
  | [] => false
  | t :: ts => if EXCLUDED_TYPES.contains t then true else hasExcludedType ts

/-- The loop `for (const t of types) if (allowed.has(t)) return true`. -/
def hasAllowedType (allowed : List String) : List String → Bool
  | [] => false
  | t :: ts => if allowed.contains t then true else hasAllowedType allowed ts

/-- The callback given to `filter` inside `filterPlacesByType`. -/
def keepPlaceByType (allowed : List String) (p : Place) : Bool :=
  if truthyStr p.business_status && p.business_status != some "OPERATIONAL" then false
  else if !truthyStr p.place_id || !truthyStr p.name then false
  else if hasExcludedType p.types then false
  else if hasAllowedType allowed p.types then true
  else false

/-- Embedding of `filterPlacesByType(places, domain)`. -/
def filterPlacesByType (places : List Place) (domain : String) : List Place :=
  places.filter (keepPlaceByType (ALLOWED_TYPES domain))

/-- The rule of the specification for keeping a place (section 4.2), in its own words:
status absent or operational, identifiers present, no excluded type, some allowed type.
A field holding the empty string counts as absent, as it does for the code. -/
def KeptBySpec (allowedSet : List String) (p : Place) : Prop :=
  (truthyStr p.business_status = false ∨ p.business_status = some "OPERATIONAL") ∧
  truthyStr p.place_id = true ∧ truthyStr p.name = true ∧
  (∀ t ∈ p.types, t ∉ EXCLUDED_TYPES) ∧
  (∃ t ∈ p.types, t ∈ allowedSet)

/-- The allowed set of a domain as the specification lists it (section 4.2). -/
def allowedBySpec (domain : String) : List String :=
  if domain = "bar" then ["bar", "pub", "night_club"] else ["restaurant", "cafe"]

/-! ## Sponsors and sponsored-slot promotion (`promoteSponsoredOrder`, index.js 2818-2842) -/

/-- An entry of the sponsor directory (`sponsored.json`). -/
structure Sponsor where
  place_id : Option String := none
  active : Bool := false
  /-- the value of the number `prioridade`, an integer (as every number, a double); `none`
  when the field is missing or not a number -/
  prioridade : Option Int := none
  nome : Option String := none
  destaque : Option String := none
  /-- some promotional field is present, so that `composePartnerDetails` is not empty -/
  promo : Bool := false
deriving DecidableEq

/-- The expression `x || 99` on an optional integer (`0` is falsy). -/
def orDefault99 : Option Int → Int
  | some v => if v = 0 then 99 else v
  | none => 99

/-- The lookup `byId.has(id)` for `byId = new Map(places.map(p => [p.place_id, p]))`. -/
def byIdHas (places : List Place) (id : Option String) : Bool :=
  places.any (fun p => p.place_id == id)

/-- The lookup `byId.get(id)`: a later entry with the same key overwrites an earlier one. -/
def byIdGet (places : List Place) (id : Option String) : Option Place :=
  places.foldl (fun acc p => if p.place_id == id then some p else acc) none

/-- The comparator `(a.prioridade || 99) - (b.prioridade || 99)` is not positive. -/
def sponsorLe (a b : Sponsor) : Prop := orDefault99 a.prioridade ≤ orDefault99 b.prioridade

instance : DecidableRel sponsorLe := fun a b =>
  inferInstanceAs (Decidable (orDefault99 a.prioridade ≤ orDefault99 b.prioridade))

/-- The filter `sponsored.filter(s => s.active && s.place_id && byId.has(s.place_id))`:
the active sponsors present in `places`, in directory order. -/
def activePresent (sponsored : List Sponsor) (places : List Place) : List Sponsor :=
  sponsored.filter (fun s => s.active && truthyStr s.place_id && byIdHas places s.place_id)

/-- The array `presentSponsors`: the filter above, then the (stable) `sort` by priority. -/
def presentSponsors (sponsored : List Sponsor) (places : List Place) : List Sponsor :=
  (activePresent sponsored places).insertionSort sponsorLe

/-- The number of binary digits of a natural number. -/
def bitLength : Nat → Nat → Nat
  | 0, _ => 0
  | fuel + 1, n => if n = 0 then 0 else bitLength fuel (n / 2) + 1

/-- The Number value of a natural number below `2^1024`: the nearest double, ties to the even
significand. -/
def roundToDouble (n : Nat) : Nat :=
  let bits := bitLength 1100 n
  if bits ≤ 53 then n
  else
    let shift := bits - 53
    let q := n >>> shift
    let rem := n - (q <<< shift)
    let half := 1 <<< (shift - 1)
    let up : Bool := decide (half < rem) || (decide (rem = half) && decide (q % 2 = 1))
    (if up then q + 1 else q) <<< shift

/-- The search of `Number::toString` for the shortest decimal that denotes the number `n`:
`p` is a power of ten for which `best`, a multiple of `p`, denotes `n`; the next power of ten
is tried as long as one of the two multiples around `n` denotes `n`, and of two that do the
nearer one is taken (the even one when they are equally near). -/
def shortestDecimal (n : Nat) : Nat → Nat → Nat → Nat
  | 0, _, best => best
  | fuel + 1, p, best =>
    let p1 := p * 10
    let lo := n / p1 * p1
    let hi := lo + p1
    let okLo : Bool := roundToDouble lo == n
    let okHi : Bool := roundToDouble hi == n
    if okLo && okHi then
      shortestDecimal n fuel p1
        (if n - lo < hi - n then lo
         else if hi - n < n - lo then hi
         else if (lo / p1) % 2 = 0 then lo else hi)
    else if okLo then shortestDecimal n fuel p1 lo
    else if okHi then shortestDecimal n fuel p1 hi
    else best

/-- The first decimal digit of a natural number. -/
def leadingDigit : Nat → Nat → Nat
  | 0, n => n
  | fuel + 1, n => if n < 10 then n else leadingDigit fuel (n / 10)

/-- The value of `parseInt(v, 10)` for a number `v` that is an integer: `parseInt` reads the
digits at the head of `String(v)`. Below `10^21` in size the string is the decimal expansion
of `v`; from `10^21` on it is in exponent notation (`1e+21`, `1.5e+22`), of which `parseInt`
reads the sign and the first digit. -/
def parseInt10 (v : Int) : Int :=
  if v.natAbs < 10 ^ 21 then v
  else
    (if v < 0 then -1 else 1) *
      (leadingDigit 400 (shortestDecimal v.natAbs 400 1 v.natAbs) : Nat)

/-- The slot index `Math.max(1, Math.min(3, parseInt(s.prioridade, 10) || 99)) - 1`. -/
def slotIndex (s : Sponsor) : Nat :=
  (max 1 (min 3 (orDefault99 (s.prioridade.map parseInt10))) - 1).toNat

/-- One iteration of `for (const s of presentSponsors)`: claim the slot when it is free. -/
def pinStep (places : List Place) (pinned : List (Option Place)) (s : Sponsor) :
    List (Option Place) :=
  let idx := slotIndex s
  if (pinned.getD idx none).isNone then pinned.set idx (byIdGet places s.place_id) else pinned

/-- The array `pinned` after the loop, starting from `new Array(3).fill(null)`. -/
def pinnedSlots (sponsored : List Sponsor) (places : List Place) : List (Option Place) :=
  (presentSponsors sponsored places).foldl (pinStep places) [none, none, none]

/-- Embedding of `promoteSponsoredOrder(places)` with the global `sponsored` as a parameter. -/
def promoteSponsoredOrder (sponsored : List Sponsor) (places : List Place) : List Place :=
  if places.length = 0 ∨ sponsored.length = 0 then places
  else
    let pinned := pinnedSlots sponsored places
    let pinnedSet := (pinned.filterMap id).map (fun p => p.place_id)
    let rest := places.filter (fun p => !pinnedSet.contains p.place_id)
    pinned.filterMap id ++ rest

/-! ## Ranking (`rankGeneric`, index.js 1663-1766, and the pre-filter of `finalizeSearch`)

Scores are rationals; `log10` stands for `Math.log10` and is a parameter. The fields `_pref`
and `_score` that the code adds to copies of the places are not kept: a place is identified
with its copy. -/

/-- `calculateBasicScore(place)`: `(rating || 0) * 2 + Math.log10(user_ratings_total || 1)`. -/
def calculateBasicScore (log10 : ℚ → ℚ) (p : Place) : ℚ :=
  (if truthyNum p.rating then p.rating.getD 0 else 0) * 2 +
    log10 (if truthyNum p.user_ratings_total then p.user_ratings_total.getD 1 else 1)

/-- The test `sponsored.some(s => s.place_id === place.place_id && s.active)`. -/
def isSponsored (sponsored : List Sponsor) (p : Place) : Bool :=
  sponsored.any (fun s => s.place_id == p.place_id && s.active)

/-- The stable `sort` with a comparator `score(b) - score(a)`: descending by score. -/
def sortDescBy (score : Place → ℚ) (places : List Place) : List Place :=
  places.insertionSort (fun a b => score b ≤ score a)

/-- The value `_pref` of the pre-filter: base score plus the sponsor boost. -/
def prefScore (log10 : ℚ → ℚ) (sponsored : List Sponsor) (p : Place) : ℚ :=
  calculateBasicScore log10 p + (if isSponsored sponsored p then 3 else 0)

/-- The array `boosted` of `finalizeSearch`: map, sort descending, `slice(0, 12)`. -/
def boosted (log10 : ℚ → ℚ) (sponsored : List Sponsor) (places : List Place) : List Place :=
  (sortDescBy (prefScore log10 sponsored) places).take 12

/-- What the relevance request for one place comes to. The candidates of one search are
distinct records, so the outcome is given per place. -/
inductive LlmOutcome where
  /-- the outer per-item timer wins the race: the item resolves to `null` -/
  | outerTimeout
  /-- inner timeout, error, or an answer that is not a number in `[0, 5]` -/
  | noScore
  /-- the answer parses to `g` with `0 ≤ g ≤ 5` -/
  | score (g : ℚ)
deriving DecidableEq

/-- Does `sub` occur in the character list at some position? -/
def includesChars : List Char → List Char → Bool
  | [], sub => sub.isEmpty
  | c :: cs, sub => sub.isPrefixOf (c :: cs) || includesChars cs sub

/-- JavaScript `String.prototype.includes` on the characters of the strings. -/
def includes (s sub : String) : Bool := includesChars s.data sub.data

/-- The price-tier adjustment of `scorePlace` for a persona price answer `preco`. A missing
`price_level` is `undefined`, on which `<= 1` and `===` are false; a `price_level` that is
`null` is the number 0 of the record. The three search words are ASCII and hold neither `i`
nor `k`, so lower-casing the ASCII letters of the answer decides `includes` as `toLowerCase`
does. -/
def priceBonus (preco : Option String) (p : Place) : ℚ :=
  match preco with
  | none => 0
  | some raw =>
    if raw = "" then 0
    else
      let lower := raw.toLower
      (if includes lower "econ" then
        (match p.price_level with | some l => if l ≤ 1 then 2 else 0 | none => 0) else 0) +
      (if includes lower "moder" then
        (if p.price_level = some 2 ∨ p.price_level = some 3 then 2 else 0) else 0) +
      (if includes lower "luxo" then (if p.price_level = some 4 then 2 else 0) else 0)

/-- The base score in the words of the specification (section 4.3),
`rating*2 + log10(max(reviewCount,1))`, an absent rating or review count read as 0. -/
def baseScoreSpec (log10 : ℚ → ℚ) (p : Place) : ℚ :=
  p.rating.getD 0 * 2 + log10 (max (p.user_ratings_total.getD 0) 1)

/-- The pre-score in the words of the specification (section 4.3): the base score plus 3
when the place is an active sponsor. -/
def preScoreSpec (log10 : ℚ → ℚ) (sponsored : List Sponsor) (p : Place) : ℚ :=
  baseScoreSpec log10 p +
    (if ∃ s ∈ sponsored, s.active = true ∧ s.place_id = p.place_id then 3 else 0)

/-- The value `_score` computed by `scorePlace` when the item is not dropped. -/
def placeScore (log10 : ℚ → ℚ) (sponsored : List Sponsor) (preco : Option String)
    (llm : Place → LlmOutcome) (p : Place) : ℚ :=
  calculateBasicScore log10 p + priceBonus preco p +
    (if isSponsored sponsored p then 3 else 0) +
    (match llm p with
      | LlmOutcome.score g => if 0 ≤ g ∧ g ≤ 5 then g * (1 / 2) else 0
      | _ => 0)

/-- Embedding of `rankGeneric(places, persona, currentPreferences)`; `modelAvailable` is the
truthiness of the global `model`. -/
def rankGeneric (log10 : ℚ → ℚ) (sponsored : List Sponsor) (modelAvailable : Bool)
    (llm : Place → LlmOutcome) (places : List Place) (preco : Option String) : List Place :=
  if places.length = 0 then []
  else if !modelAvailable then sortDescBy (calculateBasicScore log10) places
  else
    let processedPlaces := places.filter (fun p => llm p != LlmOutcome.outerTimeout)
    sortDescBy (placeScore log10 sponsored preco llm) processedPlaces

/-! ## Session store (`userState[from]`, `personasCache[from]`) -/

/-- The object `answers` of a refinement: the keys the code reads, the others verbatim. -/
structure Answers where
  keyword : Option String := none
  filtersKeyword : Option String := none
  openNow : Bool := false
  filtersOpenNow : Bool := false
  other : List (String × String) := []
deriving DecidableEq

/-- The object `refinement`. -/
structure Refinement where
  type : String
  answers : Answers := {}
  lat : Option ℚ := none
  lng : Option ℚ := none
  fromText : Bool := false
deriving DecidableEq

/-- The object `{ type, answers }` held by `awaiting_location_type` and
`awaiting_location_text`. -/
structure TypeAnswers where
  type : String
  answers : Answers := {}
deriving DecidableEq

/-- A stored coordinate `{ lat, lng, ts }` (`lastLocation`, `pendingLocation`). -/
structure Coord where
  lat : Option ℚ
  lng : Option ℚ
  ts : Nat := 0
deriving DecidableEq

/-- The pagination state `cta = { ordered, index }`. -/
structure Cta where
  ordered : List Place
  index : Nat := 0
deriving DecidableEq

/-- The snapshot `lastSearch = { type, lat, lng, answers }`. -/
structure LastSearch where
  type : String
  lat : Option ℚ
  lng : Option ℚ
  answers : Answers := {}
deriving DecidableEq

/-- The hints given to `sendAdaptive`. -/
inductive Hint where
  | smallTalk | confirmBarOrRestaurant | chooseNearby | cta
deriving DecidableEq

/-- Outbound messages, by label: one constructor for each text handed to `sendMessage`. -/
inductive Msg where
  | audioFallback | askIntent | carnavalReply | launchReply | resumeGreet
  | sponsorInfo (place_id : Option String)
  | askName | greetAsk
  | adaptive (hint : Hint)
  | askLocationType
  | chosenPlace (p : Place)
  | infoReply (place_id : Option String) (topic : String)
  | askSelectFirst | footballConfirm | askShareLocation | askPlaceText
  | searching (text : String)
  | geocodeFailed | recovery | processing | noResults | notFound
  | recIntro
  | recCard (number : Nat) (p : Place)
  | partnerExtra (p : Place)
  | nearbyIntro
  | nearbyCard (place_id : Option String)
  | nearbyExtra (place_id : Option String)
  | numericHint
  | generic (reply : String)
  | errorApology
deriving DecidableEq

/-- An entry of `conversationHistory`. -/
inductive HistEntry where
  | user (message : String)
  | bot (message : Msg)
deriving DecidableEq

/-- The record `userState[from]`. A user without an entry is the empty session: the code
creates `{ conversationHistory: [] }` before it reads any other field. -/
structure Session where
  conversationHistory : List HistEntry := []
  /-- absent, `false` or `true` -/
  awaiting_name : Option Bool := none
  /-- the object `{ asked: true, ts }`, by its `ts` -/
  awaiting_intent_choice : Option Nat := none
  /-- the `interview` object is present -/
  interview : Bool := false
  refinement : Option Refinement := none
  awaiting_location_type : Option TypeAnswers := none
  awaiting_location_text : Option TypeAnswers := none
  /-- absent, `false` or `true` -/
  awaitingLocation : Option Bool := none
  pendingLocation : Option Coord := none
  lastLocation : Option Coord := none
  lastMsgId : Option String := none
  /-- `0` when absent -/
  lastActive : Nat := 0
  mood : Option (String × Nat) := none
  cta : Option Cta := none
  selectedPlace : Option Place := none
  lastSearch : Option LastSearch := none
  /-- the reentrancy flag is set -/
  isFinalizing : Bool := false
  instanceId : Option String := none
deriving DecidableEq

/-- The part of a persona kept per domain (`persona.bar`, `persona.rest`). -/
structure DomainPersona where
  preco : Option String := none
deriving DecidableEq

/-- The record `personasCache[from]`. -/
structure Persona where
  nome : Option String := none
  bar : Option DomainPersona := none
  rest : Option DomainPersona := none
deriving DecidableEq

/-- Process-wide configuration and read-only data. -/
structure Config where
  sponsored : List Sponsor
  /-- the global `model` is not `null` -/
  modelAvailable : Bool
  RESUME_GREET_MS : Nat
  haversineKm : ℚ → ℚ → ℚ → ℚ → Option ℚ
  log10 : ℚ → ℚ

/-- The state one event handler works on: the session and persona of the sender and the
outbound messages sent so far by this handler. -/
structure St where
  s : Session := {}
  persona : Persona := {}
  sent : List Msg := []
  /-- the calls of `getNearbyPlaces` made so far: centre and domain -/
  lookups : List (ℚ × ℚ × String) := []
deriving DecidableEq

/-- The call `sendMessage(from, m)` with a non-empty text. -/
def St.send (st : St) (m : Msg) : St := { st with sent := st.sent ++ [m] }

/-- The statement `conversationHistory.push({ role: 'bot', message: m })`. -/
def St.pushBot (st : St) (m : Msg) : St :=
  { st with s := { st.s with conversationHistory := st.s.conversationHistory ++ [HistEntry.bot m] } }

/-- The pair `await sendMessage(from, m); conversationHistory.push(...)`. -/
def St.say (st : St) (m : Msg) : St := (st.send m).pushBot m

/-- The statement `conversationHistory.push({ role: 'user', message: t })`. -/
def St.pushUser (st : St) (t : String) : St :=
  { st with s := { st.s with conversationHistory := st.s.conversationHistory ++ [HistEntry.user t] } }

/-! ## Presentation and search finalization (`presentRecommendations`, `finalizeSearch`,
index.js 1769-1831 and 1858-1982)

The intermediate steps of `finalizeSearch` call external services. Their results, and
whether one of them raises, are given by a `SearchEnv`. -/

/-- The intermediate step of `finalizeSearch` at which an exception is raised. For the
presentation it is the iteration of the card loop (from 0) in which it is raised. -/
inductive FinalizeStep where
  | lookup | ranking
  | presentation (card : Nat)
deriving DecidableEq

/-- What the outside world answers during one run of `finalizeSearch`. -/
structure SearchEnv where
  /-- the result of `getNearbyPlaces` (provider results merged and deduplicated) -/
  rawPlaces : List Place := []
  /-- the outcome of the relevance request for each place -/
  llm : Place → LlmOutcome := fun _ => LlmOutcome.noScore
  raiseAt : Option FinalizeStep := none

/-- The loop `for (let i = 0; i < slice.length; i++)` of `presentRecommendations`, from
iteration `i` on. The flag of the result tells whether an exception was raised. -/
def presentCards (sponsored : List Sponsor) (raiseAt : Option FinalizeStep) :
    Nat → List Place → St → St × Bool
  | _, [], st => (st, false)
  | i, p :: ps, st =>
    if raiseAt = some (FinalizeStep.presentation i) then (st, true)
    else
      let st1 := st.say (Msg.recCard (i + 1) p)
      let sponsor := sponsored.find? (fun s => s.place_id == p.place_id && s.active)
      let st2 := if (sponsor.map (fun s => s.promo)).getD false then st1.say (Msg.partnerExtra p)
        else st1
      presentCards sponsored raiseAt (i + 1) ps st2

/-- Embedding of `presentRecommendations(recipientId, places, startIndex)`. -/
def presentRecommendations (cfg : Config) (raiseAt : Option FinalizeStep) (st : St)
    (places : List Place) (startIndex : Nat) : St × Bool :=
  if places.length = 0 then (st.send Msg.notFound, false)
  else
    let slice := (places.drop startIndex).take 3
    let st1 := st.say Msg.recIntro
    let r := presentCards cfg.sponsored raiseAt 0 slice st1
    if r.2 then r
    else
      let st2 := r.1.say (Msg.adaptive Hint.cta)
      ({ st2 with s := { st2.s with cta := some { ordered := places, index := startIndex } } },
        false)

/-- The branch of `finalizeSearch` taken when `!state.refinement || !lat || !lng`. -/
def recoveryPath (st : St) : St :=
  let st1 := st.say Msg.recovery
  { st1 with s := { st1.s with refinement := none, awaitingLocation := none } }

/-- The domain of a search: `type === 'bar' ? 'bar' : 'restaurante'`. -/
def searchDomain (r : Refinement) : String := if r.type = "bar" then "bar" else "restaurante"

/-- The head of the search branch of `finalizeSearch` (index.js 1881-1917), up to the call of
the places lookup: the message, the early clearing of the awaiting flags, the snapshot
`lastSearch`. -/
def searchStart (st : St) (r : Refinement) : St :=
  let st1 := st.say Msg.processing
  { st1 with
    s := { st1.s with
      awaitingLocation := none, awaiting_location_type := none, awaiting_location_text := none,
      lastSearch := some { type := r.type, lat := r.lat, lng := r.lng, answers := r.answers } },
    lookups := st1.lookups ++ [(r.lat.getD 0, r.lng.getD 0, searchDomain r)] }

/-- The candidates of a search after the lookup (`getNearbyBars` or `getNearbyRestaurants`),
the type filter and the distance filter (index.js 1911-1928). -/
def searchCandidates (cfg : Config) (env : SearchEnv) (r : Refinement) : List Place :=
  let found := filterPlacesByType env.rawPlaces (searchDomain r)
  let typed := filterPlacesByType found (searchDomain r)
  filterByDistance cfg.haversineKm typed (r.lat.getD 0) (r.lng.getD 0) 15

/-- The ranked list handed to the presentation: pre-filter, `rankGeneric`,
`promoteSponsoredOrder` (index.js 1934-1946). -/
def searchRanked (cfg : Config) (env : SearchEnv) (persona : Persona) (r : Refinement) :
    List Place :=
  let top := boosted cfg.log10 cfg.sponsored (searchCandidates cfg env r)
  let domainPersona := if r.type = "restaurante" then persona.rest else persona.bar
  let ranked := rankGeneric cfg.log10 cfg.sponsored cfg.modelAvailable env.llm top
    (domainPersona.bind (fun d => d.preco))
  promoteSponsoredOrder cfg.sponsored ranked

/-- The array `places` of `finalizeSearch` right after the call of `rankGeneric`
(index.js 1943): the ranked list that is handed to `promoteSponsoredOrder`. -/
def rankedCandidates (cfg : Config) (env : SearchEnv) (persona : Persona) (r : Refinement) :
    List Place :=
  rankGeneric cfg.log10 cfg.sponsored cfg.modelAvailable env.llm
    (boosted cfg.log10 cfg.sponsored (searchCandidates cfg env r))
    ((if r.type = "restaurante" then persona.rest else persona.bar).bind (fun d => d.preco))

/-- The statements that save the last choice in the persona (index.js 1957-1964). -/
def saveLastChoice (st : St) (r : Refinement) : St :=
  { st with persona :=
      if r.type = "restaurante" then { st.persona with rest := some (st.persona.rest.getD {}) }
      else { st.persona with bar := some (st.persona.bar.getD {}) } }

/-- The final clearing of the refinement state (index.js 1974-1978). -/
def clearRefinement (st : St) : St :=
  { st with s := { st.s with
    refinement := none, awaiting_location_type := none,
    awaiting_location_text := none, awaitingLocation := none } }

/-- The tail of the search branch (index.js 1948-1978) for the ranked list `places`. -/
def searchFinish (cfg : Config) (env : SearchEnv) (st : St) (r : Refinement)
    (places : List Place) : St × Bool :=
  if places.length = 0 then
    let st1 := st.say Msg.noResults
    ({ st1 with s := { st1.s with refinement := none } }, false)
  else
    let shown := presentRecommendations cfg env.raiseAt (saveLastChoice st r) places 0
    if shown.2 then shown else (clearRefinement shown.1, false)

/-- The rest of the `try` block of `finalizeSearch`, for a refinement `r` whose `lat` and
`lng` are truthy. -/
def searchPath (cfg : Config) (env : SearchEnv) (st : St) (r : Refinement) : St × Bool :=
  let st1 := searchStart st r
  if env.raiseAt = some FinalizeStep.lookup then (st1, true)
  else if env.raiseAt = some FinalizeStep.ranking then (st1, true)
  else searchFinish cfg env st1 r (searchRanked cfg env st1.persona r)

/-- The `try` block of `finalizeSearch`. -/
def finalizeBody (cfg : Config) (env : SearchEnv) (st : St) : St × Bool :=
  match st.s.refinement with
  | none => (recoveryPath st, false)
  | some r =>
    if !truthyNum r.lat || !truthyNum r.lng then (recoveryPath st, false)
    else searchPath cfg env st r

/-- The statements `state.isFinalizing = true` and `delete state.isFinalizing`. -/
def St.setFinalizing (st : St) (b : Bool) : St := { st with s := { st.s with isFinalizing := b } }

/-- Embedding of `finalizeSearch(recipientId)`. The result is the state afterwards and
whether the call ended by an exception (which the `finally` block lets through). -/
def finalizeSearch (cfg : Config) (env : SearchEnv) (st : St) : St × Bool :=
  if st.s.isFinalizing then (st, false)
  else
    let r := finalizeBody cfg env (st.setFinalizing true)
    (r.1.setFinalizing false, r.2)

/-! ## Inbound events and the webhook dispatcher (`app.post('/webhook')`, index.js 2210-2664)

The pure tests the dispatcher makes on the text of a message (regular expressions and
`includes` tests) are carried by the message: each field of `TextMessage` below is the value
of the named expression of the source on `raw`. -/

/-- A non-empty `userMessage` together with the outcome of the text tests of the source. -/
structure TextMessage where
  raw : String
  /-- `userMessage.replace(/[^\p{L}\s'-]/gu, '').trim()` when it is not empty -/
  nameCandidate : Option String := none
  /-- `mentionsCarnaval && mentionsBrasilia` -/
  mentionsCarnavalBrasilia : Bool := false
  /-- `asksLaunchPlace` -/
  asksLaunchPlace : Bool := false
  /-- `detectSponsorMention(userMessage)` -/
  sponsorMention : Option Sponsor := none
  /-- `isGreeting(userMessage)` -/
  isGreeting : Bool := false
  /-- `isSmallTalk(userMessage)` -/
  isSmallTalk : Bool := false
  /-- `detectChosenIntent(userMessage)` -/
  chosenIntent : Option String := none
  /-- `detectInfoIntent(userMessage)` -/
  infoTopic : Option String := none
  /-- `parseSelectionIndex(userMessage)`: `1`, `2`, `3` or `null` -/
  selection : Option Nat := none
  /-- `detectFootballFilter(userMessage)` -/
  footballFilter : Bool := false
  /-- the message includes `perto`, `aqui`, `próximo` or `proximo` -/
  saysNear : Bool := false
  /-- the message includes `outro`, `lugar`, `bairro` or `cidade` -/
  saysElsewhere : Bool := false
  /-- `hasDirectPlace` of `handleLocationTypeResponse` -/
  hasDirectPlace : Bool := false
  /-- `detectMoodSimple(userMessage)` -/
  moodSimple : String := "neutro"
deriving DecidableEq

/-- A `locationMessage`: `degreesLatitude` and `degreesLongitude`. -/
structure LocMessage where
  degreesLatitude : Option ℚ
  degreesLongitude : Option ℚ
deriving DecidableEq

/-- A webhook payload with `event = "messages.upsert"`, for one sender. -/
structure Event where
  /-- `key.id` -/
  messageId : Option String := none
  /-- `key.fromMe` -/
  fromMe : Bool := false
  /-- `message.conversation || message.extendedTextMessage.text` when truthy -/
  text : Option TextMessage := none
  locMessage : Option LocMessage := none
  /-- an `audioMessage` is present; the flag tells whether a base64 body came with it -/
  audioMessage : Option Bool := none
  instanceId : Option String := none
deriving DecidableEq

/-- A sponsor nearby as `getSponsoredNearby` returns it, as far as the messages show it. -/
structure NearbyItem where
  place_id : Option String
  hasExtra : Bool := false
deriving DecidableEq

/-- What the outside world answers while one event is handled: clock, speech-to-text,
language model, geocoding and places services. -/
structure Env where
  /-- `Date.now()` -/
  now : Nat := 0
  /-- the transcript of the audio, when the transcription gives a non-empty text -/
  transcript : Option TextMessage := none
  /-- the answer of `detectMoodLLM` -/
  llmMood : Option String := none
  /-- the launch classifier answered `launch_iae` in time -/
  llmLaunch : Bool := false
  /-- `parsed.intention` of `parseInitialIntent` -/
  parsedIntention : Option String := none
  /-- `parsed.preferences || {}` of `parseInitialIntent` -/
  parsedPreferences : Answers := {}
  /-- the object `currentAnswers` built by `startDynamicRefinement` -/
  currentAnswers : Answers := {}
  /-- the candidate of `resolvePlaceByName` -/
  resolvedByName : Option Place := none
  /-- the result of `geocodeTextPlace`: `lat` and `lng` of the best match -/
  geocode : Option (Option ℚ × Option ℚ) := none
  /-- the result of `getSponsoredNearby` -/
  nearby : List NearbyItem := []
  /-- the text returned by `generateAdaptiveReply(from, userMessage)` in the last fallback -/
  genericReply : Option String := none
  /-- the run of `finalizeSearch` started by the football shortcut -/
  footballSearch : SearchEnv := {}
  /-- the run of `finalizeSearch` started by any other handler -/
  search : SearchEnv := {}

/-- The statement `awaiting_intent_choice = { asked: true, ts: Date.now() }`. -/
def St.setIntentChoice (st : St) (ts : Nat) : St :=
  { st with s := { st.s with awaiting_intent_choice := some ts } }

/-- The statement `pendingLocation = { lat, lng, ts: Date.now() }`. -/
def St.setPendingLocation (st : St) (pend : Coord) : St :=
  { st with s := { st.s with pendingLocation := some pend } }

/-- How a handler of the dispatcher ends. -/
inductive Flow where
  /-- the handler did not take the event, or fell through: the next one runs -/
  | next (st : St)
  /-- `return res.sendStatus(200)` -/
  | done (st : St)
  /-- an exception goes up to the `catch` of the dispatcher -/
  | raised (st : St)
deriving DecidableEq

/-- Run the next handler when the previous one fell through. -/
def Flow.andThen (f : Flow) (k : St → Flow) : Flow :=
  match f with
  | Flow.next st => k st
  | Flow.done st => Flow.done st
  | Flow.raised st => Flow.raised st

/-- The state a handler ends in. -/
def Flow.st : Flow → St
  | Flow.next st => st
  | Flow.done st => st
  | Flow.raised st => st

/-- A call `await finalizeSearch(from); return res.sendStatus(200)` that is not inside a
`try`: the exception, if any, goes up. -/
def finalizeAndReturn (cfg : Config) (env : SearchEnv) (st : St) : Flow :=
  let r := finalizeSearch cfg env st
  if r.2 then Flow.raised r.1 else Flow.done r.1

/-- A call `await finalizeSearch(from); return res.sendStatus(200)` inside a `try` whose
`catch` ignores the exception: after an exception the statements after the `catch` run. -/
def finalizeOrGoOn (cfg : Config) (env : SearchEnv) (st : St) : Flow :=
  let r := finalizeSearch cfg env st
  if r.2 then Flow.next r.1 else Flow.done r.1

/-- Embedding of `startDynamicRefinement` (index.js 1291-1323). -/
def startDynamicRefinement (env : Env) (st : St) (t : TextMessage) (type : String) : St :=
  let st1 := st.pushUser t.raw
  let st2 : St := { st1 with s := { st1.s with
    awaiting_location_type := some { type := type, answers := env.currentAnswers } } }
  st2.say Msg.askLocationType

/-- Embedding of `handleTextPlaceSearch` (index.js 1474-1518); `Flow.next` is `return false`,
`Flow.done` is `return true`. -/
def handleTextPlaceSearch (cfg : Config) (env : Env) (t : TextMessage) (st : St) : Flow :=
  match st.s.awaiting_location_text with
  | none => Flow.next st
  | some ta =>
    let st1 := st.say (Msg.searching t.raw)
    match env.geocode with
    | none => Flow.done (st1.say Msg.geocodeFailed)
    | some geo =>
      let st2 : St := { st1 with s := { st1.s with
        refinement := some { type := ta.type,
                             answers := { ta.answers with keyword := some t.raw },
                             lat := geo.1, lng := geo.2, fromText := true },
        awaiting_location_text := none } }
      finalizeAndReturn cfg env.search st2

/-- The tail `await handleTextPlaceSearch(...); return true`. -/
def thenHandled (f : Flow) : Flow :=
  match f with
  | Flow.next st => Flow.done st
  | other => other

/-- Embedding of `handleLocationTypeResponse` (index.js 1326-1376). -/
def handleLocationTypeResponse (cfg : Config) (env : Env) (t : TextMessage) (st : St) : Flow :=
  match st.s.awaiting_location_type with
  | none => Flow.next st
  | some ta =>
    if t.saysNear then
      let st1 : St := { st with s := { st.s with
        refinement := some { type := ta.type, answers := ta.answers, lat := none, lng := none },
        awaitingLocation := some true,
        awaiting_location_type := none } }
      Flow.done (st1.say Msg.askShareLocation)
    else
      let st1 : St := { st with s := { st.s with
        awaiting_location_text := some ta, awaiting_location_type := none } }
      if t.saysElsewhere then
        if t.hasDirectPlace then thenHandled (handleTextPlaceSearch cfg env t st1)
        else Flow.done (st1.say Msg.askPlaceText)
      else thenHandled (handleTextPlaceSearch cfg env t st1)

/-- The messages of `sendNearbySponsored` for the items found. -/
def nearbyMessages : List NearbyItem → St → St
  | [], st => st
  | item :: items, st =>
    let st1 := st.say (Msg.nearbyCard item.place_id)
    let st2 := if item.hasExtra then st1.say (Msg.nearbyExtra item.place_id) else st1
    nearbyMessages items st2

/-- Embedding of `sendNearbySponsored` (index.js 886-913). -/
def sendNearbySponsored (env : Env) (st : St) : St :=
  if env.nearby.length = 0 then st
  else nearbyMessages env.nearby (st.say Msg.nearbyIntro)

/-- The element `cta.ordered?.[pageStart + idx]` for a selection `sel`. -/
def ctaPlace (cta : Cta) (sel : Nat) : Option Place :=
  cta.ordered[cta.index + (max 1 (min 3 sel) - 1)]?

/-- The truthy value of `sel`, if any. -/
def truthySel : Option Nat → Option Nat
  | some n => if n = 0 then none else some n
  | none => none

/-- The block "Seleção e pedidos de informação sobre itens recomendados" of the dispatcher
(index.js 2479-2531). -/
def ctaBlock (env : Env) (t : TextMessage) (st : St) : Flow :=
  let sel := truthySel t.selection
  let chosen : Option Place :=
    match t.infoTopic, st.s.cta, sel with
    | none, some cta, some n => ctaPlace cta n
    | _, _, _ => none
  match chosen with
  | some place =>
    let st1 : St := { st with s := { st.s with selectedPlace := some place } }
    Flow.done (st1.say (Msg.chosenPlace place))
  | none =>
    match t.infoTopic, st.s.cta with
    | some topic, some cta =>
      let fresh : Option Place := match sel with
        | some n => ctaPlace cta n
        | none => none
      let place : Option Place := match fresh with
        | some q => some q
        | none => st.s.selectedPlace
      match place with
      | some q => Flow.done (st.say (Msg.infoReply q.place_id topic))
      | none => Flow.done (st.say Msg.askSelectFirst)
    | some topic, none =>
      match env.resolvedByName with
      | some candidate =>
        if truthyStr candidate.place_id then
          Flow.done (st.say (Msg.infoReply candidate.place_id topic))
        else Flow.next st
      | none => Flow.next st
    | none, _ => Flow.next st

/-- The keyword `combinedKw` of the football shortcut. -/
def footballKeyword (answers : Answers) : String :=
  let prevKw : String :=
    if truthyStr answers.keyword then answers.keyword.getD ""
    else if truthyStr answers.filtersKeyword then answers.filtersKeyword.getD ""
    else ""
  if prevKw = "" then " futebol jogo jogos telão telao".trim
  else (prevKw ++ " " ++ " futebol jogo jogos telão telao").trim

/-- The block "Refinamento rápido" of the dispatcher (index.js 2533-2560). An exception of
`finalizeSearch` is swallowed by the `catch` of the block and the next handler runs. -/
def footballBlock (cfg : Config) (env : Env) (t : TextMessage) (st : St) : Flow :=
  match st.s.cta, st.s.lastSearch with
  | some _, some base =>
    if t.footballFilter && truthyNum base.lat && truthyNum base.lng then
      let kw := footballKeyword base.answers
      let r0 : Refinement :=
        { type := if base.type = "" then "bar" else base.type,
          answers := { base.answers with keyword := some kw, filtersKeyword := some kw },
          lat := base.lat, lng := base.lng }
      let st1 : St := { st with s := { st.s with refinement := some r0 } }
      finalizeOrGoOn cfg env.footballSearch (st1.say Msg.footballConfirm)
    else Flow.next st
  | _, _ => Flow.next st

/-- The block "Se chegou uma localização" of the dispatcher (index.js 2569-2599). -/
def locationBlock (cfg : Config) (env : Env) (loc : LocMessage) (st : St) : Flow :=
  if st.s.refinement.isSome || st.s.awaitingLocation == some true ||
      st.s.awaiting_location_type.isSome then
    let base : Refinement := match st.s.refinement with
      | some r => r
      | none =>
        { type := match st.s.awaiting_location_type with
                  | some ta => if ta.type = "" then "bar" else ta.type
                  | none => "bar",
          answers := match st.s.awaiting_location_type with
                     | some ta => ta.answers
                     | none => {},
          lat := none, lng := none }
    let st1 : St := { st with s := { st.s with
      refinement := some { base with lat := loc.degreesLatitude, lng := loc.degreesLongitude },
      awaitingLocation := some false } }
    finalizeAndReturn cfg env.search (sendNearbySponsored env st1)
  else
    let pend : Coord :=
      { lat := loc.degreesLatitude, lng := loc.degreesLongitude, ts := env.now }
    let st1 := st.setPendingLocation pend
    let st2 := st1.say (Msg.adaptive Hint.chooseNearby)
    Flow.done (sendNearbySponsored env (st2.setIntentChoice env.now))

/-- The test `pend && typeof pend.lat === 'number' && typeof pend.lng === 'number'`. -/
def numericPending (s : Session) : Option (ℚ × ℚ) :=
  match s.pendingLocation with
  | some pend =>
    match pend.lat, pend.lng with
    | some lat, some lng => some (lat, lng)
    | _, _ => none
  | none => none

/-- Is the intention `bar` or `restaurante`? -/
def validIntent (intent : Option String) : Option String :=
  match intent with
  | some i => if i = "bar" ∨ i = "restaurante" then some i else none
  | none => none

/-- The intent of the block below: `detectChosenIntent(userMessage)`, else the intention
parsed by `parseInitialIntent` when it is `bar` or `restaurante`. -/
def chosenOrParsedIntent (env : Env) (t : TextMessage) : Option String :=
  if truthyStr t.chosenIntent then t.chosenIntent else validIntent env.parsedIntention

/-- The statement `delete userState[from].awaiting_intent_choice`. -/
def St.clearIntentChoice (st : St) : St :=
  { st with s := { st.s with awaiting_intent_choice := none } }

/-- The statements `refinement = { type, answers, lat: pend.lat, lng: pend.lng }` and
`delete pendingLocation`. -/
def St.usePendingLocation (st : St) (type : String) (answers : Answers) (pend : ℚ × ℚ) : St :=
  { st with s := { st.s with
    refinement := some { type := type, answers := answers, lat := some pend.1, lng := some pend.2 },
    pendingLocation := none } }

/-- The block "Escolha explícita: bar vs restaurante" (index.js 2447-2474), entered when
`awaiting_intent_choice` is set. -/
def intentChoiceBlock (cfg : Config) (env : Env) (t : TextMessage) (st : St) : Flow :=
  match st.s.awaiting_intent_choice with
  | none => Flow.next st
  | some _ =>
    match chosenOrParsedIntent env t with
    | some i =>
      match numericPending st.clearIntentChoice.s with
      | some pend =>
        finalizeAndReturn cfg env.search (st.clearIntentChoice.usePendingLocation i {} pend)
      | none => Flow.done (startDynamicRefinement env st.clearIntentChoice t i)
    | none => Flow.done (st.say (Msg.adaptive Hint.confirmBarOrRestaurant))

/-- The first `try` of the last block: a request for a bar or a restaurant understood by
`parseInitialIntent` (index.js 2606-2630). -/
def fallbackIntent (cfg : Config) (env : Env) (t : TextMessage) (st : St) : Flow :=
  match validIntent env.parsedIntention with
  | some i =>
    match numericPending st.s with
    | some pend =>
      finalizeOrGoOn cfg env.search (st.usePendingLocation i env.parsedPreferences pend)
    | none => Flow.done (startDynamicRefinement env st t i)
  | none => Flow.next st

/-- The end of the last block: the hint for a numeric choice without `cta`, else the generic
adaptive reply (index.js 2632-2651). -/
def fallbackReply (env : Env) (t : TextMessage) (st : St) : Flow :=
  match truthySel t.selection, st.s.cta with
  | some _, none => Flow.done (st.say Msg.numericHint)
  | _, _ =>
    match env.genericReply with
    | some reply =>
      if reply.trim = "" then Flow.done st else Flow.done (st.send (Msg.generic reply))
    | none => Flow.done st

/-- The last block, "Fallback adaptativo" (index.js 2601-2652). Every branch returns. -/
def fallbackBlock (cfg : Config) (env : Env) (t : TextMessage) (st : St) : Flow :=
  (fallbackIntent cfg env t st).andThen (fallbackReply env t)

/-- The audio block at the head of the dispatcher (index.js 2229-2260): the message to
process, or `none` when the fallback for an audio that was not understood is sent. -/
def resolveUserMessage (env : Env) (ev : Event) : Option (Option TextMessage) :=
  match ev.text with
  | some t => some (some t)
  | none =>
    match ev.audioMessage with
    | none => some none
    | some hasBase64 =>
      match (if hasBase64 then env.transcript else none) with
      | some t => some (some t)
      | none => none

/-- The name capture (index.js 2263-2277), entered when `awaiting_name` is truthy. -/
def captureName (env : Env) (t : TextMessage) (st : St) : St :=
  let st1 : St := match t.nameCandidate with
    | some nm => if nm = "" then st else { st with persona := { st.persona with nome := some nm } }
    | none => st
  let st2 : St := { st1 with s := { st1.s with awaiting_name := some false } }
  (st2.say Msg.askIntent).setIntentChoice env.now

/-- The idempotency check on the message id (index.js 2292-2299). -/
def checkMessageId (ev : Event) (st : St) : Flow :=
  if truthyStr ev.messageId then
    if st.s.lastMsgId = ev.messageId then Flow.done st
    else Flow.next { st with s := { st.s with lastMsgId := ev.messageId } }
  else Flow.next st

/-- `haversineKm` on coordinates that may be `undefined`: the result is then `NaN`. -/
def haversineOpt (cfg : Config) (a b c d : Option ℚ) : Option ℚ :=
  match a, b, c, d with
  | some lat1, some lon1, some lat2, some lon2 => cfg.haversineKm lat1 lon1 lat2 lon2
  | _, _, _, _ => none

/-- The test `dist < 0.1` on a possibly-`NaN` distance. -/
def ltTenthKm : Option ℚ → Bool
  | some d => decide (d < 1 / 10)
  | none => false

/-- The test on the last location: `lastLoc` is there and `dist < 0.1`. -/
def isNearDuplicate (cfg : Config) (loc : LocMessage) (s : Session) : Bool :=
  match s.lastLocation with
  | some last =>
    ltTenthKm (haversineOpt cfg loc.degreesLatitude loc.degreesLongitude last.lat last.lng)
  | none => false

/-- The statement `lastLocation = { lat, lng, ts: Date.now() }`. -/
def St.setLastLocation (st : St) (here : Coord) : St :=
  { st with s := { st.s with lastLocation := some here } }

/-- The check on near-duplicate locations (index.js 2301-2313). -/
def checkLocation (cfg : Config) (env : Env) (ev : Event) (st : St) : Flow :=
  match ev.locMessage with
  | none => Flow.next st
  | some loc =>
    if isNearDuplicate cfg loc st.s then Flow.done st
    else
      Flow.next (st.setLastLocation
        { lat := loc.degreesLatitude, lng := loc.degreesLongitude, ts := env.now })

/-- The mood of a text: `detectMoodSimple`, refined by `detectMoodLLM` when neutral. -/
def classifiedMood (env : Env) (t : TextMessage) : String :=
  if t.moodSimple = "neutro" then
    (match env.llmMood with
      | some m => if m = "" then t.moodSimple else m
      | none => t.moodSimple)
  else t.moodSimple

/-- The statement `mood = { value, ts }`. -/
def St.setMood (st : St) (value : String) (ts : Nat) : St :=
  { st with s := { st.s with mood := some (value, ts) } }

/-- Embedding of `detectAndUpdateMood` (index.js 581-596). -/
def detectAndUpdateMood (env : Env) (t : TextMessage) (st : St) : St :=
  match st.s.mood with
  | some prev =>
    if prev.1 ≠ "neutro" ∧ classifiedMood env t = "neutro" ∧
        env.now - prev.2 < 30 * 60 * 1000 then st
    else st.setMood (classifiedMood env t) env.now
  | none => st.setMood (classifiedMood env t) env.now

/-- The statements run for every text once the duplicate checks are passed
(index.js 2314-2317). -/
def recordUserMessage (env : Env) (t : TextMessage) (st : St) : St :=
  detectAndUpdateMood env t (st.pushUser t.raw)

/-- The fixed answer on the carnival of Brasília (index.js 2319-2339). -/
def carnavalBlock (t : TextMessage) (st : St) : Flow :=
  if t.mentionsCarnavalBrasilia then Flow.done (st.say Msg.carnavalReply) else Flow.next st

/-- The fixed answer on the launch event (index.js 2340-2378). -/
def launchBlock (env : Env) (t : TextMessage) (st : St) : Flow :=
  if t.asksLaunchPlace || env.llmLaunch then Flow.done (st.say Msg.launchReply)
  else Flow.next st

/-- The greeting after a long inactivity (index.js 2379-2391). -/
def resumeBlock (env : Env) (isResumeAfterInactivity : Bool) (st : St) : Flow :=
  if isResumeAfterInactivity then
    Flow.done ((st.say Msg.resumeGreet).setIntentChoice env.now)
  else Flow.next st

/-- The direct mention of a partner (index.js 2395-2407). -/
def sponsorMentionBlock (t : TextMessage) (st : St) : Flow :=
  match t.sponsorMention with
  | some hit =>
    if truthyStr hit.place_id then Flow.done (st.say (Msg.sponsorInfo hit.place_id))
    else Flow.next st
  | none => Flow.next st

/-- The first-contact branch (index.js 2409-2422). -/
def firstContactBlock (st : St) : Flow :=
  let hasPersonaEarly : Bool :=
    truthyStr st.persona.nome || st.persona.bar.isSome || st.persona.rest.isSome
  let noFlow : Bool :=
    st.s.awaiting_intent_choice.isNone && !st.s.interview && st.s.refinement.isNone &&
      !(st.s.awaiting_name == some true)
  let hasHistory : Bool := decide (st.s.conversationHistory.length > 0)
  if !hasPersonaEarly && noFlow && !hasHistory then
    let st1 := st.say Msg.askName
    Flow.done { st1 with s := { st1.s with awaiting_name := some true } }
  else Flow.next st

/-- The greeting block (index.js 2425-2442). -/
def greetingBlock (env : Env) (t : TextMessage) (st : St) : Flow :=
  if t.isGreeting then
    if t.isSmallTalk then Flow.done (st.say (Msg.adaptive Hint.smallTalk))
    else
      Flow.done ((st.say Msg.greetAsk).setIntentChoice env.now)
  else Flow.next st

/-- The handlers of a text, in the order of the source, from the fixed answers to
`handleTextPlaceSearch`. -/
def textHandlers (cfg : Config) (env : Env) (t : TextMessage) (isResumeAfterInactivity : Bool)
    (st : St) : Flow :=
  (carnavalBlock t st).andThen fun st1 =>
  (launchBlock env t st1).andThen fun st2 =>
  (resumeBlock env isResumeAfterInactivity st2).andThen fun st3 =>
  (sponsorMentionBlock t st3).andThen fun st4 =>
  (firstContactBlock st4).andThen fun st5 =>
  (greetingBlock env t st5).andThen fun st6 =>
  (intentChoiceBlock cfg env t st6).andThen fun st7 =>
  (ctaBlock env t st7).andThen fun st8 =>
  (footballBlock cfg env t st8).andThen fun st9 =>
  (handleLocationTypeResponse cfg env t st9).andThen fun st10 =>
  handleTextPlaceSearch cfg env t st10

/-- The dispatcher from the creation of the session entry on (index.js 2279-2653). -/
def dispatch (cfg : Config) (env : Env) (ev : Event) (userMessage : Option TextMessage)
    (st : St) : Flow :=
  let isResumeAfterInactivity : Bool :=
    st.s.lastActive != 0 && decide (env.now - st.s.lastActive > cfg.RESUME_GREET_MS)
  let st0 : St := { st with s := { st.s with
    instanceId := if truthyStr ev.instanceId then ev.instanceId else st.s.instanceId,
    lastActive := env.now } }
  (checkMessageId ev st0).andThen fun st1 =>
  (checkLocation cfg env ev st1).andThen fun st2 =>
  (match userMessage with
    | some t => textHandlers cfg env t isResumeAfterInactivity (recordUserMessage env t st2)
    | none => Flow.next st2).andThen fun st3 =>
  (match ev.locMessage with
    | some loc => locationBlock cfg env loc st3
    | none => Flow.next st3).andThen fun st4 =>
  match userMessage with
  | some t => fallbackBlock cfg env t st4
  | none => Flow.next st4

/-- Embedding of the handler `app.post('/webhook')` for a `messages.upsert` event of one
sender: the state afterwards and the HTTP status. -/
def webhook (cfg : Config) (env : Env) (ev : Event) (st : St) : St × Nat :=
  if ev.fromMe then (st, 200)
  else
    match resolveUserMessage env ev with
    | none => (st.send Msg.audioFallback, 200)
    | some userMessage =>
      match userMessage, st.s.awaiting_name with
      | some t, some true => (captureName env t st, 200)
      | _, _ =>
        match dispatch cfg env ev userMessage st with
        | Flow.next st1 => (st1, 200)
        | Flow.done st1 => (st1, 200)
        | Flow.raised st1 => (st1.say Msg.errorApology, 500)

/-- The state after a sequence of events, each handled with what the outside world answers
while it is handled. -/
def run (cfg : Config) : List (Event × Env) → St → St
  | [], st => st
  | (ev, env) :: rest, st => run cfg rest (webhook cfg env ev st).1

/-- The flow flags of the specification that are active (set and truthy) in a session. -/
def activeFlags (s : Session) : List String :=
  (if s.awaiting_name = some true then ["awaiting_name"] else []) ++
  (if s.awaiting_intent_choice.isSome then ["awaiting_intent_choice"] else []) ++
  (if s.interview then ["interview"] else []) ++
  (if s.refinement.isSome then ["refinement"] else []) ++
  (if s.awaiting_location_type.isSome then ["awaiting_location_type"] else []) ++
  (if s.awaiting_location_text.isSome then ["awaiting_location_text"] else []) ++
  (if s.awaitingLocation = some true then ["awaitingLocation"] else [])

/-! ## Relations between the state before and after a handler, used by the proofs -/

/-- The session without its history. -/
def Session.forgetTalk (s : Session) : Session := { s with conversationHistory := [] }

/-- The session without its history and its pagination state. -/
def Session.forgetCta (s : Session) : Session := { s.forgetTalk with cta := none }

/-- The session without the fields `finalizeSearch` may touch: the history, `cta`,
`refinement`, `awaitingLocation`, `awaiting_location_type`, `awaiting_location_text`,
`lastSearch` and `isFinalizing`. -/
def Session.forgetSearch (s : Session) : Session :=
  { s.forgetCta with
    refinement := none, awaitingLocation := none, awaiting_location_type := none,
    awaiting_location_text := none, lastSearch := none, isFinalizing := false }

/-- The state `st1` comes from `st` by sending messages, none of them the ask-name message,
and by pushing entries to the history: every other field is the same. -/
def Talk (st st1 : St) : Prop :=
  st1.persona = st.persona ∧ st1.lookups = st.lookups ∧
  st1.s.forgetTalk = st.s.forgetTalk ∧
  (st.s.conversationHistory ≠ [] → st1.s.conversationHistory ≠ []) ∧
  ∃ extra, st1.sent = st.sent ++ extra ∧ Msg.askName ∉ extra

/-- As `Talk`, but the pagination state `cta` may have been replaced too. -/
def TalkCta (st st1 : St) : Prop :=
  st1.persona = st.persona ∧ st1.lookups = st.lookups ∧
  st1.s.forgetCta = st.s.forgetCta ∧
  (st.s.conversationHistory ≠ [] → st1.s.conversationHistory ≠ []) ∧
  ∃ extra, st1.sent = st.sent ++ extra ∧ Msg.askName ∉ extra

/-- Every field of the session that `finalizeSearch` does not touch is the same in `st1` as
in `st`, and the messages sent in between do not include the ask-name message. -/
def SearchFrame (st st1 : St) : Prop :=
  st1.s.forgetSearch = st.s.forgetSearch ∧
  (st.s.conversationHistory ≠ [] → st1.s.conversationHistory ≠ []) ∧
  ∃ extra, st1.sent = st.sent ++ extra ∧ Msg.askName ∉ extra

/-- The guard of `finalizeSearch` passes: a `refinement` with truthy `lat` and `lng`. -/
def hasUsableRefinement (s : Session) : Bool :=
  match s.refinement with
  | some r => truthyNum r.lat && truthyNum r.lng
  | none => false

/-- The two facts on flow flags that every handler keeps: the interview is never started,
and `awaitingLocation` is truthy only while a `refinement` is there. -/
def FlagsLinked (s : Session) : Prop :=
  s.interview = false ∧ (s.awaitingLocation = some true → s.refinement.isSome = true)

/-- What every handler guarantees about the state `st1` it leaves, given the state `st` it
starts from. -/
def Stable (st st1 : St) : Prop :=
  (∃ extra, st1.sent = st.sent ++ extra ∧ Msg.askName ∉ extra) ∧
  (st1.s.awaiting_name = some true → st.s.awaiting_name = some true) ∧
  (st.s.conversationHistory ≠ [] → st1.s.conversationHistory ≠ []) ∧
  (FlagsLinked st.s → FlagsLinked st1.s)

/-! ## Concrete inputs used in the checks below -/

/-- A bar that the provider reports as permanently closed. -/
def closedBar : Place :=
  { place_id := some "p1", name := some "Bar do Zé", types := ["bar"],
    business_status := some "CLOSED_PERMANENTLY" }

/-- An operational bar. -/
def openBar : Place :=
  { place_id := some "p2", name := some "Boteco da Esquina", types := ["bar"],
    business_status := some "OPERATIONAL" }

/-- Four places with distinct identifiers; the last three belong to sponsors. -/
def placeW : Place := { place_id := some "w", name := some "Bar W", types := ["bar"] }
def placeA : Place := { place_id := some "a", name := some "Bar A", types := ["bar"] }
def placeB : Place := { place_id := some "b", name := some "Bar B", types := ["bar"] }
def placeC : Place := { place_id := some "c", name := some "Bar C", types := ["bar"] }

def sponsorA : Sponsor := { place_id := some "a", active := true, prioridade := some 1 }
def sponsorB : Sponsor := { place_id := some "b", active := true, prioridade := some 2 }
def sponsorC : Sponsor := { place_id := some "c", active := true, prioridade := some 3 }
/-- An inactive sponsor, and one whose place is not in the list. -/
def sponsorOff : Sponsor := { place_id := some "w", active := false, prioridade := some 1 }
def sponsorAway : Sponsor := { place_id := some "z", active := true, prioridade := some 1 }

/-- A configuration without sponsors and without language model. The distance and logarithm
functions are placeholders: the runs below never reach a distance or a score. -/
def cfgPlain : Config :=
  { sponsored := [], modelAvailable := false, RESUME_GREET_MS := 172800000,
    haversineKm := fun _ _ _ _ => none, log10 := fun _ => 0 }

/-- The text `oi`: a greeting, not small talk, no other test matches. -/
def textOi : TextMessage := { raw := "oi", nameCandidate := some "oi", isGreeting := true }

/-- The text `bar`: `detectChosenIntent` answers `bar`. -/
def textBar : TextMessage := { raw := "bar", nameCandidate := some "bar", chosenIntent := some "bar" }

/-- The text `perto`: it includes `perto`. -/
def textPerto : TextMessage := { raw := "perto", nameCandidate := some "perto", saysNear := true }

def evOi : Event := { messageId := some "m1", text := some textOi }
def evBar : Event := { messageId := some "m2", text := some textBar }
def evPerto : Event := { messageId := some "m3", text := some textPerto }
/-- The text `oi` once more, as a new message. -/
def evOiAgain : Event := { messageId := some "m3", text := some textOi }

/-- An audio message that comes without a base64 body, so that nothing is transcribed. -/
def evAudio : Event := { messageId := some "a1", audioMessage := some false }

/-- The outside world at time `now`: the language model does not answer, nothing is found. -/
def envAt (now : Nat) : Env := { now := now }

/-- A session in which a location on the equator (latitude 0, near Macapá) has just been
attached to the refinement while `awaiting_location_type` was still set: the state in which
the location block of the dispatcher calls `finalizeSearch`. -/
def stEquator : St :=
  { s := { refinement := some { type := "bar", lat := some 0, lng := some (-51) },
           awaiting_location_type := some { type := "bar" },
           awaitingLocation := some false } }

/-- A session with a refinement in Brasília (whole degrees), ready to be searched. -/
def stBrasilia : St :=
  { s := { refinement := some { type := "bar", lat := some (-15), lng := some (-47) },
           awaitingLocation := some true } }

/-- An operational bar for which the provider sent no geometry. -/
def barNoGeometry : Place :=
  { place_id := some "p9", name := some "Bar Sem Mapa", types := ["bar"],
    business_status := some "OPERATIONAL" }

/-- A run of `finalizeSearch` in which the provider returns `barNoGeometry` and the
presentation raises on the first card (as `encodeURIComponent(p.name)` does for a name with
an unpaired surrogate). -/
def envPresentationRaises : SearchEnv :=
  { rawPlaces := [barNoGeometry], raiseAt := some (FinalizeStep.presentation 0) }

/-- The same session while a run of `finalizeSearch` is under way. -/
def stBusy : St := { stBrasilia with s := { stBrasilia.s with isFinalizing := true } }

/-- A second directory entry for the place of `sponsorA`, with another priority. -/
def sponsorATwice : Sponsor := { place_id := some "a", active := true, prioridade := some 2 }

/-- A sponsor of the place `a` whose `prioridade` is the number 0. -/
def sponsorZero : Sponsor := { place_id := some "a", active := true, prioridade := some 0 }

/-- A sponsor of the place `a` whose `prioridade` is the number `1e21`, which `String` prints
as `1e+21`. -/
def sponsorHuge : Sponsor :=
  { place_id := some "a", active := true, prioridade := some (10 ^ 21) }

/-- A sponsor of the place `b` with a negative `prioridade`. -/
def sponsorNeg : Sponsor := { place_id := some "b", active := true, prioridade := some (-5) }

/-- A sponsor of the place `b` with the same `prioridade` as `sponsorA`. -/
def sponsorAlso : Sponsor := { place_id := some "b", active := true, prioridade := some 1 }

/-- `Math.log10` at the only argument the checks below give it: their places carry no review
count, so the logarithm is taken at 1, where it is 0. -/
def logAtOne : ℚ → ℚ := fun _ => 0

/-- A bar rated 4 that has no sponsor. -/
def barRated4 : Place :=
  { place_id := some "r4", name := some "Bar Quatro", types := ["bar"], rating := some 4 }

/-- The bar of `sponsorA`, rated 3. -/
def barSponsored3 : Place :=
  { place_id := some "a", name := some "Bar A", types := ["bar"], rating := some 3 }

/-- Every relevance request runs into the inner timer of `scorePlace`. -/
def llmTimesOut : Place → LlmOutcome := fun _ => LlmOutcome.noScore

/-- The request for `placeA` is cut by the outer per-item timer, the others by the inner
one. -/
def llmOuterTimeoutA : Place → LlmOutcome :=
  fun p => if p = placeA then LlmOutcome.outerTimeout else LlmOutcome.noScore

/-- A restaurant of the highest price level of the provider. -/
def luxuryPlace : Place :=
  { place_id := some "lx", name := some "Maison", types := ["restaurant"],
    price_level := some 4 }

/-- An operational bar with the identifier `id`, for which the provider sent no geometry. -/
def barWithId (id : String) : Place :=
  { place_id := some id, name := some "Bar", types := ["bar"],
    business_status := some "OPERATIONAL" }

/-- Thirteen operational bars with distinct identifiers. -/
def thirteenBars : List Place :=
  ["c01", "c02", "c03", "c04", "c05", "c06", "c07", "c08", "c09", "c10", "c11", "c12",
    "c13"].map barWithId

/-- A run of `finalizeSearch` in which the provider returns the thirteen bars. -/
def envThirteen : SearchEnv := { rawPlaces := thirteenBars }

/-- The refinement of `stBrasilia`. -/
def refBrasilia : Refinement := { type := "bar", lat := some (-15), lng := some (-47) }

/-! ## Text tests on the characters of a message (`parseSelectionIndex`, `detectChosenIntent`) -/

/-- A word character of a regular expression without the `u` flag: `[A-Za-z0-9_]`. -/
def isWordChar (c : Char) : Bool := c.isAlphanum || c == '_'

/-- White space `\s` of a JavaScript regular expression, which is also what `trim` removes. -/
def isJsSpace (c : Char) : Bool :=
  let n := c.toNat
  n == 32 || (9 ≤ n && n ≤ 13) || n == 160 || n == 5760 || (8192 ≤ n && n ≤ 8202) ||
    n == 8232 || n == 8233 || n == 8239 || n == 8287 || n == 12288 || n == 65279

/-- The lower case of one character, as far as the tests of this file can tell: a capital of
ASCII is lowered, the capital I with a dot (U+0130) becomes `i` followed by the combining dot
(U+0307), the Kelvin sign (U+212A) becomes `k`. Every other character outside ASCII has a
lower case outside ASCII that is, like the character itself, no word character, no white
space and no letter of the words looked for, and is left as it is. -/
def lowerChar (c : Char) : List Char :=
  if c.toNat = 304 then ['i', Char.ofNat 775]
  else if c.toNat = 8490 then ['k']
  else [c.toLower]

/-- The characters of `text.toLowerCase()`. -/
def lowerChars (text : String) : List Char := text.data.flatMap lowerChar

/-- The match of `/\b([123])\b/`: the first digit 1, 2 or 3 with no word character right
before it and none right after it. `prev` is the character before the list. -/
def firstLoneDigit : Option Char → List Char → Option Nat
  | _, [] => none
  | prev, c :: rest =>
    let before : Bool := match prev with
      | some p => !isWordChar p
      | none => true
    let after : Bool := match rest with
      | d :: _ => !isWordChar d
      | [] => true
    if (c == '1' || c == '2' || c == '3') && before && after then some (c.toNat - 48)
    else firstLoneDigit (some c) rest

/-- Does the list start with `\s*o`: white space, if any, then the letter `o`? -/
def spacesThenO : List Char → Bool
  | [] => false
  | c :: rest => if c == 'o' then true else if isJsSpace c then spacesThenO rest else false

/-- The test of `/d\s*o/` for a digit `d`. -/
def digitThenO (d : Char) : List Char → Bool
  | [] => false
  | c :: rest => (c == d && spacesThenO rest) || digitThenO d rest

/-- Embedding of `parseSelectionIndex(text)` (index.js 221-233). -/
def parseSelectionIndex (text : String) : Option Nat :=
  let t := lowerChars text
  match firstLoneDigit none t with
  | some n => some n
  | none =>
    if includesChars t "primeir".data || digitThenO '1' t then some 1
    else if includesChars t "segund".data || digitThenO '2' t then some 2
    else if includesChars t "terceir".data || digitThenO '3' t then some 3
    else none

/-- A session that shows the first page of three results. -/
def stThreeResults : St :=
  { s := { cta := some { ordered := [placeA, placeB, placeC], index := 0 } } }

/-- The text `2`, with the selection that `parseSelectionIndex` reads in it. -/
def textTwo : TextMessage := { raw := "2", selection := parseSelectionIndex "2" }

/-- The text `5`, in which `parseSelectionIndex` reads no selection. -/
def textFive : TextMessage := { raw := "5", selection := parseSelectionIndex "5" }

/-- Number of UTF-16 code units of a character. -/
def utf16Units (c : Char) : Nat := if c.toNat < 65536 then 1 else 2

/-- The class `[a-z0-9]`. -/
def isLowerAlnum (c : Char) : Bool := c.isLower || c.isDigit

/-- The replacement `.replace(/[^a-z0-9]+/g, ' ')`: every maximal run of characters outside
`[a-z0-9]` becomes one blank; `inRun` says that the previous character was in such a run. -/
def replaceNonAlnum : Bool → List Char → List Char
  | _, [] => []
  | inRun, c :: rest =>
    if isLowerAlnum c then c :: replaceNonAlnum false rest
    else if inRun then replaceNonAlnum true rest
    else ' ' :: replaceNonAlnum true rest

/-- JavaScript `trim` on a character list. -/
def trimChars (cs : List Char) : List Char :=
  ((cs.dropWhile isJsSpace).reverse.dropWhile isJsSpace).reverse

/-- The split `.split(/\s+/)`: the pieces between the maximal runs of white space; `inSep`
says that the previous character was white space, `cur` is the piece read so far, reversed.
The empty text gives one empty piece. -/
def splitSpaces : Bool → List Char → List Char → List (List Char)
  | _, cur, [] => [cur.reverse]
  | inSep, cur, c :: rest =>
    if isJsSpace c then
      if inSep then splitSpaces true cur rest
      else cur.reverse :: splitSpaces true [] rest
    else splitSpaces false (c :: cur) rest

/-- Scan for `lastIndexOf`: `off` is the UTF-16 index of the head of the text and `acc` the
last match seen so far. -/
def lastIndexOfFrom (sub : List Char) : List Char → Nat → Int → Int
  | [], off, acc => if sub.isEmpty then (off : Int) else acc
  | c :: rest, off, acc =>
    lastIndexOfFrom sub rest (off + utf16Units c)
      (if sub.isPrefixOf (c :: rest) then (off : Int) else acc)

/-- JavaScript `lastIndexOf`: the UTF-16 index of the last occurrence of `sub`, or `-1`. -/
def lastIndexOf (text : List Char) (sub : String) : Int :=
  lastIndexOfFrom sub.data text 0 (-1)

/-- Embedding of `detectChosenIntent(msg)`. The argument `fold` stands for
`toLowerCase().normalize('NFD').replace(/\p{Diacritic}/gu, '')`. -/
def detectChosenIntent (fold : String → List Char) (msg : String) : Option String :=
  let lower := fold msg
  let tokens := splitSpaces false [] (trimChars (replaceNonAlnum false lower))
  let has := fun (w : String) => decide (w.data ∈ tokens)
  let saysBar := has "bar" || has "bares" || has "pub" || has "boteco" || has "barzinho" ||
    includesChars lower "barzin".data
  let saysRest := has "restaurante" || has "restaurantes" || has "jantar" || has "almoco" ||
    has "almoc" || has "resto" || has "restaurantez" || includesChars lower "restaur".data
  if saysBar && !saysRest then some "bar"
  else if saysRest && !saysBar then some "restaurante"
  else if saysBar && saysRest then
    let lastBarIdx := max (max (max (lastIndexOf lower " bar ") (lastIndexOf lower " bar"))
      (lastIndexOf lower "bar ")) (lastIndexOf lower "barzinho")
    let lastRestIdx := max (max (max (lastIndexOf lower " restaurante ")
      (lastIndexOf lower " restaurante")) (lastIndexOf lower "restaurante "))
      (lastIndexOf lower "restaur")
    if lastBarIdx > lastRestIdx then some "bar"
    else if lastRestIdx > lastBarIdx then some "restaurante"
    else none
  else none

/-- The folding of `detectChosenIntent` on texts of ASCII characters: the letters are put in
lower case, canonical decomposition changes nothing, and the two ASCII characters with the
property Diacritic, the circumflex 94 and the grave accent 96, are removed. -/
def asciiFold (msg : String) : List Char :=
  (msg.data.map Char.toLower).filter (fun c => !(c.toNat == 94 || c.toNat == 96))

/-! ## Outbound gateway (`calcTypingDelay`, `sendMessage`, index.js 1031-1102) -/

/-- The `length` of a JavaScript string: the number of UTF-16 code units. -/
def utf16Length (s : String) : Nat :=
  (s.data.map (fun c => if c.toNat < 65536 then 1 else 2)).sum

/-- The delay of `calcTypingDelay` before the jitter, for a text of `len` code units:
`Math.max(600, Math.min(500 + 35 * Math.min(len, 120), 3500))`. -/
def typingDelayBase (len : Nat) : Int :=
  max 600 (min (500 + 35 * (min len 120 : Nat)) 3500)

/-- Rounding of a rational to the nearest integer, a tie to the even one. -/
def roundHalfEven (q : ℚ) : Int :=
  if q - ⌊q⌋ < 1 / 2 then ⌊q⌋
  else if 1 / 2 < q - ⌊q⌋ then ⌊q⌋ + 1
  else if ⌊q⌋ % 2 = 0 then ⌊q⌋ else ⌊q⌋ + 1

/-- The binary exponent of a positive rational `x`: the integer `k` with
`2^k ≤ x < 2^(k+1)`. -/
def binaryExponent (x : ℚ) : Int :=
  if 1 ≤ x then (bitLength 1100 ⌊x⌋.toNat : Int) - 1
  else -(bitLength 1100 (⌈x⁻¹⌉.toNat - 1) : Int)

/-- The double nearest to a rational `x` with `0 ≤ x < 2^1024`, a tie to the even
significand: the result of a floating-point operation whose exact result is `x`. The
significand has 53 binary digits and the exponent is not below that of the subnormal
numbers. -/
def doubleOf (x : ℚ) : ℚ :=
  if x ≤ 0 then 0
  else
    let e := max (binaryExponent x - 52) (-1074)
    if 0 ≤ e then (roundHalfEven (x / 2 ^ e.toNat) : ℚ) * 2 ^ e.toNat
    else (roundHalfEven (x * 2 ^ (-e).toNat) : ℚ) / 2 ^ (-e).toNat

/-- Embedding of `calcTypingDelay(text)`; `r` is the value of `Math.random()`, and the
product `Math.random() * 250` is the double nearest to `r * 250`. -/
def calcTypingDelay (text : String) (r : ℚ) : Int :=
  let delay := typingDelayBase (utf16Length text)
  let jitter := ⌊doubleOf (r * 250)⌋ - 125
  max 400 (delay + jitter)

/-- The characters of `String(text).trim()`. -/
def jsTrim (text : String) : List Char := trimChars text.data

/-- What the gateway answers to one `axios.post`: success, or an error with
`err.response.status` (absent when no response came) and the error message
`err.response.data.message || err.message`. -/
inductive GatewayResponse where
  | ok
  | fail (status : Option Nat) (message : String)
deriving DecidableEq

/-- The local function `isTransient(status, msg)` of `sendMessage`. -/
def isTransient (status : Option Nat) (msg : String) : Bool :=
  match status with
  | none => false
  | some s =>
    if s = 0 then false
    else
      s == 429 || (500 ≤ s && s < 600) || includesChars (lowerChars msg) "bad gateway".data ||
        includesChars (lowerChars msg) "timed out".data

/-- Is the answer a transient failure? -/
def GatewayResponse.transient : GatewayResponse → Bool
  | GatewayResponse.ok => false
  | GatewayResponse.fail status msg => isTransient status msg

/-- A request body handed to the gateway by `sendMessage`. -/
inductive Post where
  | original
  | apology
deriving DecidableEq

/-- How a call of `sendMessage` ends; it returns in every case. -/
inductive SendEnd where
  /-- the text is empty after trimming: nothing is posted -/
  | nothingToSend
  /-- an attempt succeeded -/
  | delivered
  /-- the last attempt failed with a transient failure: return without fallback -/
  | gaveUp
  /-- the fallback text was posted with success -/
  | apologized
  /-- the post of the fallback text failed too; the error is logged -/
  | apologyFailed
deriving DecidableEq

/-- The loop `for (let attempt = 1; attempt <= 3; attempt++)` of `sendMessage` from `attempt`
on, with `left` iterations to go; `respond k` is the answer to the post number `k` (from 0)
of the call. The result is the number of posts made and the last error, if the loop ended
by `break`. -/
def sendLoop (respond : Nat → GatewayResponse) : Nat → Nat → Nat × Option GatewayResponse
  | _, 0 => (0, none)
  | attempt, left + 1 =>
    match respond (attempt - 1) with
    | GatewayResponse.ok => (1, none)
    | GatewayResponse.fail status msg =>
      if isTransient status msg && decide (attempt < 3) then
        ((sendLoop respond (attempt + 1) left).1 + 1, (sendLoop respond (attempt + 1) left).2)
      else (1, some (GatewayResponse.fail status msg))

/-- Embedding of `sendMessage(to, text)`: the posts made, in order, and how the call ends. -/
def sendMessage (text : String) (respond : Nat → GatewayResponse) : List Post × SendEnd :=
  if (jsTrim text).length = 0 then ([], SendEnd.nothingToSend)
  else
    let r := sendLoop respond 1 3
    match r.2 with
    | none => (List.replicate r.1 Post.original, SendEnd.delivered)
    | some lastErr =>
      if lastErr.transient then (List.replicate r.1 Post.original, SendEnd.gaveUp)
      else
        match respond r.1 with
        | GatewayResponse.ok =>
          (List.replicate r.1 Post.original ++ [Post.apology], SendEnd.apologized)
        | GatewayResponse.fail _ _ =>
          (List.replicate r.1 Post.original ++ [Post.apology], SendEnd.apologyFailed)

/-- The gateway is down: every post is answered by status 503. -/
def gatewayDown : Nat → GatewayResponse :=
  fun _ => GatewayResponse.fail (some 503) "Service Unavailable"

/-- The gateway refuses every post with status 400. -/
def gatewayRefuses : Nat → GatewayResponse :=
  fun _ => GatewayResponse.fail (some 400) "Bad Request"

/-- The gateway answers the first post with status 400 and a message that says
`timed out`, then succeeds. -/
def gatewaySlowOnce : Nat → GatewayResponse :=
  fun k => if k = 0 then GatewayResponse.fail (some 400) "Request timed out"
    else GatewayResponse.ok

/-! ## Deduplication of the provider results (`getNearbyPlaces`, index.js 1572) -/

/-- The call `map.set(key, value)` on the entries of a `Map`, kept in insertion order: a key
that is there keeps its position and gets the new value, a new key goes to the end. -/
def mapSet (entries : List (Option String × Place)) (key : Option String) (value : Place) :
    List (Option String × Place) :=
  if entries.any (fun e => e.1 == key) then
    entries.map (fun e => if e.1 == key then (key, value) else e)
  else entries ++ [(key, value)]

/-- The entries of `new Map(allResults.map(p => [p.place_id, p]))`. -/
def resultsById (allResults : List Place) : List (Option String × Place) :=
  allResults.foldl (fun m p => mapSet m p.place_id p) []

/-- The array `uniqueResults` of `getNearbyPlaces` (index.js 1572):
`Array.from(new Map(allResults.map(p => [p.place_id, p])).values())`. -/
def uniqueResults (allResults : List Place) : List Place :=
  (resultsById allResults).map (fun e => e.2)

/-- The record of the place `a` as a second type-query returns it, with a rating. -/
def placeARated : Place := { placeA with rating := some 4 }

/-- In the list `ids` the first occurrence of `a` comes before every occurrence of `b`. -/
def FirstSeenBefore (ids : List (Option String)) (a b : Option String) : Prop :=
  ∃ front back, ids = front ++ back ∧ a ∈ front ∧ b ∉ front

/-! ## Inactivity sweep (index.js 2674-2689) -/

/-- The constant `INACTIVITY_MS`: 45 minutes. -/
def INACTIVITY_MS : Nat := 45 * 60 * 1000

/-- The body of the loop of the sweep for one session (index.js 2679-2687). The field
`awaiting_filter`, which the sweep deletes too, is written nowhere in the code and is not
part of the session record. -/
def sweepSession (now : Nat) (s : Session) : Session :=
  if s.lastActive != 0 && decide (now - s.lastActive > INACTIVITY_MS) then
    { s with
      refinement := none, awaiting_location_type := none, awaiting_location_text := none,
      awaitingLocation := none, cta := none }
  else s

/-- The callback of `setInterval` (index.js 2676-2688) on the store `userState`, given as
the list of its entries. -/
def sweep (now : Nat) (store : List (String × Session)) : List (String × Session) :=
  store.map (fun e => (e.1, sweepSession now e.2))

/-- The session of a user who said `oi` at time 1000 and nothing since. -/
def stGreeted : St := (webhook cfgPlain (envAt 1000) evOi {}).1

/-- The text `qual o horário?`: an information request on the opening hours, without a
selection. -/
def textHours : TextMessage :=
  { raw := "qual o horário?", nameCandidate := some "qual o horário", infoTopic := some "hours" }

/-- A session in Brasília, ready to be searched, in which `placeW` was selected from an
earlier page. -/
def stSelectedW : St :=
  { stBrasilia with s := { stBrasilia.s with
      cta := some { ordered := [placeW], index := 0 }, selectedPlace := some placeW } }

/-- A run of `finalizeSearch` in which the provider returns `barNoGeometry` only. -/
def envOneBar : SearchEnv := { rawPlaces := [barNoGeometry] }

/-! ## Location events -/

/-- A message of `sendNearbySponsored`. -/
def isNearbyMsg : Msg → Bool
  | Msg.nearbyIntro => true
  | Msg.nearbyCard _ => true
  | Msg.nearbyExtra _ => true
  | _ => false

/-- The session once the head of the dispatcher has noted the event: `instanceId`,
`lastActive` and `lastMsgId` (index.js 2281-2298). -/
def St.noted (ev : Event) (env : Env) (st : St) : St :=
  { st with s := { st.s with
    instanceId := if truthyStr ev.instanceId then ev.instanceId else st.s.instanceId,
    lastActive := env.now, lastMsgId := ev.messageId } }

/-- The noted session with the location of the event as `lastLocation` (index.js 2311). -/
def St.located (ev : Event) (env : Env) (loc : LocMessage) (st : St) : St :=
  (st.noted ev env).setLastLocation
    { lat := loc.degreesLatitude, lng := loc.degreesLongitude, ts := env.now }

/-- A location event: a location, no text, no audio, not sent by the assistant itself, with
a message id that differs from the last one handled. -/
def IsFreshLocation (ev : Event) (loc : LocMessage) (st : St) : Prop :=
  ev.fromMe = false ∧ ev.text = none ∧ ev.audioMessage = none ∧ ev.locMessage = some loc ∧
  truthyStr ev.messageId = true ∧ st.s.lastMsgId ≠ ev.messageId

/-- A location message in Brasília, in whole degrees. -/
def locBrasilia : LocMessage :=
  { degreesLatitude := some (-15), degreesLongitude := some (-47) }

/-- The event that carries `locBrasilia`. -/
def evLocation : Event := { messageId := some "l1", locMessage := some locBrasilia }

/-- A configuration whose distance function answers 0 km for identical points and 1 km for
any other pair. -/
def cfgFlat : Config :=
  { cfgPlain with
    haversineKm := fun a b c d => if a = c ∧ b = d then some 0 else some 1 }

/-- A session whose last location is the point of `locBrasilia`, with a result page open. -/
def stSeenBrasilia : St :=
  { s := { lastLocation := some { lat := some (-15), lng := some (-47), ts := 1000 },
           lastMsgId := some "l0",
           cta := some { ordered := [placeA], index := 0 } } }

/-- A session that waits for the name of a place, for a bar search. -/
def stAwaitingPlaceText : St := { s := { awaiting_location_text := some { type := "bar" } } }

/-- The text `xyzzy`, which no text test matches. -/
def textUnknownPlace : TextMessage := { raw := "xyzzy", nameCandidate := some "xyzzy" }

/-! ## The combined score in the words of the specification -/

/-- The price brackets of the specification (section 4.3). -/
inductive PriceBracket where
  | economic
  | moderate
  | luxury
deriving DecidableEq

/-- The bracket that a persona declares, in the words of the claims: the three answers that
the interview offers. -/
def declaredBracketSpec (preco : Option String) : Option PriceBracket :=
  if preco = some "econômico" then some PriceBracket.economic
  else if preco = some "moderado" then some PriceBracket.moderate
  else if preco = some "luxuoso" then some PriceBracket.luxury
  else none

/-- The price-tier match in the words of the specification (section 4.3): the declared
bracket matches the bucket of `price_level`, at most 1 for economic, 2 or 3 for moderate, 4
for luxury. -/
def priceTierMatchSpec (preco : Option String) (p : Place) : Bool :=
  match declaredBracketSpec preco, p.price_level with
  | some PriceBracket.economic, some l => decide (l ≤ 1)
  | some PriceBracket.moderate, some l => decide (l = 2 ∨ l = 3)
  | some PriceBracket.luxury, some l => decide (l = 4)
  | _, _ => false

/-- The combined score in the words of the claim: the base score, plus 2 on a price-tier
match, plus 3 for an active sponsor, plus half the relevance score when that score is a
number in `[0, 5]`. -/
def combinedScoreSpec (log10 : ℚ → ℚ) (sponsored : List Sponsor) (preco : Option String)
    (llm : Place → LlmOutcome) (p : Place) : ℚ :=
  preScoreSpec log10 sponsored p + (if priceTierMatchSpec preco p then 2 else 0) +
    (match llm p with
      | LlmOutcome.score g => if 0 ≤ g ∧ g ≤ 5 then 1 / 2 * g else 0
      | _ => 0)

/-- A restaurant of price level 4, rated 4. -/
def luxuryRated4 : Place := { luxuryPlace with rating := some 4 }

/-- A restaurant without price level, rated 4.5. -/
def plainRated : Place :=
  { place_id := some "pl", name := some "Cantina", types := ["restaurant"],
    rating := some (9 / 2) }

/-! ## Adaptive replies (`sendAdaptive`, `generateAdaptiveReply`, index.js 133-201) -/

/-- The lower case of a character of ASCII or Latin-1. -/
def latinLower (c : Char) : Char :=
  if 192 ≤ c.toNat ∧ c.toNat ≤ 222 ∧ c.toNat ≠ 215 then Char.ofNat (c.toNat + 32)
  else c.toLower

/-- The base letter of a lower-case letter of Latin-1: the canonical decomposition without
its combining mark. -/
def latinBase (c : Char) : Char :=
  let n := c.toNat
  if 224 ≤ n ∧ n ≤ 229 then 'a'
  else if n = 231 then 'c'
  else if 232 ≤ n ∧ n ≤ 235 then 'e'
  else if 236 ≤ n ∧ n ≤ 239 then 'i'
  else if n = 241 then 'n'
  else if 242 ≤ n ∧ n ≤ 246 then 'o'
  else if 249 ≤ n ∧ n ≤ 252 then 'u'
  else if n = 253 ∨ n = 255 then 'y'
  else c

/-- The characters of ASCII and Latin-1 with the property Diacritic: the circumflex, the
grave accent, the diaeresis, the macron, the acute accent, the middle dot and the cedilla. -/
def isLatinDiacritic (c : Char) : Bool :=
  let n := c.toNat
  n == 94 || n == 96 || n == 168 || n == 175 || n == 180 || n == 183 || n == 184

/-- The folding `toLowerCase().normalize('NFD').replace(/\p{Diacritic}/gu, '')` of
`detectChosenIntent` on texts of ASCII and Latin-1 characters: lower case, the accented
letters become their base letter (the combining mark of the decomposition is a diacritic),
and the diacritics that stand alone are removed. -/
def latinFold (msg : String) : List Char :=
  ((msg.data.map latinLower).map latinBase).filter (fun c => !isLatinDiacritic c)

/-- The hint of the location block (index.js 2591). -/
def askWhichHint3 : String :=
  "Convide o usuário, de forma breve e amigável, a escolher entre bar ou restaurante por perto. Não peça localização novamente (já recebida)."

/-- What the request of `parseInitialIntent` to the language model comes to. -/
inductive IntentRequest where
  /-- `model` is `null`, the request raises or times out, or the answer is no JSON: the
  fallback to `detectChosenIntent` -/
  | failed
  /-- the answer is JSON with this `intention` (`none`: the field is missing) -/
  | parsed (intention : Option String)
deriving DecidableEq

/-- The field `intention` of the result of `parseInitialIntent(userMessage, persona)`
(index.js 1221-1254). -/
def parseInitialIntent (fold : String → List Char) (request : IntentRequest)
    (userMessage : String) : Option String :=
  match request with
  | IntentRequest.parsed intention => intention
  | IntentRequest.failed => some ((detectChosenIntent fold userMessage).getD "nenhum")

/-- The texts that `sendAdaptive` sends. -/
inductive AdaptiveText where
  /-- `Show, ${name}! Entendi que você quer ${tipo} com essa vibe que comentou. Me diz agora
  em qual bairro/cidade você quer ou então me manda a sua localização ...` -/
  | askLocation (tipo : String)
  /-- the trimmed text that the language model generated for the hint -/
  | generated (text : List Char)
  /-- `Fechado!`, for an empty generated text -/
  | fechado
  /-- the default reply `Beleza, ${name}! Não peguei exatamente tudo ...` -/
  | defaultReply
deriving DecidableEq

/-- Embedding of `generateAdaptiveReply(wa_jid, userMessage)` (index.js 163-201): `request` is
the outcome of the request of `parseInitialIntent`, `generated` the text of the second
request, `none` when it fails. Without `model` the first request raises. -/
def generateAdaptiveReply (fold : String → List Char) (modelAvailable : Bool)
    (request : IntentRequest) (generated : Option String) (userMessage : String) :
    Option AdaptiveText :=
  let intent := parseInitialIntent fold
    (if modelAvailable then request else IntentRequest.failed) userMessage
  if intent = some "bar" then some (AdaptiveText.askLocation "um bar")
  else if intent = some "restaurante" then some (AdaptiveText.askLocation "um restaurante")
  else if !modelAvailable then none
  else
    match generated with
    | none => none
    | some text =>
      if (jsTrim text).length = 0 then some AdaptiveText.fechado
      else some (AdaptiveText.generated (jsTrim text))

/-- The text sent by `sendAdaptive(recipientId, hint)` (index.js 133-160). -/
def sendAdaptiveText (fold : String → List Char) (modelAvailable : Bool)
    (request : IntentRequest) (generated : Option String) (hint : String) : AdaptiveText :=
  (generateAdaptiveReply fold modelAvailable request generated hint).getD
    AdaptiveText.defaultReply

/-- The hint behind an adaptive message, for the three hints that are short constants
(index.js 1825, 2469, 2591); the hint of the small talk is the long text of
`handleSmallTalk`. -/
def Hint.text : Hint → Option String
  | Hint.chooseNearby => some askWhichHint3
  | Hint.confirmBarOrRestaurant =>
    some "Confirme de forma simpática se prefere bar ou restaurante neste momento. Não peça localização."
  | Hint.cta =>
    some "Convide o usuário de forma breve e simpática para ver mais, filtrar (ex.: preço/música ao vivo) ou escolher 1, 2 ou 3."
  | Hint.smallTalk => none

/-! # Theorems -/

/-! ## Distance filter -/

theorem filterByDistanceStep_append (hav : ℚ → ℚ → ℚ → ℚ → Option ℚ) (cLat cLng maxKm : ℚ)
    (out : List Place) (p : Place) :
    filterByDistanceStep hav cLat cLng maxKm out p =
      out ++ filterByDistanceStep hav cLat cLng maxKm [] p := by
  unfold filterByDistanceStep
  rcases p.lat with _ | plat
  · simp
  · rcases p.lng with _ | plng
    · simp
    · by_cases h : leKm (hav cLat cLng plat plng) maxKm = true <;> simp [h]

theorem filterByDistanceStep_nil (hav : ℚ → ℚ → ℚ → ℚ → Option ℚ) (cLat cLng maxKm : ℚ)
    (p : Place) :
    filterByDistanceStep hav cLat cLng maxKm [] p =
      if (filterByDistanceStep hav cLat cLng maxKm [] p != []) = true then [p] else [] := by
  unfold filterByDistanceStep
  rcases p.lat with _ | plat
  · simp
  · rcases p.lng with _ | plng
    · simp
    · by_cases h : leKm (hav cLat cLng plat plng) maxKm = true <;> simp [h]

theorem filterByDistance_foldl (hav : ℚ → ℚ → ℚ → ℚ → Option ℚ) (cLat cLng maxKm : ℚ)
    (places out : List Place) :
    places.foldl (filterByDistanceStep hav cLat cLng maxKm) out =
      out ++ places.filter (fun p => filterByDistanceStep hav cLat cLng maxKm [] p != []) := by
  induction places generalizing out with
  | nil => simp
  | cons p ps ih =>
    rw [List.foldl_cons, ih, filterByDistanceStep_append, List.filter_cons,
      filterByDistanceStep_nil]
    split <;> simp

theorem filterByDistanceStep_keep_iff (hav : ℚ → ℚ → ℚ → ℚ → Option ℚ) (cLat cLng maxKm : ℚ)
    (p : Place) :
    (filterByDistanceStep hav cLat cLng maxKm [] p != []) = true ↔
      KeptByDistanceSpec hav cLat cLng maxKm p := by
  unfold filterByDistanceStep KeptByDistanceSpec
  rcases hlat : p.lat with _ | plat
  · simp
  · rcases hlng : p.lng with _ | plng
    · simp
    · rcases hd : hav cLat cLng plat plng with _ | d
      · simp [leKm, hd]
      · by_cases h : d ≤ maxKm <;> simp [leKm, hd, h]

/-- C7: `filterByDistance` returns exactly the places, in input order, that lack a numeric
latitude or longitude or whose haversine distance to the centre is at most `maxKm`; a place
with numeric coordinates farther than `maxKm` is excluded, a place without is always kept. -/
theorem filterByDistance_spec (hav : ℚ → ℚ → ℚ → ℚ → Option ℚ) (places : List Place)
    (cLat cLng maxKm : ℚ) :
    (∃ keep : Place → Bool,
      (∀ p, keep p = true ↔ KeptByDistanceSpec hav cLat cLng maxKm p) ∧
      filterByDistance hav places cLat cLng maxKm = places.filter keep) ∧
    (∀ p plat plng d, p.lat = some plat → p.lng = some plng →
      hav cLat cLng plat plng = some d → maxKm < d →
      p ∉ filterByDistance hav places cLat cLng maxKm) ∧
    (∀ p ∈ places, (p.lat = none ∨ p.lng = none) →
      p ∈ filterByDistance hav places cLat cLng maxKm) := by
  have hfilter : filterByDistance hav places cLat cLng maxKm =
      places.filter (fun p => filterByDistanceStep hav cLat cLng maxKm [] p != []) := by
    unfold filterByDistance
    rw [filterByDistance_foldl]
    simp
  refine ⟨⟨_, filterByDistanceStep_keep_iff hav cLat cLng maxKm, hfilter⟩, ?_, ?_⟩
  · intro p plat plng d hlat hlng hd hfar hmem
    rw [hfilter, List.mem_filter, filterByDistanceStep_keep_iff] at hmem
    rcases hmem.2 with (h | h) | ⟨a, b, e, ha, hb, he, hle⟩
    · simp [hlat] at h
    · simp [hlng] at h
    · rw [hlat] at ha; rw [hlng] at hb
      cases ha; cases hb
      rw [hd] at he; cases he
      exact absurd hle (not_le.mpr hfar)
  · intro p hp hno
    rw [hfilter, List.mem_filter, filterByDistanceStep_keep_iff]
    exact ⟨hp, Or.inl hno⟩

/-! ## Type filter -/

theorem hasExcludedType_iff (ts : List String) :
    hasExcludedType ts = true ↔ ∃ t ∈ ts, t ∈ EXCLUDED_TYPES := by
  induction ts with
  | nil => simp [hasExcludedType]
  | cons t ts ih =>
    unfold hasExcludedType
    by_cases h : t ∈ EXCLUDED_TYPES
    · simp [h]
    · simp [h, ih]

theorem hasAllowedType_iff (allowed ts : List String) :
    hasAllowedType allowed ts = true ↔ ∃ t ∈ ts, t ∈ allowed := by
  induction ts with
  | nil => simp [hasAllowedType]
  | cons t ts ih =>
    unfold hasAllowedType
    by_cases h : t ∈ allowed
    · simp [h]
    · simp [h, ih]

theorem keepPlaceByType_iff (allowed : List String) (p : Place) :
    keepPlaceByType allowed p = true ↔ KeptBySpec allowed p := by
  unfold keepPlaceByType KeptBySpec
  have hex := hasExcludedType_iff p.types
  have hal := hasAllowedType_iff allowed p.types
  by_cases h1 : truthyStr p.business_status = true
  · by_cases h2 : p.business_status = some "OPERATIONAL"
    · by_cases h3 : truthyStr p.place_id = true
      · by_cases h4 : truthyStr p.name = true
        · by_cases h5 : hasExcludedType p.types = true
          · have := hex.mp h5
            simp [h1, h2, h3, h4, h5]
            obtain ⟨t, ht, hte⟩ := this
            exact fun hno => absurd hte (hno t ht)
          · have hno : ∀ t ∈ p.types, t ∉ EXCLUDED_TYPES := by
              intro t ht hte
              exact h5 (hex.mpr ⟨t, ht, hte⟩)
            by_cases h6 : hasAllowedType allowed p.types = true
            · have := hal.mp h6
              simp [h1, h2, h3, h4, h5, h6]
              exact ⟨hno, this⟩
            · have hna : ¬ ∃ t ∈ p.types, t ∈ allowed := fun hx => h6 (hal.mpr hx)
              simp [h1, h2, h3, h4, h5, h6]
              intro _
              simpa using hna
        · simp [h1, h2, h3, h4]
      · simp [h1, h2, h3]
    · simp [h1, h2]
  · simp only [Bool.not_eq_true] at h1
    by_cases h3 : truthyStr p.place_id = true
    · by_cases h4 : truthyStr p.name = true
      · by_cases h5 : hasExcludedType p.types = true
        · have := hex.mp h5
          simp [h1, h3, h4, h5]
          obtain ⟨t, ht, hte⟩ := this
          exact fun hno => absurd hte (hno t ht)
        · have hno : ∀ t ∈ p.types, t ∉ EXCLUDED_TYPES := by
            intro t ht hte
            exact h5 (hex.mpr ⟨t, ht, hte⟩)
          by_cases h6 : hasAllowedType allowed p.types = true
          · have := hal.mp h6
            simp [h1, h3, h4, h5, h6]
            exact ⟨hno, this⟩
          · have hna : ¬ ∃ t ∈ p.types, t ∈ allowed := fun hx => h6 (hal.mpr hx)
            simp [h1, h3, h4, h5, h6]
            intro _
            simpa using hna
      · simp [h1, h3, h4]
    · simp [h1, h3]

/-- C8: for the domains `bar` and `restaurante`, `filterPlacesByType` keeps, in input order,
exactly the places that are operational (or without status), have `place_id` and `name`,
have no excluded type and have a type of the domain; a permanently closed place and a place
with an excluded type (such as `{bar, lodging}` or `{bakery}`) are dropped. -/
theorem filterPlacesByType_spec :
    (∀ domain, (domain = "bar" ∨ domain = "restaurante") → ∀ places : List Place,
      ∃ keep : Place → Bool,
        (∀ p, keep p = true ↔ KeptBySpec (allowedBySpec domain) p) ∧
        filterPlacesByType places domain = places.filter keep) ∧
    (∀ (places : List Place) (domain : String) (p : Place),
      p.business_status = some "CLOSED_PERMANENTLY" → p ∉ filterPlacesByType places domain) ∧
    (∀ (places : List Place) (domain : String) (p : Place),
      (∃ t ∈ p.types, t ∈ EXCLUDED_TYPES) → p ∉ filterPlacesByType places domain) ∧
    (∀ (places : List Place) (domain : String) (p : Place),
      (p.types = ["bar", "lodging"] ∨ p.types = ["bakery"]) →
        p ∉ filterPlacesByType places domain) := by
  have hexcl : ∀ (places : List Place) (domain : String) (p : Place),
      (∃ t ∈ p.types, t ∈ EXCLUDED_TYPES) → p ∉ filterPlacesByType places domain := by
    intro places domain p hx hmem
    unfold filterPlacesByType at hmem
    rw [List.mem_filter, keepPlaceByType_iff] at hmem
    obtain ⟨t, ht, hte⟩ := hx
    exact hmem.2.2.2.2.1 t ht hte
  refine ⟨?_, ?_, hexcl, ?_⟩
  · intro domain hd places
    refine ⟨keepPlaceByType (ALLOWED_TYPES domain), ?_, rfl⟩
    intro p
    rw [keepPlaceByType_iff]
    rcases hd with hd | hd <;> subst hd <;> simp [ALLOWED_TYPES, allowedBySpec]
  · intro places domain p hclosed hmem
    unfold filterPlacesByType at hmem
    rw [List.mem_filter, keepPlaceByType_iff] at hmem
    rcases hmem.2.1 with h | h
    · rw [hclosed] at h
      simp [truthyStr] at h
    · rw [hclosed] at h
      simp at h
  · intro places domain p hp
    apply hexcl
    rcases hp with hp | hp
    · exact ⟨"lodging", by simp [hp], by decide⟩
    · exact ⟨"bakery", by simp [hp], by decide⟩

/-- C9 as stated fails: a permanently closed place whose types are exactly `{bar}` is not
included for the domain `bar`. -/
theorem closed_bar_not_included :
    closedBar.types = ["bar"] ∧ closedBar ∈ [closedBar] ∧
      closedBar ∉ filterPlacesByType [closedBar] "bar" := by
  refine ⟨rfl, List.mem_singleton.mpr rfl, ?_⟩
  intro h
  unfold filterPlacesByType at h
  rw [List.mem_filter, keepPlaceByType_iff] at h
  rcases h.2.1 with h1 | h1
  · simp [closedBar, truthyStr] at h1
  · simp [closedBar] at h1

/-- C9 (amended): a place whose types are exactly `{bar}` is included for the domain `bar`
exactly when it passes the status and identifier checks (status absent or `OPERATIONAL`,
`place_id` and `name` present), and it is always excluded for the domain `restaurante`. -/
theorem bar_only_place (p : Place) (places : List Place) (hp : p.types = ["bar"]) :
    (p ∈ filterPlacesByType places "bar" ↔
      p ∈ places ∧
      (truthyStr p.business_status = false ∨ p.business_status = some "OPERATIONAL") ∧
      truthyStr p.place_id = true ∧ truthyStr p.name = true) ∧
    p ∉ filterPlacesByType places "restaurante" := by
  unfold filterPlacesByType
  constructor
  · rw [List.mem_filter, keepPlaceByType_iff]
    unfold KeptBySpec
    rw [hp]
    have h1 : ∀ t ∈ ["bar"], t ∉ EXCLUDED_TYPES := by
      intro t ht
      rw [List.mem_singleton] at ht
      subst ht
      decide
    have h2 : ∃ t ∈ ["bar"], t ∈ ALLOWED_TYPES "bar" := ⟨"bar", by simp, by decide⟩
    constructor
    · rintro ⟨hm, hs, hid, hn, _, _⟩
      exact ⟨hm, hs, hid, hn⟩
    · rintro ⟨hm, hs, hid, hn⟩
      exact ⟨hm, hs, hid, hn, h1, h2⟩
  · intro h
    rw [List.mem_filter, keepPlaceByType_iff] at h
    obtain ⟨t, ht, hta⟩ := h.2.2.2.2.2
    rw [hp, List.mem_singleton] at ht
    subst ht
    revert hta
    decide

/-- C9 (amended) at an operational bar. -/
theorem bar_only_place_witness :
    (openBar ∈ filterPlacesByType [openBar] "bar" ↔
      openBar ∈ [openBar] ∧
      (truthyStr openBar.business_status = false ∨
        openBar.business_status = some "OPERATIONAL") ∧
      truthyStr openBar.place_id = true ∧ truthyStr openBar.name = true) ∧
    openBar ∉ filterPlacesByType [openBar] "restaurante" :=
  bar_only_place openBar [openBar] rfl

/-! ## Sponsored-slot promotion -/

theorem byIdGet_foldl (places : List Place) (id : Option String) (acc : Option Place) :
    places.foldl (fun acc p => if p.place_id == id then some p else acc) acc =
      (byIdGet places id).or acc := by
  unfold byIdGet
  induction places generalizing acc with
  | nil => simp
  | cons p ps ih =>
    rw [List.foldl_cons, List.foldl_cons, ih, ih (if (p.place_id == id) = true then some p else none)]
    by_cases h : (p.place_id == id) = true
    · simp only [h, if_true]
      cases List.foldl (fun acc p => if (p.place_id == id) = true then some p else acc) none ps <;>
        rfl
    · simp only [h]
      cases List.foldl (fun acc p => if (p.place_id == id) = true then some p else acc) none ps <;>
        rfl

theorem byIdGet_cons (p : Place) (ps : List Place) (id : Option String) :
    byIdGet (p :: ps) id =
      (byIdGet ps id).or (if (p.place_id == id) = true then some p else none) := by
  conv_lhs => unfold byIdGet
  rw [List.foldl_cons, byIdGet_foldl]

theorem byIdGet_some_mem (places : List Place) (id : Option String) (q : Place)
    (h : byIdGet places id = some q) : q ∈ places ∧ q.place_id = id := by
  induction places with
  | nil => simp [byIdGet] at h
  | cons p ps ih =>
    rw [byIdGet_cons] at h
    rcases hps : byIdGet ps id with _ | r
    · rw [hps] at h
      by_cases hp : (p.place_id == id) = true
      · simp only [hp, if_true, Option.or] at h
        cases h
        exact ⟨List.mem_cons_self _ _, by simpa using hp⟩
      · simp [hp, Option.or] at h
    · rw [hps] at h
      simp only [Option.or] at h
      cases h
      exact ⟨List.mem_cons_of_mem _ (ih hps).1, (ih hps).2⟩

theorem byIdGet_isSome_of_has (places : List Place) (id : Option String)
    (h : byIdHas places id = true) : ∃ q, byIdGet places id = some q := by
  induction places with
  | nil => simp [byIdHas] at h
  | cons p ps ih =>
    rw [byIdGet_cons]
    rcases hps : byIdGet ps id with _ | r
    · by_cases hp : (p.place_id == id) = true
      · exact ⟨p, by simp [hp, Option.or]⟩
      · have : byIdHas ps id = true := by
          simp only [byIdHas, List.any_cons, Bool.or_eq_true] at h
          rcases h with h | h
          · exact absurd h hp
          · exact h
        obtain ⟨q, hq⟩ := ih this
        rw [hps] at hq
        cases hq
    · exact ⟨r, by simp [Option.or]⟩

/-- With pairwise distinct identifiers `byId.get` returns the place that carries the key. -/
theorem byIdGet_eq_of_nodup (places : List Place) (p : Place)
    (hnd : (places.map (fun q => q.place_id)).Nodup) (hp : p ∈ places) :
    byIdGet places p.place_id = some p := by
  have hhas : byIdHas places p.place_id = true := by
    simp only [byIdHas, List.any_eq_true]
    exact ⟨p, hp, by simp⟩
  obtain ⟨q, hq⟩ := byIdGet_isSome_of_has places p.place_id hhas
  obtain ⟨hqm, hqid⟩ := byIdGet_some_mem places p.place_id q hq
  have : q = p := List.inj_on_of_nodup_map hnd hqm hp hqid
  rw [hq, this]

theorem slotIndex_lt (s : Sponsor) : slotIndex s < 3 := by
  unfold slotIndex
  omega

/-- Below `10^21` in size `parseInt` reads the number back. -/
theorem parseInt10_of_small (v : Int) (hb : v.natAbs < 10 ^ 21) : parseInt10 v = v := by
  unfold parseInt10
  rw [if_pos hb]

/-- The slot of a sponsor whose priority is below `10^21` in size. -/
theorem slotIndex_of_small (s : Sponsor) (v : Int) (hv : s.prioridade = some v)
    (hb : v.natAbs < 10 ^ 21) :
    slotIndex s = (max 1 (min 3 (orDefault99 (some v))) - 1).toNat := by
  unfold slotIndex
  rw [hv, Option.map_some', parseInt10_of_small v hb]

theorem pinStep_length (places : List Place) (pinned : List (Option Place)) (s : Sponsor) :
    (pinStep places pinned s).length = pinned.length := by
  unfold pinStep
  simp only []
  split <;> simp

theorem pinFold_length (places : List Place) (l : List Sponsor) (pinned : List (Option Place)) :
    (l.foldl (pinStep places) pinned).length = pinned.length := by
  induction l generalizing pinned with
  | nil => rfl
  | cons s l ih => rw [List.foldl_cons, ih, pinStep_length]

theorem pinStep_getD (places : List Place) (pinned : List (Option Place)) (s : Sponsor)
    (k : Nat) (hk : k < pinned.length) :
    (pinStep places pinned s).getD k none =
      if slotIndex s = k ∧ pinned.getD k none = none then byIdGet places s.place_id
      else pinned.getD k none := by
  unfold pinStep
  simp only [List.getD_eq_getElem?_getD]
  by_cases hks : slotIndex s = k
  · subst hks
    rcases hp : pinned[slotIndex s]? with _ | v
    · rw [List.getElem?_eq_none_iff] at hp
      omega
    · rcases v with _ | r
      · simp [hp, List.getElem?_set, hk]
      · simp [hp]
  · by_cases hfree : (pinned[slotIndex s]?.getD none).isNone = true
    · simp [hfree, hks, List.getElem?_set]
    · simp [hfree, hks]

/-- First come, first served: after the loop a slot holds what it held before, or else the
place of the first sponsor in processing order that claims the slot. -/
theorem pinFold_getD (places : List Place) (l : List Sponsor) (pinned : List (Option Place))
    (k : Nat) (hk : k < pinned.length)
    (hsome : ∀ s ∈ l, ∃ q, byIdGet places s.place_id = some q) :
    (l.foldl (pinStep places) pinned).getD k none =
      (pinned.getD k none).or
        ((l.find? (fun s => slotIndex s == k)).bind (fun s => byIdGet places s.place_id)) := by
  induction l generalizing pinned with
  | nil => simp
  | cons s l ih =>
    have hs : ∃ q, byIdGet places s.place_id = some q := hsome s (List.mem_cons_self _ _)
    have hl : ∀ t ∈ l, ∃ q, byIdGet places t.place_id = some q :=
      fun t ht => hsome t (List.mem_cons_of_mem _ ht)
    rw [List.foldl_cons, ih (pinStep places pinned s) (by rw [pinStep_length]; exact hk) hl,
      pinStep_getD places pinned s k hk, List.find?_cons]
    obtain ⟨q, hq⟩ := hs
    by_cases hks : slotIndex s = k
    · rcases hp : pinned.getD k none with _ | r
      · simp [hks, hq, Option.or]
      · simp [hks, Option.or]
    · have : (slotIndex s == k) = false := by simpa using hks
      simp [hks, this]

theorem find?_eq_some_of_unique {α : Type} (l : List α) (q : α → Bool) (s : α) (hs : s ∈ l)
    (hqs : q s = true) (huniq : ∀ t ∈ l, q t = true → t = s) : l.find? q = some s := by
  rcases h : l.find? q with _ | x
  · rw [List.find?_eq_none] at h
    exact absurd hqs (h s hs)
  · have hx : x ∈ l := List.mem_of_find?_eq_some h
    have hqx : q x = true := List.find?_some h
    rw [huniq x hx hqx]

theorem mem_activePresent_byIdGet (sponsored : List Sponsor) (places : List Place) (s : Sponsor)
    (hs : s ∈ activePresent sponsored places) : ∃ q, byIdGet places s.place_id = some q := by
  unfold activePresent at hs
  rw [List.mem_filter] at hs
  apply byIdGet_isSome_of_has
  have := hs.2
  simp only [Bool.and_eq_true] at this
  exact this.2

/-- C10: when the active sponsors present in the list are exactly three sponsors with
`prioridade` 1, 2 and 3 (in any directory order) and the places have pairwise distinct
`place_id`, the first three entries of the output of `promoteSponsoredOrder` are the places
of these sponsors, in the order of priority 1, 2, 3. -/
theorem promoteSponsoredOrder_three (sponsored : List Sponsor) (places : List Place)
    (s1 s2 s3 : Sponsor) (p1 p2 p3 : Place)
    (hnd : (places.map (fun q => q.place_id)).Nodup)
    (hperm : (activePresent sponsored places).Perm [s1, s2, s3])
    (h1 : s1.prioridade = some 1) (h2 : s2.prioridade = some 2) (h3 : s3.prioridade = some 3)
    (hp1 : p1 ∈ places) (hid1 : p1.place_id = s1.place_id)
    (hp2 : p2 ∈ places) (hid2 : p2.place_id = s2.place_id)
    (hp3 : p3 ∈ places) (hid3 : p3.place_id = s3.place_id) :
    (promoteSponsoredOrder sponsored places).take 3 = [p1, p2, p3] := by
  have hplaces : ¬ places.length = 0 := by
    intro h
    rw [List.length_eq_zero] at h
    rw [h] at hp1
    cases hp1
  have hspons : ¬ sponsored.length = 0 := by
    intro h
    rw [List.length_eq_zero] at h
    rw [h] at hperm
    have := hperm.length_eq
    simp [activePresent] at this
  have hpermS : (presentSponsors sponsored places).Perm [s1, s2, s3] :=
    (List.perm_insertionSort _ _).trans hperm
  have hsome : ∀ s ∈ presentSponsors sponsored places,
      ∃ q, byIdGet places s.place_id = some q := by
    intro s hs
    apply mem_activePresent_byIdGet sponsored
    exact (List.perm_insertionSort _ _).subset hs
  have hslot1 : slotIndex s1 = 0 := by
    rw [slotIndex_of_small s1 _ h1 (by decide)]
    decide
  have hslot2 : slotIndex s2 = 1 := by
    rw [slotIndex_of_small s2 _ h2 (by decide)]
    decide
  have hslot3 : slotIndex s3 = 2 := by
    rw [slotIndex_of_small s3 _ h3 (by decide)]
    decide
  have hmem : ∀ t ∈ presentSponsors sponsored places, t = s1 ∨ t = s2 ∨ t = s3 := by
    intro t ht
    have := hpermS.subset ht
    simpa using this
  have hf1 : (presentSponsors sponsored places).find? (fun s => slotIndex s == 0) = some s1 := by
    apply find?_eq_some_of_unique
    · exact hpermS.symm.subset (by simp)
    · simp [hslot1]
    · intro t ht hq
      rcases hmem t ht with h | h | h
      · exact h
      · rw [h, hslot2] at hq; simp at hq
      · rw [h, hslot3] at hq; simp at hq
  have hf2 : (presentSponsors sponsored places).find? (fun s => slotIndex s == 1) = some s2 := by
    apply find?_eq_some_of_unique
    · exact hpermS.symm.subset (by simp)
    · simp [hslot2]
    · intro t ht hq
      rcases hmem t ht with h | h | h
      · rw [h, hslot1] at hq; simp at hq
      · exact h
      · rw [h, hslot3] at hq; simp at hq
  have hf3 : (presentSponsors sponsored places).find? (fun s => slotIndex s == 2) = some s3 := by
    apply find?_eq_some_of_unique
    · exact hpermS.symm.subset (by simp)
    · simp [hslot3]
    · intro t ht hq
      rcases hmem t ht with h | h | h
      · rw [h, hslot1] at hq; simp at hq
      · rw [h, hslot2] at hq; simp at hq
      · exact h
  have hg1 : byIdGet places s1.place_id = some p1 := hid1 ▸ byIdGet_eq_of_nodup places p1 hnd hp1
  have hg2 : byIdGet places s2.place_id = some p2 := hid2 ▸ byIdGet_eq_of_nodup places p2 hnd hp2
  have hg3 : byIdGet places s3.place_id = some p3 := hid3 ▸ byIdGet_eq_of_nodup places p3 hnd hp3
  have hlen : (pinnedSlots sponsored places).length = 3 := by
    unfold pinnedSlots
    rw [pinFold_length]
    rfl
  have hk1 := pinFold_getD places (presentSponsors sponsored places) [none, none, none] 0
    (by simp) hsome
  have hk2 := pinFold_getD places (presentSponsors sponsored places) [none, none, none] 1
    (by simp) hsome
  have hk3 := pinFold_getD places (presentSponsors sponsored places) [none, none, none] 2
    (by simp) hsome
  rw [hf1] at hk1
  rw [hf2] at hk2
  rw [hf3] at hk3
  have hpinned : pinnedSlots sponsored places = [some p1, some p2, some p3] := by
    unfold pinnedSlots at hlen ⊢
    rcases hl : List.foldl (pinStep places) [none, none, none]
        (presentSponsors sponsored places) with _ | ⟨a, _ | ⟨b, _ | ⟨c, _ | ⟨d, r⟩⟩⟩⟩
    · rw [hl] at hlen; simp at hlen
    · rw [hl] at hlen; simp at hlen
    · rw [hl] at hlen; simp at hlen
    · rw [hl] at hk1 hk2 hk3
      simp [hg1, hg2, hg3, Option.or] at hk1 hk2 hk3
      rw [hk1, hk2, hk3]
    · rw [hl] at hlen; simp at hlen
  unfold promoteSponsoredOrder
  rw [if_neg (by tauto)]
  simp [hpinned]

/-- C10 at a directory of five sponsors, three of them active and present, in the directory
order 3, 1, 2. -/
theorem promoteSponsoredOrder_three_witness :
    (promoteSponsoredOrder [sponsorOff, sponsorC, sponsorAway, sponsorA, sponsorB]
      [placeW, placeC, placeB, placeA]).take 3 = [placeA, placeB, placeC] :=
  promoteSponsoredOrder_three [sponsorOff, sponsorC, sponsorAway, sponsorA, sponsorB]
    [placeW, placeC, placeB, placeA] sponsorA sponsorB sponsorC placeA placeB placeC
    (by decide)
    (by
      have h : activePresent [sponsorOff, sponsorC, sponsorAway, sponsorA, sponsorB]
          [placeW, placeC, placeB, placeA] = [sponsorC, sponsorA, sponsorB] := by decide
      rw [h]
      decide)
    rfl rfl rfl (by decide) rfl (by decide) rfl (by decide) rfl

/-! ## Search finalization -/

theorem Talk.refl_talk (st : St) : Talk st st :=
  ⟨rfl, rfl, rfl, fun h => h, [], by simp, by simp⟩

theorem Talk.trans_talk {a b c : St} (h1 : Talk a b) (h2 : Talk b c) : Talk a c := by
  obtain ⟨hp1, hl1, hs1, hh1, e1, he1, hn1⟩ := h1
  obtain ⟨hp2, hl2, hs2, hh2, e2, he2, hn2⟩ := h2
  refine ⟨hp2.trans hp1, hl2.trans hl1, hs2.trans hs1, fun h => hh2 (hh1 h), e1 ++ e2, ?_, ?_⟩
  · rw [he2, he1, List.append_assoc]
  · simp [hn1, hn2]

theorem Talk.say_talk (st : St) (m : Msg) (hm : m ≠ Msg.askName) : Talk st (st.say m) := by
  refine ⟨rfl, rfl, rfl, ?_, [m], rfl, ?_⟩
  · intro _
    simp [St.say, St.pushBot, St.send]
  · simpa using fun h => hm h.symm

theorem Talk.send_talk (st : St) (m : Msg) (hm : m ≠ Msg.askName) : Talk st (st.send m) := by
  refine ⟨rfl, rfl, rfl, fun h => h, [m], rfl, ?_⟩
  simpa using fun h => hm h.symm

theorem presentCards_talk (sp : List Sponsor) (ra : Option FinalizeStep) :
    ∀ (ps : List Place) (i : Nat) (st : St), Talk st (presentCards sp ra i ps st).1 := by
  intro ps
  induction ps with
  | nil => intro i st; exact Talk.refl_talk st
  | cons p ps ih =>
    intro i st
    unfold presentCards
    by_cases hr : ra = some (FinalizeStep.presentation i)
    · simp only [hr, if_true]
      exact Talk.refl_talk st
    · simp only [hr, if_false]
      refine Talk.trans_talk ?_ (ih (i + 1) _)
      refine Talk.trans_talk (Talk.say_talk st (Msg.recCard (i + 1) p) (by simp)) ?_
      split
      · exact Talk.say_talk _ (Msg.partnerExtra p) (by simp)
      · exact Talk.refl_talk _

theorem Talk.toCta {a b : St} (h : Talk a b) : TalkCta a b := by
  obtain ⟨hp, hl, hs, hh, he⟩ := h
  exact ⟨hp, hl, congrArg (fun x : Session => ({ x with cta := none } : Session)) hs, hh, he⟩

theorem TalkCta.trans_cta {a b c : St} (h1 : TalkCta a b) (h2 : TalkCta b c) : TalkCta a c := by
  obtain ⟨hp1, hl1, hs1, hh1, e1, he1, hn1⟩ := h1
  obtain ⟨hp2, hl2, hs2, hh2, e2, he2, hn2⟩ := h2
  refine ⟨hp2.trans hp1, hl2.trans hl1, hs2.trans hs1, fun h => hh2 (hh1 h), e1 ++ e2, ?_, ?_⟩
  · rw [he2, he1, List.append_assoc]
  · simp [hn1, hn2]

theorem presentRecommendations_talk (cfg : Config) (ra : Option FinalizeStep) (st : St)
    (places : List Place) (k : Nat) :
    TalkCta st (presentRecommendations cfg ra st places k).1 := by
  unfold presentRecommendations
  by_cases hz : places.length = 0
  · simp only [hz, if_true]
    exact (Talk.send_talk st Msg.notFound (by simp)).toCta
  · simp only [hz, if_false]
    have h1 : Talk st (st.say Msg.recIntro) := Talk.say_talk st Msg.recIntro (by simp)
    have h2 := presentCards_talk cfg.sponsored ra ((places.drop k).take 3) 0 (st.say Msg.recIntro)
    split
    · exact (h1.trans_talk h2).toCta
    · refine TalkCta.trans_cta (h1.trans_talk h2).toCta ?_
      refine TalkCta.trans_cta (Talk.say_talk _ (Msg.adaptive Hint.cta) (by simp)).toCta ?_
      exact ⟨rfl, rfl, rfl, fun h => h, [], by simp, by simp⟩

theorem SearchFrame.refl_frame (st : St) : SearchFrame st st :=
  ⟨rfl, fun h => h, [], by simp, by simp⟩

theorem SearchFrame.trans_frame {a b c : St} (h1 : SearchFrame a b) (h2 : SearchFrame b c) :
    SearchFrame a c := by
  obtain ⟨hs1, hh1, e1, he1, hn1⟩ := h1
  obtain ⟨hs2, hh2, e2, he2, hn2⟩ := h2
  refine ⟨hs2.trans hs1, fun h => hh2 (hh1 h), e1 ++ e2, ?_, ?_⟩
  · rw [he2, he1, List.append_assoc]
  · simp [hn1, hn2]

theorem TalkCta.toSearch {a b : St} (h : TalkCta a b) : SearchFrame a b := by
  obtain ⟨_, _, hs, hh, he⟩ := h
  refine ⟨?_, hh, he⟩
  unfold Session.forgetSearch
  rw [hs]

theorem SearchFrame.say_frame (st : St) (m : Msg) (hm : m ≠ Msg.askName) :
    SearchFrame st (st.say m) := (Talk.say_talk st m hm).toCta.toSearch

theorem searchStart_flags (st : St) (r : Refinement) :
    (searchStart st r).s.awaitingLocation = none ∧
    (searchStart st r).s.awaiting_location_type = none ∧
    (searchStart st r).s.awaiting_location_text = none ∧
    (searchStart st r).s.refinement = st.s.refinement ∧
    SearchFrame st (searchStart st r) := by
  refine ⟨rfl, rfl, rfl, rfl, ?_⟩
  have hbase : SearchFrame st (st.say Msg.processing) := SearchFrame.say_frame st _ (by simp)
  exact ⟨hbase.1, hbase.2.1, hbase.2.2⟩

theorem searchFinish_flags (cfg : Config) (env : SearchEnv) (st : St) (r : Refinement)
    (places : List Place)
    (hL : st.s.awaitingLocation = none) (hT : st.s.awaiting_location_type = none)
    (hX : st.s.awaiting_location_text = none) :
    (searchFinish cfg env st r places).1.s.awaitingLocation = none ∧
    (searchFinish cfg env st r places).1.s.awaiting_location_type = none ∧
    (searchFinish cfg env st r places).1.s.awaiting_location_text = none ∧
    ((searchFinish cfg env st r places).2 = false →
      (searchFinish cfg env st r places).1.s.refinement = none) ∧
    SearchFrame st (searchFinish cfg env st r places).1 := by
  unfold searchFinish
  by_cases hz : places.length = 0
  · simp only [hz, if_true]
    have hbase : SearchFrame st (st.say Msg.noResults) := SearchFrame.say_frame st _ (by simp)
    exact ⟨hL, hT, hX, by simp, hbase.1, hbase.2.1, hbase.2.2⟩
  · simp only [hz, if_false]
    have ht := presentRecommendations_talk cfg env.raiseAt (saveLastChoice st r) places 0
    have hfr : SearchFrame st (presentRecommendations cfg env.raiseAt (saveLastChoice st r)
        places 0).1 := by
      have := ht.toSearch
      exact ⟨this.1, this.2.1, this.2.2⟩
    have hcta := ht.2.2.1
    have hL1 := congrArg Session.awaitingLocation hcta
    have hT1 := congrArg Session.awaiting_location_type hcta
    have hX1 := congrArg Session.awaiting_location_text hcta
    have hsame : (saveLastChoice st r).s = st.s := rfl
    simp only [Session.forgetCta, Session.forgetTalk, hsame] at hL1 hT1 hX1
    by_cases hsh : (presentRecommendations cfg env.raiseAt (saveLastChoice st r) places 0).2 = true
    · simp only [hsh, if_true]
      refine ⟨hL1.trans hL, hT1.trans hT, hX1.trans hX, ?_, hfr⟩
      intro h
      cases h
    · simp only [hsh]
      exact ⟨rfl, rfl, rfl, by simp [clearRefinement], hfr.1, hfr.2.1, hfr.2.2⟩

/-- What the search branch of `finalizeSearch` does to the flow flags. -/
theorem searchPath_flags (cfg : Config) (env : SearchEnv) (st : St) (r : Refinement) :
    (searchPath cfg env st r).1.s.awaitingLocation = none ∧
    (searchPath cfg env st r).1.s.awaiting_location_type = none ∧
    (searchPath cfg env st r).1.s.awaiting_location_text = none ∧
    ((searchPath cfg env st r).2 = false → (searchPath cfg env st r).1.s.refinement = none) ∧
    SearchFrame st (searchPath cfg env st r).1 := by
  unfold searchPath
  obtain ⟨hL, hT, hX, _, hfr⟩ := searchStart_flags st r
  by_cases h1 : env.raiseAt = some FinalizeStep.lookup
  · simp only [h1, if_true]
    exact ⟨hL, hT, hX, by simp, hfr⟩
  · by_cases h2 : env.raiseAt = some FinalizeStep.ranking
    · simp only [h2, if_true]
      exact ⟨hL, hT, hX, by simp, hfr⟩
    · simp only [h1, h2, if_false]
      obtain ⟨a, b, c, d, e⟩ := searchFinish_flags cfg env (searchStart st r) r
        (searchRanked cfg env (searchStart st r).persona r) hL hT hX
      exact ⟨a, b, c, d, hfr.trans_frame e⟩

theorem recoveryPath_frame (st : St) : SearchFrame st (recoveryPath st) := by
  have hbase : SearchFrame st (st.say Msg.recovery) := SearchFrame.say_frame st _ (by simp)
  exact ⟨hbase.1, hbase.2.1, hbase.2.2⟩

theorem finalizeBody_usable (cfg : Config) (env : SearchEnv) (st : St)
    (h : hasUsableRefinement st.s = true) :
    ∃ r, st.s.refinement = some r ∧ finalizeBody cfg env st = searchPath cfg env st r := by
  unfold hasUsableRefinement at h
  unfold finalizeBody
  rcases hr : st.s.refinement with _ | r
  · rw [hr] at h
    simp at h
  · rw [hr] at h
    simp only [Bool.and_eq_true] at h
    refine ⟨r, rfl, ?_⟩
    simp [h.1, h.2]

theorem finalizeBody_unusable (cfg : Config) (env : SearchEnv) (st : St)
    (h : hasUsableRefinement st.s = false) :
    finalizeBody cfg env st = (recoveryPath st, false) := by
  unfold hasUsableRefinement at h
  unfold finalizeBody
  rcases hr : st.s.refinement with _ | r
  · rfl
  · rw [hr] at h
    simp only [Bool.and_eq_false_iff] at h
    rcases h with h | h <;> simp [h]

theorem setFinalizing_frame (st : St) (b : Bool) : SearchFrame st (st.setFinalizing b) :=
  ⟨rfl, fun h => h, [], by simp [St.setFinalizing], by simp⟩

/-- Every field that `finalizeSearch` is not meant to touch is left as it was, whatever the
outcome of its steps. -/
theorem finalizeSearch_frame (cfg : Config) (env : SearchEnv) (st : St) :
    SearchFrame st (finalizeSearch cfg env st).1 := by
  unfold finalizeSearch
  by_cases hf : st.s.isFinalizing = true
  · rw [if_pos hf]
    exact SearchFrame.refl_frame st
  · rw [if_neg hf]
    have h1 : SearchFrame (st.setFinalizing true)
        (finalizeBody cfg env (st.setFinalizing true)).1 := by
      by_cases hu : hasUsableRefinement (st.setFinalizing true).s = true
      · obtain ⟨r, _, hr⟩ := finalizeBody_usable cfg env _ hu
        rw [hr]
        exact (searchPath_flags cfg env _ r).2.2.2.2
      · rw [finalizeBody_unusable cfg env _ (by simpa using hu)]
        exact recoveryPath_frame _
    exact ((setFinalizing_frame st true).trans_frame h1).trans_frame (setFinalizing_frame _ false)

/-- C4 as stated fails. On the recovery branch (here: latitude 0) `awaiting_location_type`
is still set when `finalizeSearch` finishes; and when the presentation raises, the
`refinement` is still set: the `finally` block clears `isFinalizing` only. -/
theorem finalizeSearch_leaves_flags :
    (stEquator.s.isFinalizing = false ∧
      (finalizeSearch cfgPlain {} stEquator).1.s.awaiting_location_type =
        some { type := "bar" }) ∧
    (stBrasilia.s.isFinalizing = false ∧
      (finalizeSearch cfgPlain envPresentationRaises stBrasilia).2 = true ∧
      (finalizeSearch cfgPlain envPresentationRaises stBrasilia).1.sent =
        [Msg.processing, Msg.recIntro] ∧
      (finalizeSearch cfgPlain envPresentationRaises stBrasilia).1.s.refinement =
        some { type := "bar", lat := some (-15), lng := some (-47) }) := by
  refine ⟨⟨rfl, ?_⟩, rfl, ?_, ?_, ?_⟩ <;> decide

/-- C4 (amended): when `finalizeSearch` is entered with `isFinalizing` unset then, whatever
its steps return and whichever of them raises, `isFinalizing` and `awaitingLocation` are
absent afterwards; `refinement` is absent too unless a step raised; and if the refinement
had usable coordinates, `awaiting_location_type` and `awaiting_location_text` are absent. -/
theorem finalizeSearch_cleanup (cfg : Config) (env : SearchEnv) (st : St)
    (h : st.s.isFinalizing = false) :
    (finalizeSearch cfg env st).1.s.isFinalizing = false ∧
    (finalizeSearch cfg env st).1.s.awaitingLocation = none ∧
    ((finalizeSearch cfg env st).2 = false → (finalizeSearch cfg env st).1.s.refinement = none) ∧
    (hasUsableRefinement st.s = true →
      (finalizeSearch cfg env st).1.s.awaiting_location_type = none ∧
      (finalizeSearch cfg env st).1.s.awaiting_location_text = none) := by
  unfold finalizeSearch
  rw [if_neg (by simp [h])]
  have hsame : hasUsableRefinement (st.setFinalizing true).s = hasUsableRefinement st.s := rfl
  by_cases hu : hasUsableRefinement st.s = true
  · obtain ⟨r, _, hr⟩ := finalizeBody_usable cfg env (st.setFinalizing true) (hsame.trans hu)
    rw [hr]
    obtain ⟨hL, hT, hX, hR, _⟩ := searchPath_flags cfg env (st.setFinalizing true) r
    exact ⟨rfl, hL, hR, fun _ => ⟨hT, hX⟩⟩
  · have hu2 : hasUsableRefinement st.s = false := by simpa using hu
    rw [finalizeBody_unusable cfg env _ (hsame.trans hu2)]
    refine ⟨rfl, rfl, fun _ => rfl, ?_⟩
    intro hn
    exact absurd hn hu

/-- C4 (amended) at a session with a refinement in Brasília. -/
theorem finalizeSearch_cleanup_witness :
    stBrasilia.s.isFinalizing = false ∧
    (finalizeSearch cfgPlain {} stBrasilia).1.s.isFinalizing = false ∧
    (finalizeSearch cfgPlain {} stBrasilia).1.s.awaitingLocation = none ∧
    ((finalizeSearch cfgPlain {} stBrasilia).2 = false →
      (finalizeSearch cfgPlain {} stBrasilia).1.s.refinement = none) ∧
    (hasUsableRefinement stBrasilia.s = true →
      (finalizeSearch cfgPlain {} stBrasilia).1.s.awaiting_location_type = none ∧
      (finalizeSearch cfgPlain {} stBrasilia).1.s.awaiting_location_text = none) :=
  ⟨rfl, finalizeSearch_cleanup cfgPlain {} stBrasilia rfl⟩

/-- C5: when `isFinalizing` is already set, `finalizeSearch` returns at once: no message is
sent, no places lookup is made, no exception is raised and the whole state (every session
field, the persona, the message and lookup logs) is unchanged. -/
theorem finalizeSearch_reentrant (cfg : Config) (env : SearchEnv) (st : St)
    (h : st.s.isFinalizing = true) : finalizeSearch cfg env st = (st, false) := by
  unfold finalizeSearch
  simp [h]

/-- C5 at a session whose search is under way. -/
theorem finalizeSearch_reentrant_witness :
    stBusy.s.isFinalizing = true ∧ finalizeSearch cfgPlain {} stBusy = (stBusy, false) :=
  ⟨rfl, finalizeSearch_reentrant cfgPlain {} stBusy rfl⟩

theorem searchFinish_lookups (cfg : Config) (env : SearchEnv) (st : St) (r : Refinement)
    (places : List Place) : (searchFinish cfg env st r places).1.lookups = st.lookups := by
  unfold searchFinish
  by_cases hz : places.length = 0
  · rw [if_pos hz]
    rfl
  · rw [if_neg hz]
    have ht := (presentRecommendations_talk cfg env.raiseAt (saveLastChoice st r) places 0).2.1
    by_cases hsh : (presentRecommendations cfg env.raiseAt (saveLastChoice st r) places 0).2 = true
    · simp only [hsh, if_true]
      exact ht
    · simp only [hsh]
      exact ht

theorem searchPath_lookups (cfg : Config) (env : SearchEnv) (st : St) (r : Refinement) :
    (searchPath cfg env st r).1.lookups =
      st.lookups ++ [(r.lat.getD 0, r.lng.getD 0, searchDomain r)] := by
  unfold searchPath
  by_cases h1 : env.raiseAt = some FinalizeStep.lookup
  · simp only [h1, if_true]
    rfl
  · by_cases h2 : env.raiseAt = some FinalizeStep.ranking
    · simp only [h2, if_true]
      rfl
    · simp only [h1, h2, if_false]
      rw [searchFinish_lookups]
      rfl

/-- C6, the code at the failing input and its guard in general. A refinement whose latitude
is the number 0 (and whose longitude is -51) takes the recovery branch: the recovery message
is sent, no places lookup is made, `refinement` and `awaitingLocation` are deleted. In
general, `finalizeSearch` entered with `isFinalizing` unset makes a places lookup exactly
when the refinement is there with `lat` and `lng` truthy, that is present and not 0. -/
theorem finalizeSearch_zero_latitude :
    (stEquator.s.refinement = some { type := "bar", lat := some 0, lng := some (-51) } ∧
      (finalizeSearch cfgPlain {} stEquator).1.sent = [Msg.recovery] ∧
      (finalizeSearch cfgPlain {} stEquator).1.lookups = [] ∧
      (finalizeSearch cfgPlain {} stEquator).1.s.refinement = none ∧
      (finalizeSearch cfgPlain {} stEquator).1.s.awaitingLocation = none) ∧
    (∀ (cfg : Config) (env : SearchEnv) (st : St), st.s.isFinalizing = false →
      ((finalizeSearch cfg env st).1.lookups = st.lookups ↔
        hasUsableRefinement st.s = false)) := by
  refine ⟨⟨rfl, by decide, by decide, by decide, by decide⟩, ?_⟩
  intro cfg env st h
  unfold finalizeSearch
  rw [if_neg (by simp [h])]
  have hsame : hasUsableRefinement (st.setFinalizing true).s = hasUsableRefinement st.s := rfl
  by_cases hu : hasUsableRefinement st.s = true
  · obtain ⟨r, _, hr⟩ := finalizeBody_usable cfg env (st.setFinalizing true) (hsame.trans hu)
    rw [hr]
    have hl := searchPath_lookups cfg env (st.setFinalizing true) r
    constructor
    · intro heq
      have hlen := congrArg List.length (heq.symm.trans hl)
      simp [St.setFinalizing] at hlen
    · intro hn
      rw [hn] at hu
      cases hu
  · have hu2 : hasUsableRefinement st.s = false := by simpa using hu
    rw [finalizeBody_unusable cfg env _ (hsame.trans hu2)]
    exact ⟨fun _ => hu2, fun _ => rfl⟩

/-! ## The dispatcher: what every handler keeps -/

theorem Stable.refl_stable (st : St) : Stable st st :=
  ⟨⟨[], by simp, by simp⟩, fun h => h, fun h => h, fun h => h⟩

theorem Stable.trans_stable {a b c : St} (h1 : Stable a b) (h2 : Stable b c) : Stable a c := by
  obtain ⟨⟨e1, he1, hn1⟩, hname1, hh1, hf1⟩ := h1
  obtain ⟨⟨e2, he2, hn2⟩, hname2, hh2, hf2⟩ := h2
  refine ⟨⟨e1 ++ e2, ?_, ?_⟩, fun h => hname1 (hname2 h), fun h => hh2 (hh1 h),
    fun h => hf2 (hf1 h)⟩
  · rw [he2, he1, List.append_assoc]
  · simp [hn1, hn2]

/-- A change of the session that sends nothing, keeps the history, `interview` and
`awaiting_name` (or sets the latter to `false`), and keeps the link between
`awaitingLocation` and `refinement`. -/
theorem Stable.of_fields {st st1 : St} (hsent : st1.sent = st.sent)
    (hname : st1.s.awaiting_name = st.s.awaiting_name ∨ st1.s.awaiting_name = some false)
    (hhist : st1.s.conversationHistory = st.s.conversationHistory)
    (hint : st1.s.interview = st.s.interview)
    (hlink : (st.s.awaitingLocation = some true → st.s.refinement.isSome = true) →
      st1.s.awaitingLocation = some true → st1.s.refinement.isSome = true) :
    Stable st st1 := by
  refine ⟨⟨[], by simp [hsent], by simp⟩, ?_, ?_, ?_⟩
  · intro h
    rcases hname with hn | hn
    · rw [← hn]; exact h
    · rw [hn] at h; cases h
  · intro h
    rw [hhist]; exact h
  · intro hf
    exact ⟨hint.trans hf.1, hlink hf.2⟩

theorem Talk.stable {st st1 : St} (h : Talk st st1) : Stable st st1 := by
  obtain ⟨_, _, hs, hh, he⟩ := h
  have hn := congrArg Session.awaiting_name hs
  have hi := congrArg Session.interview hs
  have hl := congrArg Session.awaitingLocation hs
  have hr := congrArg Session.refinement hs
  simp only [Session.forgetTalk] at hn hi hl hr
  refine ⟨he, fun h => hn ▸ h, hh, fun hf => ⟨hi.trans hf.1, ?_⟩⟩
  rw [hl, hr]
  exact hf.2

theorem Stable.say_stable (st : St) (m : Msg) (hm : m ≠ Msg.askName) : Stable st (st.say m) :=
  (Talk.say_talk st m hm).stable

theorem Stable.send_stable (st : St) (m : Msg) (hm : m ≠ Msg.askName) : Stable st (st.send m) :=
  (Talk.send_talk st m hm).stable

theorem Stable.pushUser (st : St) (t : String) : Stable st (st.pushUser t) := by
  refine ⟨⟨[], by simp [St.pushUser], by simp⟩, fun h => h, ?_, fun h => h⟩
  intro _
  simp [St.pushUser]

theorem finalizeSearch_of_busy (cfg : Config) (env : SearchEnv) (st : St)
    (h : st.s.isFinalizing = true) : (finalizeSearch cfg env st).1 = st := by
  unfold finalizeSearch
  rw [if_pos h]

theorem finalizeSearch_awaitingLocation (cfg : Config) (env : SearchEnv) (st : St)
    (h : ¬ st.s.isFinalizing = true) : (finalizeSearch cfg env st).1.s.awaitingLocation = none := by
  unfold finalizeSearch
  rw [if_neg h]
  by_cases hu : hasUsableRefinement (st.setFinalizing true).s = true
  · obtain ⟨r, _, hr⟩ := finalizeBody_usable cfg env (st.setFinalizing true) hu
    rw [hr]
    exact (searchPath_flags cfg env (st.setFinalizing true) r).1
  · rw [finalizeBody_unusable cfg env _ (by simpa using hu)]
    rfl

theorem finalizeSearch_stable (cfg : Config) (env : SearchEnv) (st : St) :
    Stable st (finalizeSearch cfg env st).1 := by
  obtain ⟨hs, hh, he⟩ := finalizeSearch_frame cfg env st
  have hn := congrArg Session.awaiting_name hs
  have hi := congrArg Session.interview hs
  simp only [Session.forgetSearch, Session.forgetCta, Session.forgetTalk] at hn hi
  refine ⟨he, fun h => hn ▸ h, hh, fun hf => ⟨hi.trans hf.1, ?_⟩⟩
  by_cases hfin : st.s.isFinalizing = true
  · rw [finalizeSearch_of_busy cfg env st hfin]
    exact hf.2
  · intro h
    rw [finalizeSearch_awaitingLocation cfg env st hfin] at h
    cases h

theorem andThen_stable {st : St} {f : Flow} {k : St → Flow} (hf : Stable st f.st)
    (hk : Stable f.st (k f.st).st) : Stable st (f.andThen k).st := by
  cases f with
  | next st1 => exact hf.trans_stable hk
  | done st1 => exact hf
  | raised st1 => exact hf

theorem finalizeAndReturn_stable (cfg : Config) (env : SearchEnv) (st : St) :
    Stable st (finalizeAndReturn cfg env st).st := by
  unfold finalizeAndReturn
  have := finalizeSearch_stable cfg env st
  by_cases h : (finalizeSearch cfg env st).2 = true
  · simp only [h, if_true, Flow.st]
    exact this
  · simp only [h, Flow.st]
    exact this

theorem thenHandled_st (f : Flow) : (thenHandled f).st = f.st := by
  cases f <;> rfl

theorem startDynamicRefinement_stable (env : Env) (st : St) (t : TextMessage) (type : String) :
    Stable st (startDynamicRefinement env st t type) := by
  unfold startDynamicRefinement
  refine (Stable.pushUser st t.raw).trans_stable (Stable.trans_stable ?_ (Stable.say_stable _ _ (by simp)))
  exact Stable.of_fields rfl (Or.inl rfl) rfl rfl (fun h => h)

theorem handleTextPlaceSearch_stable (cfg : Config) (env : Env) (t : TextMessage) (st : St) :
    Stable st (handleTextPlaceSearch cfg env t st).st := by
  unfold handleTextPlaceSearch
  rcases hX : st.s.awaiting_location_text with _ | ta
  · exact Stable.refl_stable st
  · have h1 : Stable st (st.say (Msg.searching t.raw)) := Stable.say_stable st _ (by simp)
    rcases hg : env.geocode with _ | geo
    · exact h1.trans_stable (Stable.say_stable _ _ (by simp))
    · refine h1.trans_stable (Stable.trans_stable ?_ (finalizeAndReturn_stable cfg env.search _))
      exact Stable.of_fields rfl (Or.inl rfl) rfl rfl (fun _ _ => rfl)

theorem handleLocationTypeResponse_stable (cfg : Config) (env : Env) (t : TextMessage)
    (st : St) : Stable st (handleLocationTypeResponse cfg env t st).st := by
  unfold handleLocationTypeResponse
  rcases hT : st.s.awaiting_location_type with _ | ta
  · exact Stable.refl_stable st
  · simp only []
    by_cases hnear : t.saysNear = true
    · rw [if_pos hnear]
      refine Stable.trans_stable ?_ (Stable.say_stable _ _ (by simp))
      exact Stable.of_fields rfl (Or.inl rfl) rfl rfl (fun _ _ => rfl)
    · rw [if_neg hnear]
      have h1 : Stable st { st with s := { st.s with
          awaiting_location_text := some ta, awaiting_location_type := none } } :=
        Stable.of_fields rfl (Or.inl rfl) rfl rfl (fun h => h)
      by_cases hel : t.saysElsewhere = true
      · rw [if_pos hel]
        by_cases hd : t.hasDirectPlace = true
        · rw [if_pos hd, thenHandled_st]
          exact h1.trans_stable (handleTextPlaceSearch_stable cfg env t _)
        · rw [if_neg hd]
          exact h1.trans_stable (Stable.say_stable _ _ (by simp))
      · rw [if_neg hel, thenHandled_st]
        exact h1.trans_stable (handleTextPlaceSearch_stable cfg env t _)

theorem nearbyMessages_talk : ∀ (items : List NearbyItem) (st : St),
    Talk st (nearbyMessages items st) := by
  intro items
  induction items with
  | nil => intro st; exact Talk.refl_talk st
  | cons item items ih =>
    intro st
    unfold nearbyMessages
    refine Talk.trans_talk ?_ (ih _)
    refine Talk.trans_talk (Talk.say_talk st (Msg.nearbyCard item.place_id) (by simp)) ?_
    split
    · exact Talk.say_talk _ (Msg.nearbyExtra item.place_id) (by simp)
    · exact Talk.refl_talk _

theorem sendNearbySponsored_talk (env : Env) (st : St) : Talk st (sendNearbySponsored env st) := by
  unfold sendNearbySponsored
  split
  · exact Talk.refl_talk st
  · exact (Talk.say_talk st Msg.nearbyIntro (by simp)).trans_talk (nearbyMessages_talk _ _)

theorem ctaBlock_stable (env : Env) (t : TextMessage) (st : St) :
    Stable st (ctaBlock env t st).st := by
  unfold ctaBlock
  simp only []
  split
  · refine Stable.trans_stable ?_ (Stable.say_stable _ _ (by simp))
    exact Stable.of_fields rfl (Or.inl rfl) rfl rfl (fun h => h)
  · split
    · split
      · exact Stable.say_stable _ _ (by simp)
      · exact Stable.say_stable _ _ (by simp)
    · split
      · split
        · exact Stable.say_stable _ _ (by simp)
        · exact Stable.refl_stable st
      · exact Stable.refl_stable st
    · exact Stable.refl_stable st

theorem finalizeOrGoOn_stable (cfg : Config) (env : SearchEnv) (st : St) :
    Stable st (finalizeOrGoOn cfg env st).st := by
  unfold finalizeOrGoOn
  have := finalizeSearch_stable cfg env st
  by_cases h : (finalizeSearch cfg env st).2 = true
  · simp only [h, if_true, Flow.st]
    exact this
  · simp only [h, Flow.st]
    exact this

theorem footballBlock_stable (cfg : Config) (env : Env) (t : TextMessage) (st : St) :
    Stable st (footballBlock cfg env t st).st := by
  unfold footballBlock
  split
  · split
    · refine Stable.trans_stable (Stable.trans_stable ?_ (Stable.say_stable _ Msg.footballConfirm (by simp)))
        (finalizeOrGoOn_stable cfg env.footballSearch _)
      exact Stable.of_fields rfl (Or.inl rfl) rfl rfl (fun _ _ => rfl)
    · exact Stable.refl_stable st
  · exact Stable.refl_stable st

theorem setIntentChoice_stable (st : St) (ts : Nat) : Stable st (st.setIntentChoice ts) :=
  Stable.of_fields rfl (Or.inl rfl) rfl rfl (fun h => h)

theorem setPendingLocation_stable (st : St) (pend : Coord) :
    Stable st (st.setPendingLocation pend) :=
  Stable.of_fields rfl (Or.inl rfl) rfl rfl (fun h => h)

theorem locationBlock_stable (cfg : Config) (env : Env) (loc : LocMessage) (st : St) :
    Stable st (locationBlock cfg env loc st).st := by
  unfold locationBlock
  split
  · refine Stable.trans_stable (Stable.trans_stable ?_ (sendNearbySponsored_talk env _).stable)
      (finalizeAndReturn_stable cfg env.search _)
    exact Stable.of_fields rfl (Or.inl rfl) rfl rfl (fun _ _ => rfl)
  · exact ((setPendingLocation_stable st _).trans_stable
      (Stable.say_stable _ (Msg.adaptive Hint.chooseNearby) (by simp))).trans_stable
      ((setIntentChoice_stable _ _).trans_stable (sendNearbySponsored_talk env _).stable)

theorem clearIntentChoice_stable (st : St) : Stable st st.clearIntentChoice :=
  Stable.of_fields rfl (Or.inl rfl) rfl rfl (fun h => h)

theorem usePendingLocation_stable (st : St) (type : String) (answers : Answers) (pend : ℚ × ℚ) :
    Stable st (st.usePendingLocation type answers pend) :=
  Stable.of_fields rfl (Or.inl rfl) rfl rfl (fun _ _ => rfl)

theorem intentChoiceBlock_stable (cfg : Config) (env : Env) (t : TextMessage) (st : St) :
    Stable st (intentChoiceBlock cfg env t st).st := by
  unfold intentChoiceBlock
  rcases hA : st.s.awaiting_intent_choice with _ | ts
  · exact Stable.refl_stable st
  · rcases hi : chosenOrParsedIntent env t with _ | i
    · exact Stable.say_stable st _ (by simp)
    · rcases hp : numericPending st.clearIntentChoice.s with _ | pend
      · exact (clearIntentChoice_stable st).trans_stable (startDynamicRefinement_stable env _ t i)
      · exact ((clearIntentChoice_stable st).trans_stable (usePendingLocation_stable _ i {} pend)).trans_stable
          (finalizeAndReturn_stable cfg env.search _)

theorem fallbackIntent_stable (cfg : Config) (env : Env) (t : TextMessage) (st : St) :
    Stable st (fallbackIntent cfg env t st).st := by
  unfold fallbackIntent
  rcases hi : validIntent env.parsedIntention with _ | i
  · exact Stable.refl_stable st
  · rcases hp : numericPending st.s with _ | pend
    · exact startDynamicRefinement_stable env st t i
    · exact (usePendingLocation_stable st i env.parsedPreferences pend).trans_stable
        (finalizeOrGoOn_stable cfg env.search _)

theorem fallbackReply_stable (env : Env) (t : TextMessage) (st : St) :
    Stable st (fallbackReply env t st).st := by
  unfold fallbackReply
  split
  · exact Stable.say_stable st _ (by simp)
  · split
    · split
      · exact Stable.refl_stable st
      · exact Stable.send_stable st _ (by simp)
    · exact Stable.refl_stable st

theorem fallbackBlock_stable (cfg : Config) (env : Env) (t : TextMessage) (st : St) :
    Stable st (fallbackBlock cfg env t st).st :=
  andThen_stable (fallbackIntent_stable cfg env t st) (fallbackReply_stable env t _)

theorem checkMessageId_stable (ev : Event) (st : St) : Stable st (checkMessageId ev st).st := by
  unfold checkMessageId
  split
  · split
    · exact Stable.refl_stable st
    · exact Stable.of_fields rfl (Or.inl rfl) rfl rfl (fun h => h)
  · exact Stable.refl_stable st

theorem checkLocation_stable (cfg : Config) (env : Env) (ev : Event) (st : St) :
    Stable st (checkLocation cfg env ev st).st := by
  unfold checkLocation
  rcases hl : ev.locMessage with _ | loc
  · exact Stable.refl_stable st
  · by_cases hn : isNearDuplicate cfg loc st.s = true
    · simp only [hn, if_true]
      exact Stable.refl_stable st
    · simp only [hn]
      exact Stable.of_fields rfl (Or.inl rfl) rfl rfl (fun h => h)

theorem setMood_stable (st : St) (value : String) (ts : Nat) : Stable st (st.setMood value ts) :=
  Stable.of_fields rfl (Or.inl rfl) rfl rfl (fun h => h)

theorem detectAndUpdateMood_stable (env : Env) (t : TextMessage) (st : St) :
    Stable st (detectAndUpdateMood env t st) := by
  unfold detectAndUpdateMood
  rcases hm : st.s.mood with _ | prev
  · exact setMood_stable st _ _
  · by_cases hk : prev.1 ≠ "neutro" ∧ classifiedMood env t = "neutro" ∧
        env.now - prev.2 < 30 * 60 * 1000
    · dsimp only
      rw [if_pos hk]
      exact Stable.refl_stable st
    · dsimp only
      rw [if_neg hk]
      exact setMood_stable st _ _

theorem recordUserMessage_stable (env : Env) (t : TextMessage) (st : St) :
    Stable st (recordUserMessage env t st) :=
  (Stable.pushUser st t.raw).trans_stable (detectAndUpdateMood_stable env t _)

/-- After `recordUserMessage` the history is not empty. -/
theorem recordUserMessage_history (env : Env) (t : TextMessage) (st : St) :
    (recordUserMessage env t st).s.conversationHistory ≠ [] := by
  have h := (detectAndUpdateMood_stable env t (st.pushUser t.raw)).2.2.1
  apply h
  simp [St.pushUser]

theorem carnavalBlock_stable (t : TextMessage) (st : St) :
    Stable st (carnavalBlock t st).st := by
  unfold carnavalBlock
  split
  · exact Stable.say_stable st _ (by simp)
  · exact Stable.refl_stable st

theorem launchBlock_stable (env : Env) (t : TextMessage) (st : St) :
    Stable st (launchBlock env t st).st := by
  unfold launchBlock
  split
  · exact Stable.say_stable st _ (by simp)
  · exact Stable.refl_stable st

theorem resumeBlock_stable (env : Env) (b : Bool) (st : St) :
    Stable st (resumeBlock env b st).st := by
  unfold resumeBlock
  split
  · exact (Stable.say_stable st Msg.resumeGreet (by simp)).trans_stable (setIntentChoice_stable _ _)
  · exact Stable.refl_stable st

theorem sponsorMentionBlock_stable (t : TextMessage) (st : St) :
    Stable st (sponsorMentionBlock t st).st := by
  unfold sponsorMentionBlock
  split
  · split
    · exact Stable.say_stable st _ (by simp)
    · exact Stable.refl_stable st
  · exact Stable.refl_stable st

/-- The first-contact branch is never taken once the history is not empty. -/
theorem firstContactBlock_dead (st : St) (h : st.s.conversationHistory ≠ []) :
    firstContactBlock st = Flow.next st := by
  unfold firstContactBlock
  have hlen : st.s.conversationHistory.length > 0 := List.length_pos.mpr h
  simp [hlen]

theorem greetingBlock_stable (env : Env) (t : TextMessage) (st : St) :
    Stable st (greetingBlock env t st).st := by
  unfold greetingBlock
  split
  · split
    · exact Stable.say_stable st _ (by simp)
    · exact (Stable.say_stable st Msg.greetAsk (by simp)).trans_stable (setIntentChoice_stable _ _)
  · exact Stable.refl_stable st

theorem textHandlers_stable (cfg : Config) (env : Env) (t : TextMessage) (b : Bool) (st : St)
    (h : st.s.conversationHistory ≠ []) : Stable st (textHandlers cfg env t b st).st := by
  unfold textHandlers
  have h1 := carnavalBlock_stable t st
  refine andThen_stable h1 ?_
  have g1 := h1.2.2.1 h
  generalize (carnavalBlock t st).st = s1 at g1 ⊢
  have h2 := launchBlock_stable env t s1
  refine andThen_stable h2 ?_
  have g2 := h2.2.2.1 g1
  generalize (launchBlock env t s1).st = s2 at g2 ⊢
  have h3 := resumeBlock_stable env b s2
  refine andThen_stable h3 ?_
  have g3 := h3.2.2.1 g2
  generalize (resumeBlock env b s2).st = s3 at g3 ⊢
  have h4 := sponsorMentionBlock_stable t s3
  refine andThen_stable h4 ?_
  have g4 := h4.2.2.1 g3
  generalize (sponsorMentionBlock t s3).st = s4 at g4 ⊢
  rw [firstContactBlock_dead s4 g4]
  refine andThen_stable (Stable.refl_stable s4) ?_
  refine andThen_stable (greetingBlock_stable env t _) ?_
  refine andThen_stable (intentChoiceBlock_stable cfg env t _) ?_
  refine andThen_stable (ctaBlock_stable env t _) ?_
  refine andThen_stable (footballBlock_stable cfg env t _) ?_
  refine andThen_stable (handleLocationTypeResponse_stable cfg env t _) ?_
  exact handleTextPlaceSearch_stable cfg env t _

theorem dispatch_stable (cfg : Config) (env : Env) (ev : Event) (um : Option TextMessage)
    (st : St) : Stable st (dispatch cfg env ev um st).st := by
  unfold dispatch
  refine Stable.trans_stable (b := { st with s := { st.s with
    instanceId := if truthyStr ev.instanceId then ev.instanceId else st.s.instanceId,
    lastActive := env.now } }) (Stable.of_fields rfl (Or.inl rfl) rfl rfl (fun h => h)) ?_
  refine andThen_stable (checkMessageId_stable ev _) ?_
  refine andThen_stable (checkLocation_stable cfg env ev _) ?_
  refine andThen_stable ?_ (andThen_stable ?_ ?_)
  · rcases um with _ | t
    · exact Stable.refl_stable _
    · exact (recordUserMessage_stable env t _).trans_stable
        (textHandlers_stable cfg env t _ _ (recordUserMessage_history env t _))
  · rcases ev.locMessage with _ | loc
    · exact Stable.refl_stable _
    · exact locationBlock_stable cfg env loc _
  · rcases um with _ | t
    · exact Stable.refl_stable _
    · exact fallbackBlock_stable cfg env t _

theorem captureName_stable (env : Env) (t : TextMessage) (st : St) :
    Stable st (captureName env t st) := by
  unfold captureName
  refine Stable.trans_stable (Stable.trans_stable ?_ (Stable.say_stable _ Msg.askIntent (by simp)))
    (setIntentChoice_stable _ _)
  refine Stable.of_fields ?_ (Or.inr rfl) ?_ ?_ ?_
  · dsimp only
    split
    · split <;> rfl
    · rfl
  · dsimp only
    split
    · split <;> rfl
    · rfl
  · dsimp only
    split
    · split <;> rfl
    · rfl
  · dsimp only
    split
    · split <;> exact fun h => h
    · exact fun h => h

/-- Whatever the event and whatever the outside world answers, the dispatcher sends no
ask-name message, does not set `awaiting_name`, keeps a non-empty history non-empty and
keeps the link between `awaitingLocation` and `refinement`. -/
theorem webhook_stable (cfg : Config) (env : Env) (ev : Event) (st : St) :
    Stable st (webhook cfg env ev st).1 := by
  unfold webhook
  by_cases hme : ev.fromMe = true
  · rw [if_pos hme]
    exact Stable.refl_stable st
  · rw [if_neg hme]
    rcases hum : resolveUserMessage env ev with _ | um
    · exact Stable.send_stable st _ (by simp)
    · have hd := dispatch_stable cfg env ev um st
      have hgen : Stable st (match dispatch cfg env ev um st with
          | Flow.next st1 => (st1, 200)
          | Flow.done st1 => (st1, 200)
          | Flow.raised st1 => (st1.say Msg.errorApology, 500)).1 := by
        rcases hf : dispatch cfg env ev um st with st1 | st1 | st1
        · rw [hf] at hd; exact hd
        · rw [hf] at hd; exact hd
        · rw [hf] at hd; exact Stable.trans_stable hd (Stable.say_stable _ _ (by simp))
      rcases um with _ | t
      · exact hgen
      · rcases hn : st.s.awaiting_name with _ | v
        · exact hgen
        · cases v
          · exact hgen
          · exact captureName_stable env t st

theorem run_stable (cfg : Config) : ∀ (trace : List (Event × Env)) (st : St),
    Stable st (run cfg trace st) := by
  intro trace
  induction trace with
  | nil => intro st; exact Stable.refl_stable st
  | cons e rest ih =>
    intro st
    obtain ⟨ev, env⟩ := e
    exact (webhook_stable cfg env ev st).trans_stable (ih _)

/-! ## The dispatcher: idempotency, flow flags, first contact -/

/-- C1, the code at the failing input: an audio message that cannot be transcribed gets the
audio fallback before the duplicate-id check is reached, and its message id is not recorded.
Delivered twice in a row, the same event gets the fallback message twice. -/
theorem audio_fallback_sent_twice (cfg : Config) (env1 env2 : Env) (st : St) :
    (webhook cfg env1 evAudio st).1 = st.send Msg.audioFallback ∧
    (webhook cfg env2 evAudio (webhook cfg env1 evAudio st).1).1.sent =
      st.sent ++ [Msg.audioFallback, Msg.audioFallback] ∧
    (webhook cfg env2 evAudio (webhook cfg env1 evAudio st).1).1.s.lastMsgId = st.s.lastMsgId := by
  have h : ∀ (env : Env) (x : St), (webhook cfg env evAudio x).1 = x.send Msg.audioFallback := by
    intro env x
    rfl
  refine ⟨h env1 st, ?_, ?_⟩
  · rw [h env1 st, h env2]
    simp [St.send]
  · rw [h env1 st, h env2]
    rfl

/-- C2 as stated fails: after the texts `oi`, `bar`, `perto` from an empty session both
`refinement` and `awaitingLocation` are active; and after `oi`, `bar`, `oi` both
`awaiting_intent_choice` and `awaiting_location_type` are. -/
theorem two_flags_active :
    activeFlags (run cfgPlain [(evOi, envAt 1000), (evBar, envAt 2000), (evPerto, envAt 3000)]
      {}).s = ["refinement", "awaitingLocation"] ∧
    activeFlags (run cfgPlain [(evOi, envAt 1000), (evBar, envAt 2000), (evOiAgain, envAt 3000)]
      {}).s = ["awaiting_intent_choice", "awaiting_location_type"] := by
  constructor <;> decide

/-- C2 (amended): in every session state reached from the empty session by a sequence of
events, whatever the persona of the user and whatever the outside world answers, the
interview flag is not active and `awaitingLocation` is active only while `refinement` is
active; the flow flags are otherwise independent fields, several of which can be active
together. -/
theorem reachable_flags_linked (cfg : Config) (persona : Persona)
    (trace : List (Event × Env)) :
    (run cfg trace { persona := persona }).s.interview = false ∧
    ((run cfg trace { persona := persona }).s.awaitingLocation = some true →
      (run cfg trace { persona := persona }).s.refinement.isSome = true) :=
  (run_stable cfg trace { persona := persona }).2.2.2 ⟨rfl, fun h => by cases h⟩

/-- C3, the code at the failing input and in general. For a new user the text `oi` is
answered by the bar-or-restaurant greeting and sets `awaiting_intent_choice`;
`awaiting_name` stays absent. In general the dispatcher never sends the ask-name message and
never sets `awaiting_name`: the user message is pushed to the history before the
first-contact test, which requires an empty history. -/
theorem first_contact_never_asks_name :
    ((webhook cfgPlain (envAt 1000) evOi {}).1.sent = [Msg.greetAsk] ∧
      (webhook cfgPlain (envAt 1000) evOi {}).1.s.awaiting_name = none ∧
      (webhook cfgPlain (envAt 1000) evOi {}).1.s.awaiting_intent_choice = some 1000) ∧
    (∀ (cfg : Config) (env : Env) (ev : Event) (st : St),
      (∃ extra, (webhook cfg env ev st).1.sent = st.sent ++ extra ∧ Msg.askName ∉ extra) ∧
      ((webhook cfg env ev st).1.s.awaiting_name = some true →
        st.s.awaiting_name = some true)) := by
  refine ⟨⟨by decide, by decide, by decide⟩, ?_⟩
  intro cfg env ev st
  exact ⟨(webhook_stable cfg env ev st).1, (webhook_stable cfg env ev st).2.1⟩

/-! ## Sponsored-slot promotion: the slots after the loop -/

theorem pinnedSlots_length (sponsored : List Sponsor) (places : List Place) :
    (pinnedSlots sponsored places).length = 3 := by
  unfold pinnedSlots
  rw [pinFold_length]
  rfl

theorem mem_presentSponsors (sponsored : List Sponsor) (places : List Place) (s : Sponsor) :
    s ∈ presentSponsors sponsored places ↔ s ∈ activePresent sponsored places := by
  unfold presentSponsors
  exact (List.perm_insertionSort _ _).mem_iff

/-- After the loop, slot `k` holds the place of the first sponsor, in processing order, whose
slot index is `k`. -/
theorem pinnedSlots_getD (sponsored : List Sponsor) (places : List Place) (k : Nat)
    (hk : k < 3) :
    (pinnedSlots sponsored places).getD k none =
      ((presentSponsors sponsored places).find? (fun s => slotIndex s == k)).bind
        (fun s => byIdGet places s.place_id) := by
  unfold pinnedSlots
  rw [pinFold_getD places _ [none, none, none] k (by simpa using hk)]
  · have : ([none, none, none] : List (Option Place)).getD k none = none := by
      rcases k with _ | _ | _ | k
      · rfl
      · rfl
      · rfl
      · omega
    rw [this]
    rfl
  · intro s hs
    exact mem_activePresent_byIdGet sponsored places s ((mem_presentSponsors _ _ _).1 hs)

/-- A place held by a slot belongs to a present sponsor that claims the slot. -/
theorem pinnedSlots_some (sponsored : List Sponsor) (places : List Place) (k : Nat) (p : Place)
    (h : (pinnedSlots sponsored places).getD k none = some p) :
    k < 3 ∧ ∃ s ∈ presentSponsors sponsored places,
      slotIndex s = k ∧ byIdGet places s.place_id = some p := by
  have hk : k < 3 := by
    by_contra hk
    have hlen := pinnedSlots_length sponsored places
    rw [List.getD_eq_default _ _ (by omega)] at h
    cases h
  refine ⟨hk, ?_⟩
  rw [pinnedSlots_getD sponsored places k hk] at h
  rcases hf : (presentSponsors sponsored places).find? (fun s => slotIndex s == k) with _ | s
  · rw [hf] at h
    cases h
  · rw [hf] at h
    refine ⟨s, List.mem_of_find?_eq_some hf, ?_, h⟩
    simpa using List.find?_some hf

theorem pinnedSlots_eq (sponsored : List Sponsor) (places : List Place) :
    pinnedSlots sponsored places =
      [(pinnedSlots sponsored places).getD 0 none, (pinnedSlots sponsored places).getD 1 none,
        (pinnedSlots sponsored places).getD 2 none] := by
  have hlen := pinnedSlots_length sponsored places
  rcases hl : pinnedSlots sponsored places with _ | ⟨a, _ | ⟨b, _ | ⟨c, _ | ⟨d, r⟩⟩⟩⟩
  · rw [hl] at hlen; simp at hlen
  · rw [hl] at hlen; simp at hlen
  · rw [hl] at hlen; simp at hlen
  · rfl
  · rw [hl] at hlen; simp at hlen

theorem activePresent_sublist (sponsored : List Sponsor) (places : List Place) :
    (activePresent sponsored places).Sublist (sponsored.filter (fun s => s.active)) := by
  unfold activePresent
  apply List.monotone_filter_right
  intro s hs
  simp only [Bool.and_eq_true] at hs
  exact hs.1.1

theorem presentSponsors_nodup (sponsored : List Sponsor) (places : List Place)
    (hsp : ((sponsored.filter (fun s => s.active)).map (fun s => s.place_id)).Nodup) :
    ((presentSponsors sponsored places).map (fun s => s.place_id)).Nodup := by
  have h1 : ((activePresent sponsored places).map (fun s => s.place_id)).Nodup :=
    hsp.sublist ((activePresent_sublist sponsored places).map _)
  unfold presentSponsors
  exact ((List.perm_insertionSort _ _).map _).nodup_iff.2 h1

/-- Two different slots hold places with different identifiers when no two active sponsors
share a `place_id`. -/
theorem pinnedSlots_ids_ne (sponsored : List Sponsor) (places : List Place)
    (hsp : ((sponsored.filter (fun s => s.active)).map (fun s => s.place_id)).Nodup)
    (i j : Nat) (p q : Place) (hij : i ≠ j)
    (hi : (pinnedSlots sponsored places).getD i none = some p)
    (hj : (pinnedSlots sponsored places).getD j none = some q) :
    p.place_id ≠ q.place_id := by
  obtain ⟨_, s, hs, hsi, hsp1⟩ := pinnedSlots_some sponsored places i p hi
  obtain ⟨_, t, ht, htj, htq⟩ := pinnedSlots_some sponsored places j q hj
  intro heq
  have hst : s.place_id = t.place_id := by
    rw [← (byIdGet_some_mem places _ p hsp1).2, ← (byIdGet_some_mem places _ q htq).2, heq]
  have : s = t := List.inj_on_of_nodup_map (presentSponsors_nodup sponsored places hsp) hs ht hst
  apply hij
  rw [← hsi, ← htj, this]

theorem pinned_mem_places (sponsored : List Sponsor) (places : List Place) (p : Place)
    (hp : p ∈ (pinnedSlots sponsored places).filterMap id) : p ∈ places := by
  rw [List.mem_filterMap] at hp
  obtain ⟨a, ha, hap⟩ := hp
  simp only [id] at hap
  subst hap
  obtain ⟨k, hk, hget⟩ := List.getElem_of_mem ha
  have hD : (pinnedSlots sponsored places).getD k none = some p := by
    rw [List.getD_eq_getElem _ _ hk, hget]
  obtain ⟨_, s, _, _, hs⟩ := pinnedSlots_some sponsored places k p hD
  exact (byIdGet_some_mem places _ p hs).1

theorem pinned_ids_nodup (sponsored : List Sponsor) (places : List Place)
    (hsp : ((sponsored.filter (fun s => s.active)).map (fun s => s.place_id)).Nodup) :
    (((pinnedSlots sponsored places).filterMap id).map (fun p => p.place_id)).Nodup := by
  have h01 := pinnedSlots_ids_ne sponsored places hsp 0 1
  have h02 := pinnedSlots_ids_ne sponsored places hsp 0 2
  have h12 := pinnedSlots_ids_ne sponsored places hsp 1 2
  rw [pinnedSlots_eq sponsored places]
  rcases h0 : (pinnedSlots sponsored places).getD 0 none with _ | a <;>
  rcases h1 : (pinnedSlots sponsored places).getD 1 none with _ | b <;>
  rcases h2 : (pinnedSlots sponsored places).getD 2 none with _ | c <;>
  simp only [h0, h1, h2] at h01 h02 h12 <;>
  simp [List.filterMap]
  · exact h12 b c (by decide) rfl rfl
  · exact h02 a c (by decide) rfl rfl
  · exact h01 a b (by decide) rfl rfl
  · exact ⟨⟨h01 a b (by decide) rfl rfl, h02 a c (by decide) rfl rfl⟩,
      h12 b c (by decide) rfl rfl⟩

/-- A list `pinned` of places of `places` with distinct identifiers, followed by the other
places in their order, is a rearrangement of `places`. -/
theorem pinned_append_rest_perm (places pinned : List Place)
    (hnd : (places.map (fun q => q.place_id)).Nodup)
    (hmem : ∀ p ∈ pinned, p ∈ places)
    (hpnd : (pinned.map (fun p => p.place_id)).Nodup) :
    places.filter (fun p => !(pinned.map (fun p => p.place_id)).contains p.place_id) =
        places.filter (fun p => decide (p ∉ pinned)) ∧
      (pinned ++ places.filter (fun p => decide (p ∉ pinned))).Perm places := by
  have hiff : ∀ p ∈ places, (p.place_id ∈ pinned.map (fun p => p.place_id) ↔ p ∈ pinned) := by
    intro p hp
    constructor
    · intro h
      rw [List.mem_map] at h
      obtain ⟨q, hq, hqid⟩ := h
      have : q = p := List.inj_on_of_nodup_map hnd (hmem q hq) hp hqid
      rw [← this]
      exact hq
    · intro h
      exact List.mem_map_of_mem _ h
  constructor
  · apply List.filter_congr
    intro p hp
    have := hiff p hp
    by_cases hpp : p ∈ pinned
    · simp [hpp, this.2 hpp]
    · have hn : ¬ p.place_id ∈ pinned.map (fun p => p.place_id) := fun h => hpp (this.1 h)
      simp [hpp, hn]
  · rw [List.perm_ext_iff_of_nodup]
    · intro a
      simp only [List.mem_append, List.mem_filter, decide_eq_true_eq]
      constructor
      · rintro (h | h)
        · exact hmem a h
        · exact h.1
      · intro h
        by_cases ha : a ∈ pinned
        · exact Or.inl ha
        · exact Or.inr ⟨h, ha⟩
    · rw [List.nodup_append]
      refine ⟨List.Nodup.of_map _ hpnd, (List.Nodup.of_map _ hnd).filter _, ?_⟩
      intro a ha hb
      rw [List.mem_filter] at hb
      simp at hb
      exact hb.2 ha
    · exact List.Nodup.of_map _ hnd

/-- When some slot is occupied the early return is not taken: the output is the occupied
slots in slot order followed by the places whose identifier is not pinned. -/
theorem promoteSponsoredOrder_of_pinned (sponsored : List Sponsor) (places : List Place)
    (k : Nat) (p : Place) (hpin : (pinnedSlots sponsored places).getD k none = some p) :
    promoteSponsoredOrder sponsored places =
      (pinnedSlots sponsored places).filterMap id ++
        places.filter (fun q =>
          !(((pinnedSlots sponsored places).filterMap id).map (fun r => r.place_id)).contains
            q.place_id) := by
  obtain ⟨_, s, hs, _, hget⟩ := pinnedSlots_some sponsored places k p hpin
  have hpl : ¬ places.length = 0 := by
    intro h
    rw [List.length_eq_zero] at h
    have := (byIdGet_some_mem places _ p hget).1
    rw [h] at this
    cases this
  have hsp : ¬ sponsored.length = 0 := by
    intro h
    rw [List.length_eq_zero] at h
    rw [mem_presentSponsors, h] at hs
    simp [activePresent] at hs
  unfold promoteSponsoredOrder
  rw [if_neg (by tauto)]

/-! ## Sponsored-slot promotion: rearrangement of the input -/

/-- C11, the claim fails for a directory with two active entries for one place: with the
entries of priority 1 and 2 for the place `a`, the place is pinned in both slots and the
list of two places with distinct identifiers comes back with three entries, which is not a
rearrangement of the input. -/
theorem promoteSponsoredOrder_doubles :
    ([placeA, placeW].map (fun q => q.place_id)).Nodup ∧
    promoteSponsoredOrder [sponsorA, sponsorATwice] [placeA, placeW] =
      [placeA, placeA, placeW] ∧
    ¬ (promoteSponsoredOrder [sponsorA, sponsorATwice] [placeA, placeW]).Perm
      [placeA, placeW] := by
  refine ⟨by decide, by decide, ?_⟩
  intro h
  have := h.length_eq
  revert this
  decide

/-- C11 (amended): for every list of places with pairwise distinct `place_id` and every
sponsor list in which no two active sponsors share a `place_id`, the output of
`promoteSponsoredOrder` is a rearrangement of its input of the same length: the places of
the occupied slots (at most three) come first and the places that were not pinned follow
in their original relative order. -/
theorem promoteSponsoredOrder_perm (sponsored : List Sponsor) (places : List Place)
    (hnd : (places.map (fun q => q.place_id)).Nodup)
    (hsp : ((sponsored.filter (fun s => s.active)).map (fun s => s.place_id)).Nodup) :
    ∃ pinned rest,
      promoteSponsoredOrder sponsored places = pinned ++ rest ∧
      pinned = (pinnedSlots sponsored places).filterMap id ∧
      pinned.length ≤ 3 ∧
      rest = places.filter (fun p => decide (p ∉ pinned)) ∧
      (promoteSponsoredOrder sponsored places).Perm places ∧
      (promoteSponsoredOrder sponsored places).length = places.length := by
  have hmem := pinned_mem_places sponsored places
  have hpnd := pinned_ids_nodup sponsored places hsp
  have hlen : ((pinnedSlots sponsored places).filterMap id).length ≤ 3 := by
    have := List.length_filterMap_le id (pinnedSlots sponsored places)
    rw [pinnedSlots_length] at this
    exact this
  obtain ⟨hrest, hperm⟩ := pinned_append_rest_perm places _ hnd hmem hpnd
  by_cases h0 : places.length = 0 ∨ sponsored.length = 0
  · have hout : promoteSponsoredOrder sponsored places = places := by
      unfold promoteSponsoredOrder
      rw [if_pos h0]
    have hpin : (pinnedSlots sponsored places).filterMap id = [] := by
      rcases h0 with h | h
      · rw [List.length_eq_zero] at h
        subst h
        rw [List.eq_nil_iff_forall_not_mem]
        intro p hp
        exact absurd (hmem p hp) (List.not_mem_nil _)
      · rw [List.length_eq_zero] at h
        subst h
        rfl
    refine ⟨_, places, ?_, rfl, hlen, ?_, ?_, ?_⟩
    · rw [hout, hpin]
      rfl
    · rw [hpin]
      simp
    · rw [hout]
    · rw [hout]
  · have hout : promoteSponsoredOrder sponsored places =
        (pinnedSlots sponsored places).filterMap id ++
          places.filter (fun p => decide (p ∉ (pinnedSlots sponsored places).filterMap id)) := by
      unfold promoteSponsoredOrder
      rw [if_neg h0]
      simp only []
      rw [hrest]
    refine ⟨_, _, hout, rfl, hlen, rfl, ?_, ?_⟩
    · rw [hout]
      exact hperm
    · rw [hout]
      exact hperm.length_eq

/-- C11 (amended) at a directory of four sponsors, two of them active and present, and four
places. -/
theorem promoteSponsoredOrder_perm_witness :
    ([placeW, placeC, placeB, placeA].map (fun q => q.place_id)).Nodup ∧
    (([sponsorOff, sponsorC, sponsorAway, sponsorA].filter (fun s => s.active)).map
      (fun s => s.place_id)).Nodup ∧
    ∃ pinned rest,
      promoteSponsoredOrder [sponsorOff, sponsorC, sponsorAway, sponsorA]
        [placeW, placeC, placeB, placeA] = pinned ++ rest ∧
      pinned = (pinnedSlots [sponsorOff, sponsorC, sponsorAway, sponsorA]
        [placeW, placeC, placeB, placeA]).filterMap id ∧
      pinned.length ≤ 3 ∧
      rest = [placeW, placeC, placeB, placeA].filter (fun p => decide (p ∉ pinned)) ∧
      (promoteSponsoredOrder [sponsorOff, sponsorC, sponsorAway, sponsorA]
        [placeW, placeC, placeB, placeA]).Perm [placeW, placeC, placeB, placeA] ∧
      (promoteSponsoredOrder [sponsorOff, sponsorC, sponsorAway, sponsorA]
        [placeW, placeC, placeB, placeA]).length = [placeW, placeC, placeB, placeA].length :=
  ⟨by decide, by decide,
    promoteSponsoredOrder_perm [sponsorOff, sponsorC, sponsorAway, sponsorA]
      [placeW, placeC, placeB, placeA] (by decide) (by decide)⟩

/-! ## Sponsored-slot promotion: which slot a sponsor claims -/

/-- C12, the claim fails at `prioridade` 0: the value is falsy, `parseInt(0, 10) || 99` is
99 and the sponsor claims slot 3, not slot 1. With a second sponsor of priority 3, which is
sorted first, the place of the sponsor with priority 0 is not pinned at all. The claim also
fails at `prioridade` `1e21`: `parseInt` reads the string `1e+21` as 1 and the sponsor
claims slot 1, not slot 3; with a second sponsor of priority 1 for another place, which is
sorted first, its place is not pinned at all. -/
theorem zero_priority_claims_last_slot :
    slotIndex sponsorZero = 2 ∧
    (slotIndex sponsorZero : Int) + 1 ≠ max 1 (min 3 0) ∧
    promoteSponsoredOrder [sponsorZero, sponsorC] [placeW, placeA, placeC] =
      [placeC, placeW, placeA] ∧
    sponsorHuge.prioridade = some (10 ^ 21) ∧ parseInt10 (10 ^ 21) = 1 ∧
    slotIndex sponsorHuge = 0 ∧
    (slotIndex sponsorHuge : Int) + 1 ≠ max 1 (min 3 (10 ^ 21)) ∧
    promoteSponsoredOrder [sponsorHuge, sponsorAlso] [placeW, placeA, placeB] =
      [placeB, placeW, placeA] := by
  refine ⟨by decide, by decide, by decide, rfl, by decide, by decide, by decide, by decide⟩

/-- C12 (amended): for every sponsor list and place list the array of slots has exactly three
entries, at most three places are pinned and every slot index is below 3; a sponsor whose
`prioridade` is an integer `v` other than 0 and below `10^21` in size claims the clamped slot
`max(1, min(3, v))`, which is slot 1 for `v` below 1 and slot 3 for `v` above 3; and after
the loop each slot holds the place of the first sponsor, in processing order, that claims
it. -/
theorem pinned_slots_clamped (sponsored : List Sponsor) (places : List Place) (s : Sponsor)
    (v : Int) (hv : s.prioridade = some v) (h0 : v ≠ 0) (hb : v.natAbs < 10 ^ 21) :
    (pinnedSlots sponsored places).length = 3 ∧
    ((pinnedSlots sponsored places).filterMap id).length ≤ 3 ∧
    (∀ t : Sponsor, slotIndex t < 3) ∧
    (slotIndex s : Int) + 1 = max 1 (min 3 v) ∧
    (v < 1 → slotIndex s = 0) ∧ (3 < v → slotIndex s = 2) ∧
    (∀ k, k < 3 → (pinnedSlots sponsored places).getD k none =
      ((presentSponsors sponsored places).find? (fun t => slotIndex t == k)).bind
        (fun t => byIdGet places t.place_id)) := by
  have hlen := pinnedSlots_length sponsored places
  have hor : orDefault99 (some v) = v := by
    simp [orDefault99, h0]
  have hslot := slotIndex_of_small s v hv hb
  rw [hor] at hslot
  refine ⟨hlen, ?_, slotIndex_lt, ?_, ?_, ?_, pinnedSlots_getD sponsored places⟩
  · have := List.length_filterMap_le id (pinnedSlots sponsored places)
    omega
  · rw [hslot]
    omega
  · intro h
    rw [hslot]
    omega
  · intro h
    rw [hslot]
    omega

/-- C12 (amended) at a sponsor of priority -5, which claims slot 1. -/
theorem pinned_slots_clamped_witness :
    sponsorNeg.prioridade = some (-5) ∧ (-5 : Int) ≠ 0 ∧ (-5 : Int).natAbs < 10 ^ 21 ∧
    ((pinnedSlots [sponsorA, sponsorNeg] [placeW, placeA, placeB]).length = 3 ∧
    ((pinnedSlots [sponsorA, sponsorNeg] [placeW, placeA, placeB]).filterMap id).length ≤ 3 ∧
    (∀ t : Sponsor, slotIndex t < 3) ∧
    (slotIndex sponsorNeg : Int) + 1 = max 1 (min 3 (-5)) ∧
    ((-5 : Int) < 1 → slotIndex sponsorNeg = 0) ∧ ((3 : Int) < -5 → slotIndex sponsorNeg = 2) ∧
    (∀ k, k < 3 → (pinnedSlots [sponsorA, sponsorNeg] [placeW, placeA, placeB]).getD k none =
      ((presentSponsors [sponsorA, sponsorNeg] [placeW, placeA, placeB]).find?
        (fun t => slotIndex t == k)).bind
        (fun t => byIdGet [placeW, placeA, placeB] t.place_id))) :=
  ⟨rfl, by decide, by decide,
    pinned_slots_clamped [sponsorA, sponsorNeg] [placeW, placeA, placeB] sponsorNeg (-5) rfl
      (by decide) (by decide)⟩

/-! ## Sponsored-slot promotion: the position of a pinned place -/

/-- C13, the claim fails when a lower slot is empty: the only sponsor has priority 2, its
place is pinned in slot 2, and since the empty slot 1 is skipped the place comes out at
position 1 of a list of two places, not at position 2. -/
theorem second_slot_moves_up :
    sponsorB.prioridade = some 2 ∧
    (pinnedSlots [sponsorB] [placeW, placeB]).getD 1 none = some placeB ∧
    promoteSponsoredOrder [sponsorB] [placeW, placeB] = [placeB, placeW] ∧
    (promoteSponsoredOrder [sponsorB] [placeW, placeB])[1]? ≠ some placeB := by
  refine ⟨rfl, by decide, by decide, by decide⟩

/-- Where the content of a slot lands when the empty slots are skipped. -/
theorem slots_position (x0 x1 x2 : Option Place) (rest : List Place) (k : Nat) (p : Place)
    (hpin : [x0, x1, x2].getD k none = some p) :
    ([x0, x1, x2].filterMap id ++ rest)[(([x0, x1, x2].take k).filterMap id).length]? = some p ∧
    (([x0, x1, x2].take k).filterMap id).length ≤ k ∧
    ((∀ j, j < k → [x0, x1, x2].getD j none ≠ none) →
      ([x0, x1, x2].filterMap id ++ rest)[k]? = some p) := by
  rcases k with _ | _ | _ | k
  · simp at hpin
    subst hpin
    simp
  · simp at hpin
    subst hpin
    rcases x0 with _ | a <;> simp
  · simp at hpin
    subst hpin
    rcases x0 with _ | a <;> rcases x1 with _ | b <;> simp
    · intro h
      exact absurd (h 0 (by omega)) (by simp)
    · intro h
      exact absurd (h 0 (by omega)) (by simp)
    · intro h
      exact absurd (h 1 (by omega)) (by simp)
  · simp at hpin

/-- C13 (amended): a place pinned by `promoteSponsoredOrder` in slot `k + 1` (the slot of the
sponsors with `prioridade` `k + 1`, for `k + 1` in 1, 2, 3) appears in the output right after
the places pinned in the lower slots, that is at the 1-based position 1 plus the number of
occupied lower slots, which is at most `k + 1`; it appears at position `k + 1` when every
lower slot is occupied. The indices of the statement count from 0. -/
theorem pinned_place_position (sponsored : List Sponsor) (places : List Place) (k : Nat)
    (p : Place) (hpin : (pinnedSlots sponsored places).getD k none = some p) :
    (promoteSponsoredOrder sponsored places)[
      (((pinnedSlots sponsored places).take k).filterMap id).length]? = some p ∧
    (((pinnedSlots sponsored places).take k).filterMap id).length ≤ k ∧
    ((∀ j, j < k → (pinnedSlots sponsored places).getD j none ≠ none) →
      (promoteSponsoredOrder sponsored places)[k]? = some p) ∧
    (∀ s : Sponsor, s.prioridade = some ((k : Int) + 1) → slotIndex s = k) := by
  have hk := (pinnedSlots_some sponsored places k p hpin).1
  have hslot : ∀ s : Sponsor, s.prioridade = some ((k : Int) + 1) → slotIndex s = k := by
    intro s hs
    rw [slotIndex_of_small s _ hs (by omega)]
    have : orDefault99 (some ((k : Int) + 1)) = (k : Int) + 1 := by
      simp only [orDefault99]
      rw [if_neg (by omega)]
    rw [this]
    omega
  rw [promoteSponsoredOrder_of_pinned sponsored places k p hpin]
  generalize places.filter _ = rest
  revert hpin
  rw [pinnedSlots_eq sponsored places]
  intro hpin
  obtain ⟨h1, h2, h3⟩ := slots_position _ _ _ rest k p hpin
  exact ⟨h1, h2, h3, hslot⟩

/-- C13 (amended) at the single sponsor of priority 2: its place is in slot 2 and comes out
first. -/
theorem pinned_place_position_witness :
    (pinnedSlots [sponsorB] [placeW, placeB]).getD 1 none = some placeB ∧
    ((promoteSponsoredOrder [sponsorB] [placeW, placeB])[
      (((pinnedSlots [sponsorB] [placeW, placeB]).take 1).filterMap id).length]? = some placeB ∧
    (((pinnedSlots [sponsorB] [placeW, placeB]).take 1).filterMap id).length ≤ 1 ∧
    ((∀ j, j < 1 → (pinnedSlots [sponsorB] [placeW, placeB]).getD j none ≠ none) →
      (promoteSponsoredOrder [sponsorB] [placeW, placeB])[1]? = some placeB) ∧
    (∀ s : Sponsor, s.prioridade = some (((1 : Nat) : Int) + 1) → slotIndex s = 1)) :=
  ⟨by decide, pinned_place_position [sponsorB] [placeW, placeB] 1 placeB (by decide)⟩

/-! ## Sponsored-slot promotion: two sponsors claim slot 1 -/

/-- The stable sort puts first an element that is strictly below everything before it and
not above anything after it. -/
theorem insertionSort_first (front back : List Sponsor) (w : Sponsor)
    (hfront : ∀ s ∈ front, orDefault99 w.prioridade < orDefault99 s.prioridade)
    (hback : ∀ s ∈ back, orDefault99 w.prioridade ≤ orDefault99 s.prioridade) :
    (front ++ w :: back).insertionSort sponsorLe =
      w :: (front ++ back).insertionSort sponsorLe := by
  induction front with
  | nil =>
    apply List.insertionSort_cons
    intro b hb
    exact hback b hb
  | cons a front ih =>
    have hrest := ih (fun s hs => hfront s (List.mem_cons_of_mem _ hs))
    have ha : ¬ sponsorLe a w := by
      have := hfront a (List.mem_cons_self _ _)
      unfold sponsorLe
      omega
    show List.orderedInsert sponsorLe a (List.insertionSort sponsorLe (front ++ w :: back)) =
      w :: List.orderedInsert sponsorLe a (List.insertionSort sponsorLe (front ++ back))
    rw [hrest, List.orderedInsert, if_neg ha]

theorem activePresent_append (l1 l2 : List Sponsor) (places : List Place) :
    activePresent (l1 ++ l2) places = activePresent l1 places ++ activePresent l2 places := by
  unfold activePresent
  rw [List.filter_append]

/-- C14, the claim fails when the two claimants have different values of `prioridade`: the
sponsors are sorted by the value before the slots are given out, so the sponsor of priority
-5, second in the directory, is processed before the sponsor of priority 1, first in the
directory, and takes slot 1. Both values clamp to slot 1. -/
theorem lower_priority_value_wins_slot_one :
    slotIndex sponsorA = 0 ∧ slotIndex sponsorNeg = 0 ∧
    activePresent [sponsorA, sponsorNeg] [placeW, placeA, placeB] = [sponsorA, sponsorNeg] ∧
    (pinnedSlots [sponsorA, sponsorNeg] [placeW, placeA, placeB]).getD 0 none = some placeB ∧
    promoteSponsoredOrder [sponsorA, sponsorNeg] [placeW, placeA, placeB] =
      [placeB, placeW, placeA] := by
  refine ⟨by decide, by decide, by decide, by decide, by decide⟩

/-- C14 (amended): in a sponsor list `front ++ w :: back` in which `w` is active, present in
the place list and claims slot 1, `promoteSponsoredOrder` gives slot 1 (and the head of the
output) to the place of `w` when every active present sponsor before `w` has a strictly
larger `prioridade || 99` and none after `w` has a smaller one. Among claimants of equal
`prioridade`, for instance two sponsors of priority 1, the one that appears first in the
sponsor list gets the slot; a claimant with a smaller value gets it whatever its place in
the list. -/
theorem first_slot_winner (places : List Place) (front back : List Sponsor) (w : Sponsor)
    (hw : w ∈ activePresent [w] places) (hslot : slotIndex w = 0)
    (hfront : ∀ s ∈ activePresent front places,
      orDefault99 w.prioridade < orDefault99 s.prioridade)
    (hback : ∀ s ∈ activePresent back places,
      orDefault99 w.prioridade ≤ orDefault99 s.prioridade) :
    (pinnedSlots (front ++ w :: back) places).getD 0 none = byIdGet places w.place_id ∧
    (promoteSponsoredOrder (front ++ w :: back) places).head? = byIdGet places w.place_id ∧
    (byIdGet places w.place_id).isSome = true := by
  have hwp : activePresent [w] places = [w] := by
    unfold activePresent at hw ⊢
    rw [List.mem_filter] at hw
    rw [List.filter_cons, if_pos hw.2]
    rfl
  have hap : activePresent (front ++ w :: back) places =
      activePresent front places ++ w :: activePresent back places := by
    have : front ++ w :: back = front ++ ([w] ++ back) := rfl
    rw [this, activePresent_append, activePresent_append, hwp]
    rfl
  have hsorted : presentSponsors (front ++ w :: back) places =
      w :: (activePresent front places ++ activePresent back places).insertionSort sponsorLe := by
    unfold presentSponsors
    rw [hap]
    exact insertionSort_first _ _ w hfront hback
  obtain ⟨q, hq⟩ := mem_activePresent_byIdGet [w] places w hw
  have hslot0 : (pinnedSlots (front ++ w :: back) places).getD 0 none = some q := by
    rw [pinnedSlots_getD _ _ 0 (by omega), hsorted, List.find?_cons]
    simp [hslot, hq]
  refine ⟨by rw [hslot0, hq], ?_, by rw [hq]; rfl⟩
  rw [promoteSponsoredOrder_of_pinned _ places 0 q hslot0, hq]
  generalize places.filter _ = rest
  rw [pinnedSlots_eq, hslot0]
  rfl

/-- C14 (amended) at two sponsors of priority 1, behind an inactive entry: the first of the
two gets slot 1. -/
theorem first_slot_winner_witness :
    sponsorA ∈ activePresent [sponsorA] [placeW, placeB, placeA] ∧ slotIndex sponsorA = 0 ∧
    (pinnedSlots ([sponsorOff] ++ sponsorA :: [sponsorAlso]) [placeW, placeB, placeA]).getD 0
      none = byIdGet [placeW, placeB, placeA] sponsorA.place_id ∧
    (promoteSponsoredOrder ([sponsorOff] ++ sponsorA :: [sponsorAlso])
      [placeW, placeB, placeA]).head? = byIdGet [placeW, placeB, placeA] sponsorA.place_id ∧
    (byIdGet [placeW, placeB, placeA] sponsorA.place_id).isSome = true :=
  ⟨by decide, by decide,
    first_slot_winner [placeW, placeB, placeA] [sponsorOff] [sponsorAlso] sponsorA
      (by decide) (by decide) (by decide) (by decide)⟩

/-! ## Ranking: the descending stable sort -/

theorem sortDescBy_sorted (score : Place → ℚ) (places : List Place) :
    (sortDescBy score places).Sorted (fun a b => score b ≤ score a) := by
  haveI : IsTotal Place (fun a b => score b ≤ score a) := ⟨fun a b => le_total _ _⟩
  haveI : IsTrans Place (fun a b => score b ≤ score a) := ⟨fun _ _ _ h1 h2 => le_trans h2 h1⟩
  exact List.sorted_insertionSort _ places

theorem sortDescBy_perm (score : Place → ℚ) (places : List Place) :
    (sortDescBy score places).Perm places :=
  List.perm_insertionSort _ places

/-- The sort is stable: the places of one score keep their order. -/
theorem sortDescBy_stable (score : Place → ℚ) (places : List Place) (v : ℚ) :
    (sortDescBy score places).filter (fun p => decide (score p = v)) =
      places.filter (fun p => decide (score p = v)) := by
  have hpair : (places.filter (fun p => decide (score p = v))).Pairwise
      (fun a b => score b ≤ score a) := by
    rw [List.pairwise_iff_forall_sublist]
    intro a b hab
    have ha : a ∈ places.filter (fun p => decide (score p = v)) := hab.subset (by simp)
    have hb : b ∈ places.filter (fun p => decide (score p = v)) := hab.subset (by simp)
    rw [List.mem_filter] at ha hb
    have h1 : score a = v := by simpa using ha.2
    have h2 : score b = v := by simpa using hb.2
    rw [h1, h2]
  have hsub : (places.filter (fun p => decide (score p = v))).Sublist
      (sortDescBy score places) :=
    List.sublist_insertionSort hpair (List.filter_sublist _)
  have hsub2 := hsub.filter (fun p => decide (score p = v))
  rw [List.filter_filter] at hsub2
  simp only [Bool.and_self] at hsub2
  have hlen : ((sortDescBy score places).filter (fun p => decide (score p = v))).length =
      (places.filter (fun p => decide (score p = v))).length :=
    ((sortDescBy_perm score places).filter _).length_eq
  exact (hsub2.eq_of_length hlen.symm).symm

/-- Two scores that agree on the places of the list sort it the same way. -/
theorem sortDescBy_congr (f g : Place → ℚ) (places : List Place)
    (h : ∀ p ∈ places, f p = g p) : sortDescBy f places = sortDescBy g places := by
  have := List.map_insertionSort (fun a b => f b ≤ f a) (fun a b => g b ≤ g a) id places
    (by
      intro a ha b hb
      simp only [id]
      rw [h a ha, h b hb])
  simpa [sortDescBy] using this

/-- The code's `x || 1` is `max(x, 1)` on a review count that is a natural number. -/
theorem calculateBasicScore_eq_spec (log10 : ℚ → ℚ) (p : Place)
    (hcount : p.user_ratings_total = none ∨ ∃ n : ℕ, p.user_ratings_total = some (n : ℚ)) :
    calculateBasicScore log10 p = baseScoreSpec log10 p := by
  unfold calculateBasicScore baseScoreSpec
  have h1 : (if truthyNum p.rating = true then p.rating.getD 0 else 0) = p.rating.getD 0 := by
    rcases hr : p.rating with _ | r
    · simp [truthyNum]
    · by_cases h0 : r = 0
      · simp [truthyNum, h0]
      · simp [truthyNum, h0]
  have h2 : (if truthyNum p.user_ratings_total = true then p.user_ratings_total.getD 1 else 1) =
      max (p.user_ratings_total.getD 0) 1 := by
    rcases hcount with h | ⟨n, h⟩
    · rw [h]
      simp [truthyNum]
    · rw [h]
      rcases n with _ | n
      · simp [truthyNum]
      · have : (1 : ℚ) ≤ ((n + 1 : ℕ) : ℚ) := by
          push_cast
          have : (0 : ℚ) ≤ (n : ℚ) := Nat.cast_nonneg n
          linarith
        have hne : ((n + 1 : ℕ) : ℚ) ≠ 0 := by linarith
        simp only [truthyNum, bne_iff_ne, ne_eq, hne, not_false_eq_true, if_true,
          Option.getD_some]
        rw [max_eq_left this]
  rw [h1, h2]

theorem isSponsored_iff (sponsored : List Sponsor) (p : Place) :
    isSponsored sponsored p = true ↔
      ∃ s ∈ sponsored, s.active = true ∧ s.place_id = p.place_id := by
  unfold isSponsored
  rw [List.any_eq_true]
  constructor
  · rintro ⟨s, hs, h⟩
    simp only [Bool.and_eq_true, beq_iff_eq] at h
    exact ⟨s, hs, h.2, h.1⟩
  · rintro ⟨s, hs, h1, h2⟩
    exact ⟨s, hs, by simp [h1, h2]⟩

/-- The branch of `rankGeneric` with a language model: the items that the outer timer did
not cut, sorted by `_score`. -/
theorem rankGeneric_with_model (log10 : ℚ → ℚ) (sponsored : List Sponsor)
    (llm : Place → LlmOutcome) (places : List Place) (preco : Option String) :
    rankGeneric log10 sponsored true llm places preco =
      sortDescBy (placeScore log10 sponsored preco llm)
        (places.filter (fun p => llm p != LlmOutcome.outerTimeout)) := by
  unfold rankGeneric
  by_cases h0 : places.length = 0
  · rw [if_pos h0]
    rw [List.length_eq_zero] at h0
    subst h0
    rfl
  · rw [if_neg h0]
    rfl

/-- The branch of `rankGeneric` without a language model: all places, sorted by the basic
score. -/
theorem rankGeneric_without_model (log10 : ℚ → ℚ) (sponsored : List Sponsor)
    (llm : Place → LlmOutcome) (places : List Place) (preco : Option String) :
    rankGeneric log10 sponsored false llm places preco =
      sortDescBy (calculateBasicScore log10) places := by
  unfold rankGeneric
  by_cases h0 : places.length = 0
  · rw [if_pos h0]
    rw [List.length_eq_zero] at h0
    subst h0
    rfl
  · rw [if_neg h0]
    rfl

theorem boosted_length (log10 : ℚ → ℚ) (sponsored : List Sponsor) (places : List Place) :
    (boosted log10 sponsored places).length = min places.length 12 := by
  unfold boosted sortDescBy
  rw [List.length_take, List.length_insertionSort]
  exact Nat.min_comm _ _

theorem rankGeneric_without_model_length (log10 : ℚ → ℚ) (sponsored : List Sponsor)
    (llm : Place → LlmOutcome) (places : List Place) (preco : Option String) :
    (rankGeneric log10 sponsored false llm places preco).length = places.length := by
  rw [rankGeneric_without_model]
  exact (sortDescBy_perm _ _).length_eq

/-! ## Ranking: the order of `rankGeneric` -/

/-- C16, the claim fails when a place gets a bonus: for a bar rated 4 without sponsor and
the sponsored bar rated 3, the order with every relevance request timed out puts the
sponsored bar first (score 9 against 8), the order without language model puts the bar
rated 4 first (basic score 8 against 6). -/
theorem timeouts_differ_from_disabled :
    rankGeneric logAtOne [sponsorA] true llmTimesOut [barRated4, barSponsored3] none =
      [barSponsored3, barRated4] ∧
    rankGeneric logAtOne [sponsorA] false llmTimesOut [barRated4, barSponsored3] none =
      [barRated4, barSponsored3] := by
  refine ⟨by with_unfolding_all decide, by with_unfolding_all decide⟩

/-- C16 (amended): for every list of places in which no place gets a price-tier or sponsor
bonus, the order returned by `rankGeneric` when every relevance request times out equals
the order it returns without language model; the latter is, for every list, the descending
stable order of the basic score (rating and review count), which leaves the bonuses out. -/
theorem timeouts_eq_disabled (log10 : ℚ → ℚ) (sponsored : List Sponsor)
    (llm : Place → LlmOutcome) (places : List Place) (preco : Option String)
    (hbonus : ∀ p ∈ places, priceBonus preco p = 0 ∧ isSponsored sponsored p = false) :
    rankGeneric log10 sponsored true (fun _ => LlmOutcome.noScore) places preco =
      rankGeneric log10 sponsored false llm places preco ∧
    rankGeneric log10 sponsored false llm places preco =
      sortDescBy (calculateBasicScore log10) places ∧
    (rankGeneric log10 sponsored false llm places preco).Sorted
      (fun a b => calculateBasicScore log10 b ≤ calculateBasicScore log10 a) := by
  have h2 := rankGeneric_without_model log10 sponsored llm places preco
  refine ⟨?_, h2, ?_⟩
  · rw [rankGeneric_with_model, h2]
    have hfil : places.filter (fun p => (fun _ => LlmOutcome.noScore) p !=
        LlmOutcome.outerTimeout) = places := by
      rw [List.filter_eq_self]
      intro p _
      rfl
    rw [hfil]
    apply sortDescBy_congr
    intro p hp
    obtain ⟨hb, hs⟩ := hbonus p hp
    unfold placeScore
    simp [hb, hs]
  · rw [h2]
    exact sortDescBy_sorted _ _

/-- C16 (amended) at the two bars with a directory that sponsors neither of them. -/
theorem timeouts_eq_disabled_witness :
    (∀ p ∈ [barSponsored3, barRated4],
      priceBonus none p = 0 ∧ isSponsored [sponsorB] p = false) ∧
    (rankGeneric logAtOne [sponsorB] true (fun _ => LlmOutcome.noScore)
        [barSponsored3, barRated4] none =
      rankGeneric logAtOne [sponsorB] false llmTimesOut [barSponsored3, barRated4] none ∧
    rankGeneric logAtOne [sponsorB] false llmTimesOut [barSponsored3, barRated4] none =
      sortDescBy (calculateBasicScore logAtOne) [barSponsored3, barRated4] ∧
    (rankGeneric logAtOne [sponsorB] false llmTimesOut [barSponsored3, barRated4] none).Sorted
      (fun a b => calculateBasicScore logAtOne b ≤ calculateBasicScore logAtOne a)) :=
  ⟨by with_unfolding_all decide,
    timeouts_eq_disabled logAtOne [sponsorB] llmTimesOut [barSponsored3, barRated4] none
      (by with_unfolding_all decide)⟩

/-- C17, the code at the failing input and in general. When the outer per-item timer cuts
the request for `placeA`, the item resolves to `null`, `filter(Boolean)` removes it and the
output lacks the place. In general the output with a language model holds exactly the input
places whose request the outer timer did not cut; it is a rearrangement of the input when
no request is cut by the outer timer (valid score, unparsable answer, error, inner timeout),
and so is the output without language model. -/
theorem outer_timeout_drops_place :
    rankGeneric logAtOne [] true llmOuterTimeoutA [placeW, placeA, placeB] none =
      [placeW, placeB] ∧
    (∀ (log10 : ℚ → ℚ) (sponsored : List Sponsor) (llm : Place → LlmOutcome)
        (places : List Place) (preco : Option String),
      (∀ p, p ∈ rankGeneric log10 sponsored true llm places preco ↔
        p ∈ places ∧ llm p ≠ LlmOutcome.outerTimeout) ∧
      ((∀ p ∈ places, llm p ≠ LlmOutcome.outerTimeout) →
        (rankGeneric log10 sponsored true llm places preco).Perm places) ∧
      (rankGeneric log10 sponsored false llm places preco).Perm places) := by
  refine ⟨by with_unfolding_all decide, ?_⟩
  intro log10 sponsored llm places preco
  refine ⟨?_, ?_, ?_⟩
  · intro p
    rw [rankGeneric_with_model, (sortDescBy_perm _ _).mem_iff, List.mem_filter]
    simp
  · intro h
    rw [rankGeneric_with_model]
    have hfil : places.filter (fun p => llm p != LlmOutcome.outerTimeout) = places := by
      rw [List.filter_eq_self]
      intro p hp
      simpa using h p hp
    rw [hfil]
    exact sortDescBy_perm _ _
  · rw [rankGeneric_without_model]
    exact sortDescBy_perm _ _

/-! ## Ranking: the price-tier adjustment -/

/-- The lower-casing of `priceBonus` on the characters of the answer. -/
theorem includes_toLower (raw sub : String) :
    includes raw.toLower sub = includesChars (raw.data.map Char.toLower) sub.data := by
  unfold includes String.toLower
  rw [String.map_eq]

theorem priceBonus_economico (p : Place) :
    priceBonus (some "econômico") p =
      (match p.price_level with | some l => if l ≤ 1 then 2 else 0 | none => 0) := by
  have h1 : includes "econômico".toLower "econ" = true := by
    rw [includes_toLower]; decide
  have h2 : includes "econômico".toLower "moder" = false := by
    rw [includes_toLower]; decide
  have h3 : includes "econômico".toLower "luxo" = false := by
    rw [includes_toLower]; decide
  unfold priceBonus
  simp only [h1, h2, h3]
  rcases p.price_level with _ | l <;> simp

theorem priceBonus_moderado (p : Place) :
    priceBonus (some "moderado") p =
      (if p.price_level = some 2 ∨ p.price_level = some 3 then 2 else 0) := by
  have h1 : includes "moderado".toLower "econ" = false := by
    rw [includes_toLower]; decide
  have h2 : includes "moderado".toLower "moder" = true := by
    rw [includes_toLower]; decide
  have h3 : includes "moderado".toLower "luxo" = false := by
    rw [includes_toLower]; decide
  unfold priceBonus
  simp only [h1, h2, h3]
  simp

theorem priceBonus_luxuoso (p : Place) : priceBonus (some "luxuoso") p = 0 := by
  have h1 : includes "luxuoso".toLower "econ" = false := by
    rw [includes_toLower]; decide
  have h2 : includes "luxuoso".toLower "moder" = false := by
    rw [includes_toLower]; decide
  have h3 : includes "luxuoso".toLower "luxo" = false := by
    rw [includes_toLower]; decide
  unfold priceBonus
  simp only [h1, h2, h3]
  simp

/-- C18, the code at the failing input and in general. For the answer `luxuoso` and a place
of `price_level` 4 the adjustment is 0: the code looks for `luxo`, which does not occur in
`luxuoso`. So for this answer no place gets the bonus and the score is the one of a persona
without price answer. For the answers `econômico` and `moderado` the adjustment is 2 exactly
in the bucket of the claim (`price_level` at most 1, respectively 2 or 3) and 0 elsewhere;
a place without `price_level` gets no bonus for any answer. -/
theorem luxury_answer_gets_no_bonus :
    (luxuryPlace.price_level = some 4 ∧ priceBonus (some "luxuoso") luxuryPlace = 0 ∧
      includes "luxuoso".toLower "luxo" = false) ∧
    (∀ p : Place, priceBonus (some "luxuoso") p = 0) ∧
    (∀ (log10 : ℚ → ℚ) (sponsored : List Sponsor) (llm : Place → LlmOutcome) (p : Place),
      placeScore log10 sponsored (some "luxuoso") llm p =
        placeScore log10 sponsored none llm p) ∧
    (∀ p : Place, (priceBonus (some "econômico") p = 2 ↔
        ∃ l, p.price_level = some l ∧ l ≤ 1) ∧
      (priceBonus (some "econômico") p = 2 ∨ priceBonus (some "econômico") p = 0)) ∧
    (∀ p : Place, (priceBonus (some "moderado") p = 2 ↔
        p.price_level = some 2 ∨ p.price_level = some 3) ∧
      (priceBonus (some "moderado") p = 2 ∨ priceBonus (some "moderado") p = 0)) ∧
    (∀ (preco : Option String) (p : Place), p.price_level = none → priceBonus preco p = 0) := by
  refine ⟨⟨rfl, priceBonus_luxuoso _, by rw [includes_toLower]; decide⟩, priceBonus_luxuoso,
    ?_, ?_, ?_, ?_⟩
  · intro log10 sponsored llm p
    unfold placeScore
    rw [priceBonus_luxuoso]
    simp [priceBonus]
  · intro p
    rw [priceBonus_economico]
    rcases p.price_level with _ | l
    · simp
    · by_cases h : l ≤ 1 <;> simp [h]
  · intro p
    rw [priceBonus_moderado]
    by_cases h : p.price_level = some 2 ∨ p.price_level = some 3 <;> simp [h]
  · intro preco p hp
    unfold priceBonus
    rcases preco with _ | raw
    · rfl
    · simp [hp]

/-! ## Ranking: the pre-filter of `finalizeSearch` -/

/-- C19, the claim fails for more than 12 candidates: without language model and with
thirteen operational bars returned by the provider, thirteen candidates survive the type
and distance filters, the ranked list handed to the sponsor promotion has 12 entries, and
so have the promoted list and the list that the presentation stores in `cta`. -/
theorem thirteen_candidates_twelve_ranked :
    cfgPlain.modelAvailable = false ∧
    (searchCandidates cfgPlain envThirteen refBrasilia).length = 13 ∧
    (rankedCandidates cfgPlain envThirteen {} refBrasilia).length = 12 ∧
    (searchRanked cfgPlain envThirteen {} refBrasilia).length = 12 ∧
    ((finalizeSearch cfgPlain envThirteen stBrasilia).1.s.cta.map
      (fun c => c.ordered.length)) = some 12 := by
  refine ⟨rfl, by with_unfolding_all decide, by with_unfolding_all decide,
    by with_unfolding_all decide, by with_unfolding_all decide⟩

/-- C19 (amended): when no language model is configured, the ranking step of search
finalization orders the candidates that are left by the heuristic pre-filter: for every
candidate list of n places the ranked list handed to the sponsor promotion is a
rearrangement of the pre-filtered list and has min(n, 12) entries. The cut to the top 12 is
made whether or not a language model is configured; `rankGeneric` itself, without language
model, keeps every place it is given. -/
theorem ranked_without_model (cfg : Config) (env : SearchEnv) (persona : Persona)
    (r : Refinement) (hmodel : cfg.modelAvailable = false) :
    searchRanked cfg env persona r =
      promoteSponsoredOrder cfg.sponsored (rankedCandidates cfg env persona r) ∧
    (rankedCandidates cfg env persona r).length = min (searchCandidates cfg env r).length 12 ∧
    (rankedCandidates cfg env persona r).Perm
      (boosted cfg.log10 cfg.sponsored (searchCandidates cfg env r)) ∧
    (∀ (places : List Place) (preco : Option String),
      (rankGeneric cfg.log10 cfg.sponsored false env.llm places preco).Perm places) := by
  refine ⟨rfl, ?_, ?_, ?_⟩
  · unfold rankedCandidates
    rw [hmodel, rankGeneric_without_model_length, boosted_length]
  · unfold rankedCandidates
    rw [hmodel, rankGeneric_without_model]
    exact sortDescBy_perm _ _
  · intro places preco
    rw [rankGeneric_without_model]
    exact sortDescBy_perm _ _

/-- C19 (amended) at the thirteen bars. -/
theorem ranked_without_model_witness :
    cfgPlain.modelAvailable = false ∧
    searchRanked cfgPlain envThirteen {} refBrasilia =
      promoteSponsoredOrder cfgPlain.sponsored
        (rankedCandidates cfgPlain envThirteen {} refBrasilia) ∧
    (rankedCandidates cfgPlain envThirteen {} refBrasilia).length =
      min (searchCandidates cfgPlain envThirteen refBrasilia).length 12 ∧
    (rankedCandidates cfgPlain envThirteen {} refBrasilia).Perm
      (boosted cfgPlain.log10 cfgPlain.sponsored
        (searchCandidates cfgPlain envThirteen refBrasilia)) ∧
    (∀ (places : List Place) (preco : Option String),
      (rankGeneric cfgPlain.log10 cfgPlain.sponsored false envThirteen.llm places preco).Perm
        places) :=
  ⟨rfl, ranked_without_model cfgPlain envThirteen {} refBrasilia rfl⟩

/-- C20: for every list of n filtered candidates and every sponsor list, the pre-filter
`boosted` of `finalizeSearch` yields min(n, 12) places ordered by non-increasing pre-score;
together with the discarded candidates they are a rearrangement of the input, and no
discarded candidate has a higher pre-score than a kept one. The pre-score is
`rating*2 + log10(max(reviewCount,1))` plus 3 for an active sponsor, on natural review
counts. -/
theorem boosted_top_twelve (log10 : ℚ → ℚ) (sponsored : List Sponsor) (places : List Place) :
    (boosted log10 sponsored places).length = min places.length 12 ∧
    (boosted log10 sponsored places).Sorted
      (fun a b => prefScore log10 sponsored b ≤ prefScore log10 sponsored a) ∧
    (∃ discarded, (boosted log10 sponsored places ++ discarded).Perm places ∧
      ∀ k ∈ boosted log10 sponsored places, ∀ d ∈ discarded,
        prefScore log10 sponsored d ≤ prefScore log10 sponsored k) ∧
    (∀ p, (p.user_ratings_total = none ∨ ∃ n : ℕ, p.user_ratings_total = some (n : ℚ)) →
      prefScore log10 sponsored p = preScoreSpec log10 sponsored p) := by
  have hsorted := sortDescBy_sorted (prefScore log10 sponsored) places
  refine ⟨boosted_length log10 sponsored places, ?_, ?_, ?_⟩
  · unfold boosted
    exact hsorted.sublist (List.take_sublist 12 _)
  · refine ⟨(sortDescBy (prefScore log10 sponsored) places).drop 12, ?_, ?_⟩
    · unfold boosted
      rw [List.take_append_drop]
      exact sortDescBy_perm _ _
    · intro k hk d hd
      unfold boosted at hk
      exact hsorted.rel_of_mem_take_of_mem_drop hk hd
  · intro p hp
    unfold prefScore preScoreSpec
    rw [calculateBasicScore_eq_spec log10 p hp]
    congr 1
    by_cases h : isSponsored sponsored p = true
    · rw [if_pos h, if_pos ((isSponsored_iff sponsored p).1 h)]
    · rw [if_neg h, if_neg (fun h2 => h ((isSponsored_iff sponsored p).2 h2))]

/-! ## Selection, locations, gateway and sweep (C21 to C30) -/

theorem firstLoneDigit_range : ∀ (prev : Option Char) (cs : List Char) (n : Nat),
    firstLoneDigit prev cs = some n → n = 1 ∨ n = 2 ∨ n = 3 := by
  intro prev cs
  induction cs generalizing prev with
  | nil => intro n h; simp [firstLoneDigit] at h
  | cons c rest ih =>
    intro n h
    unfold firstLoneDigit at h
    simp only [] at h
    split at h
    · rename_i hc
      simp only [Bool.and_eq_true, Bool.or_eq_true, beq_iff_eq] at hc
      cases h
      rcases hc.1.1 with (h1 | h1) | h1 <;> subst h1 <;> decide
    · exact ih _ n h

theorem parseSelectionIndex_range (text : String) (n : Nat)
    (h : parseSelectionIndex text = some n) : n = 1 ∨ n = 2 ∨ n = 3 := by
  unfold parseSelectionIndex at h
  simp only [] at h
  rcases hf : firstLoneDigit none (lowerChars text) with _ | m
  · rw [hf] at h
    simp only [] at h
    split at h
    · cases h; exact Or.inl rfl
    · split at h
      · cases h; exact Or.inr (Or.inl rfl)
      · split at h
        · cases h; exact Or.inr (Or.inr rfl)
        · cases h
  · rw [hf] at h
    cases h
    exact firstLoneDigit_range none _ _ hf

/-- A digit followed by the capital I with a dot or by the Kelvin sign is no selection: the
lower case of either is a word character. -/
theorem parseSelectionIndex_lowered_capitals :
    parseSelectionIndex (String.mk ['2', Char.ofNat 304]) = none ∧
    parseSelectionIndex (String.mk ['2', Char.ofNat 8490]) = none ∧
    parseSelectionIndex (String.mk ['2', Char.ofNat 201]) = some 2 := by
  decide

theorem ctaPlace_of_range (cta : Cta) (n : Nat) (hn : n = 1 ∨ n = 2 ∨ n = 3) :
    ctaPlace cta n = cta.ordered[cta.index + (n - 1)]? := by
  unfold ctaPlace
  rcases hn with h | h | h <;> subst h <;> rfl

theorem truthySel_of_range (n : Nat) (hn : n = 1 ∨ n = 2 ∨ n = 3) :
    truthySel (some n) = some n := by
  rcases hn with h | h | h <;> subst h <;> rfl

/-- C21: for a session with a result page `cta` and a text in which `parseSelectionIndex`
reads the selection `n`, the number `n` is 1, 2 or 3; a text without information topic
selects the element `ordered[index + (n - 1)]` when it exists (it becomes `selectedPlace` and
is announced) and otherwise falls through with the session unchanged, nothing sent and no
error; a text with a topic is answered about that element, or about the place selected
before when the element does not exist. A text in which no selection is read, and no topic,
falls through unchanged; the text 5 has no selection and the text 2 has the selection 2. -/
theorem cta_selection_resolves (env : Env) (t : TextMessage) (st : St) (cta : Cta) (n : Nat)
    (hcta : st.s.cta = some cta) (hsel : t.selection = parseSelectionIndex t.raw)
    (hn : parseSelectionIndex t.raw = some n) :
    (n = 1 ∨ n = 2 ∨ n = 3) ∧
    (t.infoTopic = none →
      (∀ p, cta.ordered[cta.index + (n - 1)]? = some p →
        ctaBlock env t st =
          Flow.done (({ st with s := { st.s with selectedPlace := some p } } : St).say
            (Msg.chosenPlace p))) ∧
      (cta.ordered[cta.index + (n - 1)]? = none → ctaBlock env t st = Flow.next st)) ∧
    (∀ topic, t.infoTopic = some topic →
      (∀ p, cta.ordered[cta.index + (n - 1)]? = some p →
        ctaBlock env t st = Flow.done (st.say (Msg.infoReply p.place_id topic))) ∧
      (cta.ordered[cta.index + (n - 1)]? = none →
        ctaBlock env t st =
          Flow.done (st.say (match st.s.selectedPlace with
            | some q => Msg.infoReply q.place_id topic
            | none => Msg.askSelectFirst)))) ∧
    (∀ (t2 : TextMessage), t2.selection = parseSelectionIndex t2.raw →
      parseSelectionIndex t2.raw = none → t2.infoTopic = none →
      ctaBlock env t2 st = Flow.next st) ∧
    parseSelectionIndex "5" = none ∧ parseSelectionIndex "2" = some 2 := by
  have hr := parseSelectionIndex_range t.raw n hn
  have hts : truthySel t.selection = some n := by
    rw [hsel, hn]
    exact truthySel_of_range n hr
  have hp := ctaPlace_of_range cta n hr
  refine ⟨hr, ?_, ?_, ?_, by decide, by decide⟩
  · intro htop
    constructor
    · intro p hget
      unfold ctaBlock
      simp only [hts, htop, hcta, hp, hget]
    · intro hget
      unfold ctaBlock
      simp only [hts, htop, hcta, hp, hget]
  · intro topic htop
    constructor
    · intro p hget
      unfold ctaBlock
      simp only [hts, htop, hcta, hp, hget]
    · intro hget
      unfold ctaBlock
      simp only [hts, htop, hcta, hp, hget]
      rcases st.s.selectedPlace with _ | q <;> rfl
  · intro t2 hsel2 hnone htop
    have : truthySel t2.selection = none := by
      rw [hsel2, hnone]
      rfl
    unfold ctaBlock
    simp only [this, htop, hcta]

/-- C21 with index 0 and the three results a, b, c, the text 2 selects `ordered[1]`, the place
b, and the text 5 selects nothing. -/
theorem cta_selection_resolves_witness :
    stThreeResults.s.cta = some { ordered := [placeA, placeB, placeC], index := 0 } ∧
    textTwo.selection = parseSelectionIndex textTwo.raw ∧
    parseSelectionIndex textTwo.raw = some 2 ∧
    ctaBlock {} textTwo stThreeResults =
      Flow.done (({ stThreeResults with
        s := { stThreeResults.s with selectedPlace := some placeB } } : St).say
          (Msg.chosenPlace placeB)) ∧
    ctaBlock {} textFive stThreeResults = Flow.next stThreeResults :=
  ⟨rfl, rfl, by decide,
    ((cta_selection_resolves {} textTwo stThreeResults
      { ordered := [placeA, placeB, placeC], index := 0 } 2 rfl rfl (by decide)).2.1 rfl).1
        placeB rfl,
    (cta_selection_resolves {} textTwo stThreeResults
      { ordered := [placeA, placeB, placeC], index := 0 } 2 rfl rfl (by decide)).2.2.2.1
        textFive rfl (by decide) rfl⟩

/-- A number below `2^k` has at most `k` binary digits. -/
theorem bitLength_le : ∀ (fuel n k : Nat), n < 2 ^ k → bitLength fuel n ≤ k := by
  intro fuel
  induction fuel with
  | zero => intro n k _; simp [bitLength]
  | succ f ih =>
    intro n k h
    unfold bitLength
    by_cases hn : n = 0
    · simp [hn]
    · rw [if_neg hn]
      rcases k with _ | k
      · simp at h
        exact absurd h hn
      · have : n / 2 < 2 ^ k := by
          rw [Nat.div_lt_iff_lt_mul (by norm_num)]
          rw [pow_succ] at h
          exact h
        have := ih (n / 2) k this
        omega

theorem roundHalfEven_nonneg (q : ℚ) (h : 0 ≤ q) : 0 ≤ roundHalfEven q := by
  have hf : 0 ≤ ⌊q⌋ := Int.floor_nonneg.2 h
  unfold roundHalfEven
  split_ifs <;> omega

theorem roundHalfEven_le (q : ℚ) (n : Int) (h : q ≤ n) : roundHalfEven q ≤ n := by
  have hf : ⌊q⌋ ≤ n := by
    have := Int.floor_le q
    exact Int.cast_le.1 (le_trans this h) |> fun h2 => h2
  have hstep : ¬ (q - ⌊q⌋ < 1 / 2) → ⌊q⌋ + 1 ≤ n := by
    intro hnot
    have hlt : (⌊q⌋ : ℚ) < n := by
      have : (1 : ℚ) / 2 ≤ q - ⌊q⌋ := not_lt.1 hnot
      linarith
    have : ⌊q⌋ < n := by exact_mod_cast hlt
    omega
  unfold roundHalfEven
  split_ifs with h1 h2 h3
  · exact hf
  · exact hstep h1
  · exact hf
  · exact hstep h1

theorem doubleOf_nonneg (x : ℚ) : 0 ≤ doubleOf x := by
  unfold doubleOf
  by_cases hx : x ≤ 0
  · rw [if_pos hx]
  · rw [if_neg hx]
    have hx0 : 0 ≤ x := le_of_lt (not_le.1 hx)
    simp only []
    split_ifs
    · have := roundHalfEven_nonneg (x / 2 ^ (max (binaryExponent x - 52) (-1074)).toNat)
        (by positivity)
      have h2 : (0 : ℚ) ≤
          (roundHalfEven (x / 2 ^ (max (binaryExponent x - 52) (-1074)).toNat) : ℚ) := by
        exact_mod_cast this
      positivity
    · have := roundHalfEven_nonneg (x * 2 ^ (-(max (binaryExponent x - 52) (-1074))).toNat)
        (by positivity)
      have h2 : (0 : ℚ) ≤
          (roundHalfEven (x * 2 ^ (-(max (binaryExponent x - 52) (-1074))).toNat) : ℚ) := by
        exact_mod_cast this
      positivity

theorem binaryExponent_le (x : ℚ) (k : Nat) (h : x < 2 ^ k) :
    binaryExponent x ≤ (k : Int) - 1 ∨ binaryExponent x ≤ 0 := by
  unfold binaryExponent
  by_cases h1 : 1 ≤ x
  · left
    rw [if_pos h1]
    have hfl : ⌊x⌋.toNat < 2 ^ k := by
      have h0 : 0 ≤ ⌊x⌋ := Int.floor_nonneg.2 (by linarith)
      have hlt : ⌊x⌋ < (2 : Int) ^ k := by
        rw [Int.floor_lt]
        push_cast
        exact h
      have : (⌊x⌋.toNat : Int) < 2 ^ k := by
        rw [Int.toNat_of_nonneg h0]
        exact hlt
      exact_mod_cast this
    have := bitLength_le 1100 _ k hfl
    omega
  · right
    rw [if_neg h1]
    omega

/-- The number 250 is a double, so rounding does not pass it. -/
theorem doubleOf_le (x : ℚ) (h : x ≤ 250) : doubleOf x ≤ 250 := by
  unfold doubleOf
  by_cases hx : x ≤ 0
  · rw [if_pos hx]
    norm_num
  · rw [if_neg hx]
    have hlt : x < 2 ^ 8 := by
      have : (250 : ℚ) < 2 ^ 8 := by norm_num
      linarith
    have hexp : binaryExponent x ≤ 7 := by
      rcases binaryExponent_le x 8 hlt with h1 | h1 <;> omega
    have he : ¬ (0 ≤ max (binaryExponent x - 52) (-1074)) := by omega
    simp only []
    rw [if_neg he]
    generalize (-(max (binaryExponent x - 52) (-1074))).toNat = k
    have hpos : (0 : ℚ) < 2 ^ k := by positivity
    rw [div_le_iff₀ hpos]
    have hle : x * 2 ^ k ≤ ((250 * 2 ^ k : Int) : ℚ) := by
      push_cast
      exact mul_le_mul_of_nonneg_right h (le_of_lt hpos)
    have := roundHalfEven_le _ _ hle
    have h2 : (roundHalfEven (x * 2 ^ k) : ℚ) ≤ ((250 * 2 ^ k : Int) : ℚ) := by
      exact_mod_cast this
    push_cast at h2
    exact h2

/-- Rounding to the nearest integer does not fall below an integer below the number. -/
theorem le_roundHalfEven (q : ℚ) (n : Int) (h : (n : ℚ) ≤ q) : n ≤ roundHalfEven q := by
  have hf : n ≤ ⌊q⌋ := Int.le_floor.2 h
  unfold roundHalfEven
  split_ifs <;> omega

/-- Rounding to a double does not pass an integer up to 250, which is a double itself. -/
theorem doubleOf_le_nat (x : ℚ) (n : Nat) (hn : n ≤ 250) (h : x ≤ n) : doubleOf x ≤ n := by
  unfold doubleOf
  by_cases hx : x ≤ 0
  · rw [if_pos hx]
    exact Nat.cast_nonneg n
  · rw [if_neg hx]
    have hn2 : (n : ℚ) ≤ 250 := by exact_mod_cast hn
    have hlt : x < 2 ^ 8 := by
      have : (250 : ℚ) < 2 ^ 8 := by norm_num
      linarith
    have hexp : binaryExponent x ≤ 7 := by
      rcases binaryExponent_le x 8 hlt with h1 | h1 <;> omega
    have he : ¬ (0 ≤ max (binaryExponent x - 52) (-1074)) := by omega
    simp only []
    rw [if_neg he]
    generalize (-(max (binaryExponent x - 52) (-1074))).toNat = k
    have hpos : (0 : ℚ) < 2 ^ k := by positivity
    rw [div_le_iff₀ hpos]
    have hle : x * 2 ^ k ≤ (((n : Int) * 2 ^ k : Int) : ℚ) := by
      push_cast
      exact mul_le_mul_of_nonneg_right h (le_of_lt hpos)
    have := roundHalfEven_le _ _ hle
    have h2 : (roundHalfEven (x * 2 ^ k) : ℚ) ≤ (((n : Int) * 2 ^ k : Int) : ℚ) := by
      exact_mod_cast this
    push_cast at h2
    exact h2

/-- Rounding to a double does not fall below an integer up to 250. -/
theorem nat_le_doubleOf (x : ℚ) (n : Nat) (hx250 : x ≤ 250) (h : (n : ℚ) ≤ x) :
    (n : ℚ) ≤ doubleOf x := by
  unfold doubleOf
  by_cases hx : x ≤ 0
  · rw [if_pos hx]
    exact le_trans h hx
  · rw [if_neg hx]
    have hlt : x < 2 ^ 8 := by
      have : (250 : ℚ) < 2 ^ 8 := by norm_num
      linarith
    have hexp : binaryExponent x ≤ 7 := by
      rcases binaryExponent_le x 8 hlt with h1 | h1 <;> omega
    have he : ¬ (0 ≤ max (binaryExponent x - 52) (-1074)) := by omega
    simp only []
    rw [if_neg he]
    generalize (-(max (binaryExponent x - 52) (-1074))).toNat = k
    have hpos : (0 : ℚ) < 2 ^ k := by positivity
    rw [le_div_iff₀ hpos]
    have hle : (((n : Int) * 2 ^ k : Int) : ℚ) ≤ x * 2 ^ k := by
      push_cast
      exact mul_le_mul_of_nonneg_right h (le_of_lt hpos)
    have := le_roundHalfEven _ _ hle
    have h2 : (((n : Int) * 2 ^ k : Int) : ℚ) ≤ (roundHalfEven (x * 2 ^ k) : ℚ) := by
      exact_mod_cast this
    push_cast at h2
    exact h2

/-- The floor of the double product is the floor of the exact product or one more. -/
theorem floor_doubleOf (r : ℚ) (h0 : 0 ≤ r) (h1 : r < 1) :
    ⌊r * 250⌋ ≤ ⌊doubleOf (r * 250)⌋ ∧ ⌊doubleOf (r * 250)⌋ ≤ ⌊r * 250⌋ + 1 := by
  have hx0 : 0 ≤ r * 250 := mul_nonneg h0 (by norm_num)
  have hx1 : r * 250 < 250 := by linarith
  have hf0 : 0 ≤ ⌊r * 250⌋ := Int.floor_nonneg.2 hx0
  have hf1 : ⌊r * 250⌋ < 250 := by
    rw [Int.floor_lt]
    push_cast
    exact hx1
  obtain ⟨n, hn⟩ := Int.eq_ofNat_of_zero_le hf0
  have hn250 : n < 250 := by omega
  constructor
  · rw [Int.le_floor, hn]
    have hle : ((n : Nat) : ℚ) ≤ r * 250 := by
      have := Int.floor_le (r * 250)
      rw [hn] at this
      exact_mod_cast this
    have := nat_le_doubleOf (r * 250) n (le_of_lt hx1) hle
    exact_mod_cast this
  · have hlt : r * 250 ≤ ((n + 1 : Nat) : ℚ) := by
      have := Int.lt_floor_add_one (r * 250)
      rw [hn] at this
      push_cast at this ⊢
      exact le_of_lt this
    have hd := doubleOf_le_nat (r * 250) (n + 1) (by omega) hlt
    have hfl : (⌊doubleOf (r * 250)⌋ : ℚ) ≤ ((n + 1 : Nat) : ℚ) :=
      le_trans (Int.floor_le _) hd
    rw [hn]
    exact_mod_cast hfl

/-- At the double nearest to 0.036 the exact product is below 9 and the double product is
9. -/
theorem doubleOf_product_rounds_up :
    ⌊(5188146770730811 / 144115188075855872 * 250 : ℚ)⌋ = 8 ∧
    doubleOf (5188146770730811 / 144115188075855872 * 250) = 9 := by
  constructor <;> with_unfolding_all decide

/-- C24: for every text and every draw `r` in `[0, 1)`, the delay of `calcTypingDelay`
before the jitter is `500 + 35 * min(len, 120)` clamped into `[600, 3500]`, it does not
decrease when the text gets longer, the result is that delay plus the jitter
`floor(r * 250) - 125`, in which the product is rounded to a double, it differs from the
delay by at most 125 and lies in `[475, 3625]`; the floor of the rounded product is the
floor of the exact product or one more. -/
theorem calcTypingDelay_bounds (text : String) (r : ℚ) (h0 : 0 ≤ r) (h1 : r < 1) :
    typingDelayBase (utf16Length text) =
      max 600 (min (500 + 35 * min (utf16Length text : Int) 120) 3500) ∧
    600 ≤ typingDelayBase (utf16Length text) ∧ typingDelayBase (utf16Length text) ≤ 3500 ∧
    (∀ a b : Nat, a ≤ b → typingDelayBase a ≤ typingDelayBase b) ∧
    calcTypingDelay text r =
      typingDelayBase (utf16Length text) + (⌊doubleOf (r * 250)⌋ - 125) ∧
    |calcTypingDelay text r - typingDelayBase (utf16Length text)| ≤ 125 ∧
    475 ≤ calcTypingDelay text r ∧ calcTypingDelay text r ≤ 3625 ∧
    ⌊r * 250⌋ ≤ ⌊doubleOf (r * 250)⌋ ∧ ⌊doubleOf (r * 250)⌋ ≤ ⌊r * 250⌋ + 1 := by
  have hfl0 : 0 ≤ ⌊doubleOf (r * 250)⌋ := Int.floor_nonneg.2 (doubleOf_nonneg _)
  have hfl1 : ⌊doubleOf (r * 250)⌋ ≤ 250 := by
    have hle : doubleOf (r * 250) ≤ ((250 : Int) : ℚ) := by
      push_cast
      exact doubleOf_le _ (by linarith)
    have hmono : ⌊doubleOf (r * 250)⌋ ≤ ⌊((250 : Int) : ℚ)⌋ := Int.floor_mono hle
    rwa [Int.floor_intCast] at hmono
  have hb0 : 600 ≤ typingDelayBase (utf16Length text) := by
    unfold typingDelayBase
    omega
  have hb1 : typingDelayBase (utf16Length text) ≤ 3500 := by
    unfold typingDelayBase
    omega
  have hcalc : calcTypingDelay text r =
      typingDelayBase (utf16Length text) + (⌊doubleOf (r * 250)⌋ - 125) := by
    unfold calcTypingDelay
    simp only []
    omega
  refine ⟨?_, hb0, hb1, ?_, hcalc, ?_, ?_, ?_, floor_doubleOf r h0 h1⟩
  · unfold typingDelayBase
    omega
  · intro a b hab
    unfold typingDelayBase
    omega
  · rw [hcalc, abs_le]
    constructor <;> omega
  · rw [hcalc]; omega
  · rw [hcalc]; omega

/-- C24 at the text `oi` with the draw 1/2. -/
theorem calcTypingDelay_bounds_witness :
    (0 : ℚ) ≤ 1 / 2 ∧ (1 / 2 : ℚ) < 1 ∧
    475 ≤ calcTypingDelay "oi" (1 / 2) ∧ calcTypingDelay "oi" (1 / 2) ≤ 3625 :=
  ⟨by norm_num, by norm_num,
    (calcTypingDelay_bounds "oi" (1 / 2) (by norm_num) (by norm_num)).2.2.2.2.2.2.1,
    (calcTypingDelay_bounds "oi" (1 / 2) (by norm_num) (by norm_num)).2.2.2.2.2.2.2.1⟩

theorem mapSet_keys (entries : List (Option String × Place)) (key : Option String)
    (value : Place) :
    (mapSet entries key value).map (fun e => e.1) =
      if key ∈ entries.map (fun e => e.1) then entries.map (fun e => e.1)
      else entries.map (fun e => e.1) ++ [key] := by
  unfold mapSet
  by_cases h : entries.any (fun e => e.1 == key) = true
  · rw [if_pos h]
    have hmem : key ∈ entries.map (fun e => e.1) := by
      rw [List.any_eq_true] at h
      obtain ⟨e, he, hk⟩ := h
      rw [List.mem_map]
      exact ⟨e, he, by simpa using hk⟩
    rw [if_pos hmem, List.map_map]
    apply List.map_congr_left
    intro e _
    simp only [Function.comp]
    by_cases hk : (e.1 == key) = true
    · rw [if_pos hk]
      exact (by simpa using hk : e.1 = key).symm
    · rw [if_neg hk]
  · rw [if_neg h]
    have hmem : ¬ key ∈ entries.map (fun e => e.1) := by
      intro hm
      apply h
      rw [List.mem_map] at hm
      obtain ⟨e, he, hk⟩ := hm
      rw [List.any_eq_true]
      exact ⟨e, he, by simpa using hk⟩
    rw [if_neg hmem]
    simp

theorem resultsById_append (l : List Place) (p : Place) :
    resultsById (l ++ [p]) = mapSet (resultsById l) p.place_id p := by
  unfold resultsById
  rw [List.foldl_append]
  rfl

theorem byIdGet_append (l : List Place) (p : Place) (id : Option String) :
    byIdGet (l ++ [p]) id = if (p.place_id == id) = true then some p else byIdGet l id := by
  unfold byIdGet
  rw [List.foldl_append]
  rfl

/-- The keys of the map are the identifiers of the results, each once, in the order of their
first appearance. -/
theorem resultsById_keys (l : List Place) :
    ((resultsById l).map (fun e => e.1)).Nodup ∧
    (∀ k, k ∈ (resultsById l).map (fun e => e.1) ↔ k ∈ l.map (fun p => p.place_id)) ∧
    ((resultsById l).map (fun e => e.1)).Pairwise
      (FirstSeenBefore (l.map (fun p => p.place_id))) := by
  induction l using List.reverseRecOn with
  | nil => simp [resultsById]
  | append_singleton l p ih =>
    obtain ⟨hnd, hmem, hord⟩ := ih
    have hgrow : ∀ a b, FirstSeenBefore (l.map (fun p => p.place_id)) a b →
        FirstSeenBefore ((l ++ [p]).map (fun p => p.place_id)) a b := by
      rintro a b ⟨front, back, he, ha, hb⟩
      exact ⟨front, back ++ [p.place_id], by rw [List.map_append, he]; simp, ha, hb⟩
    rw [resultsById_append, mapSet_keys]
    by_cases hk : p.place_id ∈ (resultsById l).map (fun e => e.1)
    · rw [if_pos hk]
      have hin : p.place_id ∈ l.map (fun p => p.place_id) := (hmem _).1 hk
      refine ⟨hnd, ?_, hord.imp (hgrow _ _)⟩
      intro k
      rw [hmem k]
      simp only [List.map_append, List.map_cons, List.map_nil, List.mem_append,
        List.mem_singleton]
      constructor
      · exact Or.inl
      · rintro (h | h)
        · exact h
        · rw [h]; exact hin
    · rw [if_neg hk]
      have hnin : ¬ p.place_id ∈ l.map (fun p => p.place_id) := fun h => hk ((hmem _).2 h)
      refine ⟨?_, ?_, ?_⟩
      · rw [List.nodup_append]
        refine ⟨hnd, List.nodup_singleton _, ?_⟩
        intro a ha hb
        rw [List.mem_singleton] at hb
        exact hk (hb ▸ ha)
      · intro k
        simp only [List.map_append, List.map_cons, List.map_nil, List.mem_append,
          List.mem_singleton]
        rw [hmem k]
      · rw [List.pairwise_append]
        refine ⟨hord.imp (hgrow _ _), List.pairwise_singleton _ _, ?_⟩
        intro a ha b hb
        rw [List.mem_singleton] at hb
        subst hb
        exact ⟨l.map (fun p => p.place_id), [p.place_id], by simp, (hmem a).1 ha, hnin⟩

/-- Every entry of the map holds the last result that carries its key. -/
theorem resultsById_values (l : List Place) :
    ∀ e ∈ resultsById l, byIdGet l e.1 = some e.2 := by
  induction l using List.reverseRecOn with
  | nil => simp [resultsById]
  | append_singleton l p ih =>
    intro e he
    rw [resultsById_append] at he
    rw [byIdGet_append]
    unfold mapSet at he
    by_cases h : (resultsById l).any (fun e => e.1 == p.place_id) = true
    · rw [if_pos h, List.mem_map] at he
      obtain ⟨e0, he0, heq⟩ := he
      by_cases hk : (e0.1 == p.place_id) = true
      · rw [if_pos hk] at heq
        subst heq
        simp
      · rw [if_neg hk] at heq
        subst heq
        have hne : ¬ (p.place_id == e0.1) = true := by
          intro h2
          apply hk
          have h3 : p.place_id = e0.1 := by simpa using h2
          rw [h3]
          simp
        rw [if_neg hne]
        exact ih e0 he0
    · rw [if_neg h, List.mem_append, List.mem_singleton] at he
      rcases he with he | he
      · have hne : ¬ (p.place_id == e.1) = true := by
          intro h2
          apply h
          rw [List.any_eq_true]
          have h3 : p.place_id = e.1 := by simpa using h2
          exact ⟨e, he, by rw [h3]; simp⟩
        rw [if_neg hne]
        exact ih e he
      · subst he
        simp

/-- C25, the claim fails when a place is returned twice with different records: when the merged list holds the place a, the place w and then the
place a again with a rating, the deduplication keeps the second record of a (in the first
position), not the first one. -/
theorem dedup_keeps_last_record :
    [placeA, placeW, placeARated].map (fun p => p.place_id) = [some "a", some "w", some "a"] ∧
    uniqueResults [placeA, placeW, placeARated] = [placeARated, placeW] ∧
    placeARated ≠ placeA := by
  refine ⟨by decide, by decide, by decide⟩

/-- C25 (amended): `uniqueResults` holds exactly one entry for each `place_id` of the merged
list, the entries are in the order in which their identifiers first appear, and the entry
kept for an identifier is its last occurrence in the merged list. -/
theorem uniqueResults_spec (allResults : List Place) :
    ((uniqueResults allResults).map (fun p => p.place_id)).Nodup ∧
    (∀ k, k ∈ (uniqueResults allResults).map (fun p => p.place_id) ↔
      k ∈ allResults.map (fun p => p.place_id)) ∧
    ((uniqueResults allResults).map (fun p => p.place_id)).Pairwise
      (FirstSeenBefore (allResults.map (fun p => p.place_id))) ∧
    (∀ p ∈ uniqueResults allResults,
      p ∈ allResults ∧ byIdGet allResults p.place_id = some p) ∧
    (∀ (front back : List Place) (p : Place), allResults = front ++ p :: back →
      (∀ q ∈ back, q.place_id ≠ p.place_id) → p ∈ uniqueResults allResults) := by
  obtain ⟨hnd, hmem, hord⟩ := resultsById_keys allResults
  have hval := resultsById_values allResults
  have hkeys : (uniqueResults allResults).map (fun p => p.place_id) =
      (resultsById allResults).map (fun e => e.1) := by
    unfold uniqueResults
    rw [List.map_map]
    apply List.map_congr_left
    intro e he
    exact (byIdGet_some_mem allResults e.1 e.2 (hval e he)).2
  rw [hkeys]
  refine ⟨hnd, hmem, hord, ?_, ?_⟩
  · intro p hp
    unfold uniqueResults at hp
    rw [List.mem_map] at hp
    obtain ⟨e, he, hep⟩ := hp
    have h1 := hval e he
    have h2 := byIdGet_some_mem allResults e.1 e.2 h1
    subst hep
    exact ⟨h2.1, by rw [h2.2]; exact h1⟩
  · intro front back p hsplit hlast
    have hk : p.place_id ∈ (resultsById allResults).map (fun e => e.1) := by
      rw [hmem, hsplit]
      simp
    rw [List.mem_map] at hk
    obtain ⟨e, he, hek⟩ := hk
    have h1 := hval e he
    have hget : byIdGet allResults p.place_id = some p := by
      rw [hsplit]
      clear hsplit
      induction back using List.reverseRecOn with
      | nil => rw [byIdGet_append]; simp
      | append_singleton back q ih =>
        have : front ++ p :: (back ++ [q]) = (front ++ p :: back) ++ [q] := by simp
        rw [this, byIdGet_append]
        have hq : ¬ (q.place_id == p.place_id) = true := by
          simpa using hlast q (by simp)
        rw [if_neg hq]
        exact ih (fun r hr => hlast r (by simp [hr]))
    rw [hek, hget] at h1
    unfold uniqueResults
    rw [List.mem_map]
    exact ⟨e, he, (Option.some.inj h1).symm⟩

/-- C27: the sweep deletes `refinement`, `awaiting_location_type`, `awaiting_location_text`,
`awaitingLocation` and `cta` of a session that has been idle for more than 45 minutes, and
nothing else: `awaiting_name`, `awaiting_intent_choice` and `interview` stay as they were.
The session of a user who said `oi` and then was silent for 46 minutes still has the flag
`awaiting_intent_choice` after the sweep. A session idle for at most 45 minutes is left
unchanged, and the sweep keeps the keys of the store. -/
theorem sweep_leaves_intent_choice :
    (stGreeted.s.lastActive = 1000 ∧
      activeFlags stGreeted.s = ["awaiting_intent_choice"] ∧
      sweep (1000 + 46 * 60 * 1000) [("u1", stGreeted.s)] = [("u1", stGreeted.s)] ∧
      activeFlags (sweepSession (1000 + 46 * 60 * 1000) stGreeted.s) =
        ["awaiting_intent_choice"]) ∧
    (∀ (now : Nat) (store : List (String × Session)),
      (sweep now store).map (fun e => e.1) = store.map (fun e => e.1) ∧
      ∀ uid s, (uid, s) ∈ store →
        (uid, sweepSession now s) ∈ sweep now store) ∧
    (∀ (now : Nat) (s : Session), s.lastActive ≠ 0 → now - s.lastActive > INACTIVITY_MS →
      sweepSession now s =
        { s with
          refinement := none, awaiting_location_type := none, awaiting_location_text := none,
          awaitingLocation := none, cta := none } ∧
      activeFlags (sweepSession now s) =
        (if s.awaiting_name = some true then ["awaiting_name"] else []) ++
        (if s.awaiting_intent_choice.isSome then ["awaiting_intent_choice"] else []) ++
        (if s.interview then ["interview"] else [])) ∧
    (∀ (now : Nat) (s : Session), now - s.lastActive ≤ INACTIVITY_MS →
      sweepSession now s = s) := by
  refine ⟨⟨by decide, by decide, by decide, by decide⟩, ?_, ?_, ?_⟩
  · intro now store
    constructor
    · simp [sweep]
    · intro uid s hmem
      unfold sweep
      rw [List.mem_map]
      exact ⟨(uid, s), hmem, rfl⟩
  · intro now s h0 hgt
    have hc : (s.lastActive != 0 && decide (now - s.lastActive > INACTIVITY_MS)) = true := by
      simp [h0, hgt]
    constructor
    · unfold sweepSession
      rw [if_pos hc]
    · unfold sweepSession
      rw [if_pos hc]
      simp [activeFlags]
  · intro now s hle
    have hc : ¬ (s.lastActive != 0 && decide (now - s.lastActive > INACTIVITY_MS)) = true := by
      simp
      intro _
      omega
    unfold sweepSession
    rw [if_neg hc]

theorem frame_selectedPlace {a b : St} (h : SearchFrame a b) :
    b.s.selectedPlace = a.s.selectedPlace := by
  have := congrArg Session.selectedPlace h.1
  simpa only [Session.forgetSearch, Session.forgetCta, Session.forgetTalk] using this

/-- C29: `finalizeSearch` leaves `selectedPlace` as it was, whatever the search does and
presents; afterwards a text with an information topic and no selection is answered about that
place. In the run given, the new page holds one bar that is not the place selected before,
and the question about the opening hours is answered about the place selected before. -/
theorem finalizeSearch_keeps_selectedPlace (cfg : Config) (env : SearchEnv) (st : St) :
    (finalizeSearch cfg env st).1.s.selectedPlace = st.s.selectedPlace ∧
    (∀ (env2 : Env) (t : TextMessage) (topic : String) (cta : Cta) (q : Place),
      st.s.selectedPlace = some q →
      (finalizeSearch cfg env st).1.s.cta = some cta →
      t.infoTopic = some topic → truthySel t.selection = none →
      ctaBlock env2 t (finalizeSearch cfg env st).1 =
        Flow.done ((finalizeSearch cfg env st).1.say (Msg.infoReply q.place_id topic))) ∧
    ((finalizeSearch cfgPlain envOneBar stSelectedW).1.s.cta =
        some { ordered := [barNoGeometry], index := 0 } ∧
      placeW ∉ [barNoGeometry] ∧
      (finalizeSearch cfgPlain envOneBar stSelectedW).1.s.selectedPlace = some placeW ∧
      (webhook cfgPlain (envAt 9) { messageId := some "m9", text := some textHours }
        (finalizeSearch cfgPlain envOneBar stSelectedW).1).1.sent =
        (finalizeSearch cfgPlain envOneBar stSelectedW).1.sent ++
          [Msg.infoReply (some "w") "hours"]) := by
  have hsel := frame_selectedPlace (finalizeSearch_frame cfg env st)
  refine ⟨hsel, ?_, ⟨by decide, by decide, by decide, by decide⟩⟩
  intro env2 t topic cta q hq hcta htop hnone
  have hq1 : (finalizeSearch cfg env st).1.s.selectedPlace = some q := by rw [hsel, hq]
  unfold ctaBlock
  simp only [hnone, htop, hcta, hq1]

theorem nearbyMessages_sent : ∀ (items : List NearbyItem) (st : St),
    ∃ extra, (nearbyMessages items st).sent = st.sent ++ extra ∧
      ∀ m ∈ extra, isNearbyMsg m = true := by
  intro items
  induction items with
  | nil => intro st; exact ⟨[], by simp [nearbyMessages], by simp⟩
  | cons item items ih =>
    intro st
    unfold nearbyMessages
    simp only []
    by_cases hx : item.hasExtra = true
    · rw [if_pos hx]
      obtain ⟨extra, he, hm⟩ := ih ((st.say (Msg.nearbyCard item.place_id)).say
        (Msg.nearbyExtra item.place_id))
      refine ⟨Msg.nearbyCard item.place_id :: Msg.nearbyExtra item.place_id :: extra, ?_, ?_⟩
      · rw [he]
        simp [St.say, St.send, St.pushBot]
      · intro m hmem
        simp only [List.mem_cons] at hmem
        rcases hmem with h | h | h
        · subst h; rfl
        · subst h; rfl
        · exact hm m h
    · rw [if_neg hx]
      obtain ⟨extra, he, hm⟩ := ih (st.say (Msg.nearbyCard item.place_id))
      refine ⟨Msg.nearbyCard item.place_id :: extra, ?_, ?_⟩
      · rw [he]
        simp [St.say, St.send, St.pushBot]
      · intro m hmem
        simp only [List.mem_cons] at hmem
        rcases hmem with h | h
        · subst h; rfl
        · exact hm m h

theorem sendNearbySponsored_sent (env : Env) (st : St) :
    ∃ extra, (sendNearbySponsored env st).sent = st.sent ++ extra ∧
      ∀ m ∈ extra, isNearbyMsg m = true := by
  unfold sendNearbySponsored
  split
  · exact ⟨[], by simp, by simp⟩
  · obtain ⟨extra, he, hm⟩ := nearbyMessages_sent env.nearby (st.say Msg.nearbyIntro)
    refine ⟨Msg.nearbyIntro :: extra, ?_, ?_⟩
    · rw [he]
      simp [St.say, St.send, St.pushBot]
    · intro m hmem
      simp only [List.mem_cons] at hmem
      rcases hmem with h | h
      · subst h; rfl
      · exact hm m h

theorem dispatch_fresh_location (cfg : Config) (env : Env) (ev : Event) (st : St)
    (loc : LocMessage) (h : IsFreshLocation ev loc st) :
    dispatch cfg env ev none st =
      if isNearDuplicate cfg loc st.s then Flow.done (st.noted ev env)
      else locationBlock cfg env loc (st.located ev env loc) := by
  obtain ⟨_, _, _, hloc, hid, hfresh⟩ := h
  unfold dispatch
  simp only [checkMessageId, hid, if_true]
  rw [if_neg hfresh]
  simp only [Flow.andThen, checkLocation, hloc]
  have hdup2 : isNearDuplicate cfg loc
      ({ st.s with
          instanceId := if truthyStr ev.instanceId = true then ev.instanceId
            else st.s.instanceId,
          lastActive := env.now, lastMsgId := ev.messageId } : Session) =
        isNearDuplicate cfg loc st.s := rfl
  simp only [hdup2]
  rcases hd : isNearDuplicate cfg loc st.s with _ | _
  · simp only [Bool.false_eq_true, if_false]
    show (match locationBlock cfg env loc (st.located ev env loc) with
      | Flow.next st => Flow.next st
      | Flow.done st => Flow.done st
      | Flow.raised st => Flow.raised st) = locationBlock cfg env loc (st.located ev env loc)
    cases locationBlock cfg env loc (st.located ev env loc) <;> rfl
  · simp only [if_true]
    rfl

theorem webhook_fresh_location (cfg : Config) (env : Env) (ev : Event) (st : St)
    (loc : LocMessage) (h : IsFreshLocation ev loc st) :
    webhook cfg env ev st =
      match dispatch cfg env ev none st with
      | Flow.next st1 => (st1, 200)
      | Flow.done st1 => (st1, 200)
      | Flow.raised st1 => (st1.say Msg.errorApology, 500) := by
  obtain ⟨hfrom, htext, haudio, _, _, _⟩ := h
  unfold webhook
  simp only [hfrom, resolveUserMessage, htext, haudio]
  rfl

theorem talk_lastLocation {a b : St} (h : Talk a b) : b.s.lastLocation = a.s.lastLocation := by
  have := congrArg Session.lastLocation h.2.2.1
  simpa only [Session.forgetTalk] using this

theorem frame_lastLocation {a b : St} (h : SearchFrame a b) :
    b.s.lastLocation = a.s.lastLocation := by
  have := congrArg Session.lastLocation h.1
  simpa only [Session.forgetSearch, Session.forgetCta, Session.forgetTalk] using this

theorem locationBlock_lastLocation (cfg : Config) (env : Env) (loc : LocMessage) (st : St) :
    (locationBlock cfg env loc st).st.s.lastLocation = st.s.lastLocation := by
  unfold locationBlock
  split
  · unfold finalizeAndReturn
    simp only []
    split
    · show (finalizeSearch cfg env.search _).1.s.lastLocation = _
      rw [frame_lastLocation (finalizeSearch_frame _ _ _),
        talk_lastLocation (sendNearbySponsored_talk _ _)]
    · show (finalizeSearch cfg env.search _).1.s.lastLocation = _
      rw [frame_lastLocation (finalizeSearch_frame _ _ _),
        talk_lastLocation (sendNearbySponsored_talk _ _)]
  · show (sendNearbySponsored env _).s.lastLocation = _
    rw [talk_lastLocation (sendNearbySponsored_talk _ _)]
    rfl

/-- C26: for a session with a `lastLocation` and a location event with a fresh message id,
when the distance between the two points is below 0.1 km the dispatcher returns after noting
the event (`instanceId`, `lastActive`, `lastMsgId`): nothing is sent, nothing is looked up,
and `lastLocation`, `pendingLocation`, `refinement`, `cta` and the seven flow flags are
unchanged; when the distance is 0.1 km or more the location of the event is the
`lastLocation` afterwards; an event with the coordinates of `lastLocation`, at distance 0, is
ignored. -/
theorem near_duplicate_location_ignored (cfg : Config) (env : Env) (ev : Event) (st : St)
    (loc : LocMessage) (last : Coord) (h : IsFreshLocation ev loc st)
    (hlast : st.s.lastLocation = some last) :
    (∀ d, haversineOpt cfg loc.degreesLatitude loc.degreesLongitude last.lat last.lng = some d →
      d < 1 / 10 →
      webhook cfg env ev st = (st.noted ev env, 200) ∧
      (webhook cfg env ev st).1.sent = st.sent ∧
      (webhook cfg env ev st).1.lookups = st.lookups ∧
      (webhook cfg env ev st).1.s.lastLocation = st.s.lastLocation ∧
      (webhook cfg env ev st).1.s.pendingLocation = st.s.pendingLocation ∧
      (webhook cfg env ev st).1.s.refinement = st.s.refinement ∧
      (webhook cfg env ev st).1.s.cta = st.s.cta ∧
      (webhook cfg env ev st).1.s.awaiting_name = st.s.awaiting_name ∧
      (webhook cfg env ev st).1.s.awaiting_intent_choice = st.s.awaiting_intent_choice ∧
      (webhook cfg env ev st).1.s.interview = st.s.interview ∧
      (webhook cfg env ev st).1.s.awaiting_location_type = st.s.awaiting_location_type ∧
      (webhook cfg env ev st).1.s.awaiting_location_text = st.s.awaiting_location_text ∧
      (webhook cfg env ev st).1.s.awaitingLocation = st.s.awaitingLocation) ∧
    (∀ d, haversineOpt cfg loc.degreesLatitude loc.degreesLongitude last.lat last.lng = some d →
      1 / 10 ≤ d →
      (webhook cfg env ev st).1.s.lastLocation =
        some { lat := loc.degreesLatitude, lng := loc.degreesLongitude, ts := env.now }) ∧
    (∀ x y : ℚ, loc.degreesLatitude = some x → loc.degreesLongitude = some y →
      last.lat = some x → last.lng = some y → cfg.haversineKm x y x y = some 0 →
      webhook cfg env ev st = (st.noted ev env, 200)) := by
  have hw := webhook_fresh_location cfg env ev st loc h
  have hd := dispatch_fresh_location cfg env ev st loc h
  have hnear : ∀ d, haversineOpt cfg loc.degreesLatitude loc.degreesLongitude last.lat
      last.lng = some d → d < 1 / 10 → webhook cfg env ev st = (st.noted ev env, 200) := by
    intro d hdist hlt
    have hdup : isNearDuplicate cfg loc st.s = true := by
      unfold isNearDuplicate
      rw [hlast]
      simp only [hdist, ltTenthKm, decide_eq_true_eq]
      exact hlt
    rw [hw, hd, if_pos hdup]
  refine ⟨?_, ?_, ?_⟩
  · intro d hdist hlt
    have := hnear d hdist hlt
    rw [this]
    exact ⟨rfl, rfl, rfl, rfl, rfl, rfl, rfl, rfl, rfl, rfl, rfl, rfl, rfl⟩
  · intro d hdist hge
    have hdup : ¬ isNearDuplicate cfg loc st.s = true := by
      unfold isNearDuplicate
      rw [hlast]
      simp only [hdist, ltTenthKm, decide_eq_true_eq]
      exact not_lt.2 hge
    rw [hw, hd, if_neg hdup]
    have hl := locationBlock_lastLocation cfg env loc (st.located ev env loc)
    rcases hb : locationBlock cfg env loc (st.located ev env loc) with s1 | s1 | s1
    · rw [hb] at hl
      exact hl
    · rw [hb] at hl
      exact hl
    · rw [hb] at hl
      exact hl
  · intro x y hx hy hlx hly hzero
    apply hnear 0
    · rw [hx, hy, hlx, hly]
      exact hzero
    · norm_num

/-- The state left by the second branch of the location block. -/
theorem locationBlock_stash (cfg : Config) (env : Env) (loc : LocMessage) (st : St)
    (hr : st.s.refinement = none) (ha : st.s.awaitingLocation ≠ some true)
    (ht : st.s.awaiting_location_type = none) :
    locationBlock cfg env loc st =
      Flow.done (sendNearbySponsored env
        (((st.setPendingLocation
          { lat := loc.degreesLatitude, lng := loc.degreesLongitude, ts := env.now }).say
            (Msg.adaptive Hint.chooseNearby)).setIntentChoice env.now)) := by
  unfold locationBlock
  have hcond : (st.s.refinement.isSome || st.s.awaitingLocation == some true ||
      st.s.awaiting_location_type.isSome) = false := by
    rw [hr, ht]
    simpa using ha
  rw [hcond]
  rfl

/-- The state after a location event that no flow awaits: the location is stashed, the
adaptive message of the hint to choose nearby is sent, followed by messages of the sponsored
places nearby only, and no search starts. -/
theorem location_stash_state (cfg : Config) (env : Env) (ev : Event) (st : St)
    (loc : LocMessage) (h : IsFreshLocation ev loc st)
    (hdup : isNearDuplicate cfg loc st.s = false)
    (hr : st.s.refinement = none) (ha : st.s.awaitingLocation ≠ some true)
    (ht : st.s.awaiting_location_type = none) :
    (webhook cfg env ev st).1.s.pendingLocation =
      some { lat := loc.degreesLatitude, lng := loc.degreesLongitude, ts := env.now } ∧
    (webhook cfg env ev st).1.s.awaiting_intent_choice = some env.now ∧
    (∃ extra, (webhook cfg env ev st).1.sent =
        st.sent ++ Msg.adaptive Hint.chooseNearby :: extra ∧
      ∀ m ∈ extra, isNearbyMsg m = true) ∧
    (webhook cfg env ev st).1.lookups = st.lookups ∧
    (webhook cfg env ev st).1.s.refinement = none ∧
    (webhook cfg env ev st).1.s.isFinalizing = st.s.isFinalizing ∧
    (webhook cfg env ev st).1.s.lastSearch = st.s.lastSearch ∧
    (webhook cfg env ev st).1.s.cta = st.s.cta ∧
    (webhook cfg env ev st).2 = 200 := by
  have hw := webhook_fresh_location cfg env ev st loc h
  have hd := dispatch_fresh_location cfg env ev st loc h
  rw [hdup] at hd
  simp only [Bool.false_eq_true, if_false] at hd
  rw [locationBlock_stash cfg env loc (st.located ev env loc) hr ha ht] at hd
  rw [hd] at hw
  simp only [] at hw
  rw [hw]
  simp only []
  obtain ⟨hp, hl, hs, _, _⟩ := sendNearbySponsored_talk env
    (((((st.located ev env loc).setPendingLocation
      { lat := loc.degreesLatitude, lng := loc.degreesLongitude, ts := env.now }).say
        (Msg.adaptive Hint.chooseNearby)).setIntentChoice env.now))
  obtain ⟨extra, he, hm⟩ := sendNearbySponsored_sent env
    (((((st.located ev env loc).setPendingLocation
      { lat := loc.degreesLatitude, lng := loc.degreesLongitude, ts := env.now }).say
        (Msg.adaptive Hint.chooseNearby)).setIntentChoice env.now))
  have f1 := congrArg Session.pendingLocation hs
  have f2 := congrArg Session.awaiting_intent_choice hs
  have f3 := congrArg Session.refinement hs
  have f4 := congrArg Session.isFinalizing hs
  have f5 := congrArg Session.lastSearch hs
  have f6 := congrArg Session.cta hs
  simp only [Session.forgetTalk] at f1 f2 f3 f4 f5 f6
  refine ⟨f1, f2, ⟨extra, ?_, hm⟩, hl, ?_, f4, f5, f6, trivial⟩
  · rw [he]
    simp [St.setIntentChoice, St.say, St.send, St.pushBot, St.setPendingLocation, St.located,
      St.setLastLocation, St.noted]
  · rw [f3]
    exact hr

/-- The token test of `detectChosenIntent` reads the hint of the location block as a request
for a restaurant: the hint names `bar` and then `restaurante`. -/
theorem askWhichHint3_intent :
    detectChosenIntent latinFold askWhichHint3 = some "restaurante" := by
  decide

/-- When the intent request on the hint fails, the reply to the hint is the canned request
for the location. -/
theorem sendAdaptiveText_failed (modelAvailable : Bool) (generated : Option String) :
    sendAdaptiveText latinFold modelAvailable IntentRequest.failed generated askWhichHint3 =
      AdaptiveText.askLocation "um restaurante" := by
  have hA : ¬ (some ((some "restaurante" : Option String).getD "nenhum") = some "bar") := by
    decide
  have hB : some ((some "restaurante" : Option String).getD "nenhum") = some "restaurante" :=
    rfl
  unfold sendAdaptiveText generateAdaptiveReply parseInitialIntent
  simp only [ite_self, askWhichHint3_intent]
  rw [if_neg hA, if_pos hB]
  rfl

/-- Without a language model the reply to the hint is the canned request for the location,
whatever the requests would answer. -/
theorem sendAdaptiveText_no_model (request : IntentRequest) (generated : Option String) :
    sendAdaptiveText latinFold false request generated askWhichHint3 =
      AdaptiveText.askLocation "um restaurante" := by
  have hA : ¬ (some ((some "restaurante" : Option String).getD "nenhum") = some "bar") := by
    decide
  have hB : some ((some "restaurante" : Option String).getD "nenhum") = some "restaurante" :=
    rfl
  unfold sendAdaptiveText generateAdaptiveReply parseInitialIntent
  simp only [Bool.false_eq_true, if_false, askWhichHint3_intent]
  rw [if_neg hA, if_pos hB]
  rfl

/-- C22: for a session without `refinement`, `awaitingLocation` and
`awaiting_location_type`, a location event with a fresh message id that is not a
near-duplicate of `lastLocation` puts the coordinates of the event in `pendingLocation`, sets
`awaiting_intent_choice` and starts no search: no lookup is made and `refinement`,
`isFinalizing`, `lastSearch` and `cta` are as before. The message sent, followed by messages
of the sponsored places nearby only, is the reply of `sendAdaptive` to the hint that asks to
invite a choice between bar and restaurant, and that reply is not always such a prompt:
`generateAdaptiveReply` first reads the hint itself as a message of the user, and when there
is no language model, or the intent request fails, the token test finds `restaurante` in the
hint and the text sent is the canned one that takes a restaurant as chosen and asks for the
location. With a language model that reads another intent out of the hint the text is what
the model generates for the hint, or the default reply. -/
theorem location_without_flow_stashed (cfg : Config) (env : Env) (ev : Event) (st : St)
    (loc : LocMessage) (h : IsFreshLocation ev loc st)
    (hdup : isNearDuplicate cfg loc st.s = false)
    (hr : st.s.refinement = none) (ha : st.s.awaitingLocation ≠ some true)
    (ht : st.s.awaiting_location_type = none) :
    (webhook cfg env ev st).1.s.pendingLocation =
      some { lat := loc.degreesLatitude, lng := loc.degreesLongitude, ts := env.now } ∧
    (webhook cfg env ev st).1.s.awaiting_intent_choice = some env.now ∧
    (∃ extra, (webhook cfg env ev st).1.sent =
        st.sent ++ Msg.adaptive Hint.chooseNearby :: extra ∧
      ∀ m ∈ extra, isNearbyMsg m = true) ∧
    (webhook cfg env ev st).1.lookups = st.lookups ∧
    (webhook cfg env ev st).1.s.refinement = none ∧
    (webhook cfg env ev st).1.s.isFinalizing = st.s.isFinalizing ∧
    (webhook cfg env ev st).1.s.lastSearch = st.s.lastSearch ∧
    (webhook cfg env ev st).1.s.cta = st.s.cta ∧
    (webhook cfg env ev st).2 = 200 ∧
    Hint.text Hint.chooseNearby = some askWhichHint3 ∧
    detectChosenIntent latinFold askWhichHint3 = some "restaurante" ∧
    (cfg.modelAvailable = false → ∀ request generated,
      sendAdaptiveText latinFold cfg.modelAvailable request generated askWhichHint3 =
        AdaptiveText.askLocation "um restaurante") ∧
    (∀ generated,
      sendAdaptiveText latinFold cfg.modelAvailable IntentRequest.failed generated
        askWhichHint3 = AdaptiveText.askLocation "um restaurante") ∧
    (∀ intention generated, intention = some "bar" ∨ intention = some "restaurante" →
      ∃ tipo, sendAdaptiveText latinFold true (IntentRequest.parsed intention) generated
        askWhichHint3 = AdaptiveText.askLocation tipo) ∧
    (∀ intention, intention ≠ some "bar" → intention ≠ some "restaurante" →
      sendAdaptiveText latinFold true (IntentRequest.parsed intention) none askWhichHint3 =
        AdaptiveText.defaultReply ∧
      ∀ text, (jsTrim text).length ≠ 0 →
        sendAdaptiveText latinFold true (IntentRequest.parsed intention) (some text)
          askWhichHint3 = AdaptiveText.generated (jsTrim text)) := by
  obtain ⟨h1, h2, h3, h4, h5, h6, h7, h8, h9⟩ :=
    location_stash_state cfg env ev st loc h hdup hr ha ht
  refine ⟨h1, h2, h3, h4, h5, h6, h7, h8, h9, rfl, askWhichHint3_intent, ?_,
    sendAdaptiveText_failed cfg.modelAvailable, ?_, ?_⟩
  · intro hm request generated
    rw [hm]
    exact sendAdaptiveText_no_model request generated
  · intro intention generated hi
    rcases hi with hi | hi
    · exact ⟨"um bar", by subst hi; rfl⟩
    · exact ⟨"um restaurante", by subst hi; rfl⟩
  · intro intention hb hrest
    constructor
    · unfold sendAdaptiveText generateAdaptiveReply parseInitialIntent
      simp [hb, hrest]
    · intro text htext
      unfold sendAdaptiveText generateAdaptiveReply parseInitialIntent
      simp [hb, hrest, htext]

/-- C22 when the first event of a user is a location in Brasília and no language model is
configured: the location is stashed at time 2000 and the reply to the hint is the canned
request for the location. -/
theorem location_without_flow_stashed_witness :
    IsFreshLocation evLocation locBrasilia {} ∧
    isNearDuplicate cfgPlain locBrasilia ({} : St).s = false ∧
    (webhook cfgPlain (envAt 2000) evLocation {}).1.s.pendingLocation =
      some { lat := some (-15), lng := some (-47), ts := 2000 } ∧
    (webhook cfgPlain (envAt 2000) evLocation {}).1.s.awaiting_intent_choice = some 2000 ∧
    (webhook cfgPlain (envAt 2000) evLocation {}).1.lookups = [] ∧
    cfgPlain.modelAvailable = false ∧
    sendAdaptiveText latinFold cfgPlain.modelAvailable (IntentRequest.parsed none) none
      askWhichHint3 = AdaptiveText.askLocation "um restaurante" :=
  ⟨⟨rfl, rfl, rfl, rfl, by decide, by decide⟩, rfl,
    (location_without_flow_stashed cfgPlain (envAt 2000) evLocation {} locBrasilia
      ⟨rfl, rfl, rfl, rfl, by decide, by decide⟩ rfl rfl (by decide) rfl).1,
    (location_without_flow_stashed cfgPlain (envAt 2000) evLocation {} locBrasilia
      ⟨rfl, rfl, rfl, rfl, by decide, by decide⟩ rfl rfl (by decide) rfl).2.1,
    (location_without_flow_stashed cfgPlain (envAt 2000) evLocation {} locBrasilia
      ⟨rfl, rfl, rfl, rfl, by decide, by decide⟩ rfl rfl (by decide) rfl).2.2.2.1,
    rfl,
    (location_without_flow_stashed cfgPlain (envAt 2000) evLocation {} locBrasilia
      ⟨rfl, rfl, rfl, rfl, by decide, by decide⟩ rfl rfl (by decide) rfl).2.2.2.2.2.2.2.2.2.2.2.1
        rfl (IntentRequest.parsed none) none⟩

/-- C26 when the location of `lastLocation` is sent once more: it is ignored. -/
theorem near_duplicate_location_ignored_witness :
    IsFreshLocation evLocation locBrasilia stSeenBrasilia ∧
    stSeenBrasilia.s.lastLocation =
      some { lat := some (-15), lng := some (-47), ts := 1000 } ∧
    cfgFlat.haversineKm (-15) (-47) (-15) (-47) = some 0 ∧
    webhook cfgFlat (envAt 2000) evLocation stSeenBrasilia =
      (stSeenBrasilia.noted evLocation (envAt 2000), 200) :=
  ⟨⟨rfl, rfl, rfl, rfl, by decide, by decide⟩, rfl, by decide,
    (near_duplicate_location_ignored cfgFlat (envAt 2000) evLocation stSeenBrasilia locBrasilia
      { lat := some (-15), lng := some (-47), ts := 1000 }
      ⟨rfl, rfl, rfl, rfl, by decide, by decide⟩ rfl).2.2 (-15) (-47) rfl rfl rfl rfl
        (by decide)⟩

theorem finalizeAndReturn_sent (cfg : Config) (env : SearchEnv) (st : St) :
    (∀ st2, finalizeAndReturn cfg env st ≠ Flow.next st2) ∧
    ∃ extra, (finalizeAndReturn cfg env st).st.sent = st.sent ++ extra := by
  obtain ⟨_, _, extra, he, _⟩ := finalizeSearch_frame cfg env st
  unfold finalizeAndReturn
  simp only []
  split
  · exact ⟨fun st2 h => (by cases h), extra, he⟩
  · exact ⟨fun st2 h => (by cases h), extra, he⟩

/-- While `awaiting_location_text` is set, `handleTextPlaceSearch` takes the text: it
announces the search for it and returns `true` (or raises inside `finalizeSearch`). -/
theorem handleTextPlaceSearch_entered (cfg : Config) (env : Env) (t : TextMessage) (st : St)
    (ta : TypeAnswers) (hta : st.s.awaiting_location_text = some ta) :
    (∀ st2, handleTextPlaceSearch cfg env t st ≠ Flow.next st2) ∧
    ∃ extra, (handleTextPlaceSearch cfg env t st).st.sent =
      st.sent ++ Msg.searching t.raw :: extra := by
  rcases hg : env.geocode with _ | geo
  · have hx : handleTextPlaceSearch cfg env t st =
        Flow.done ((st.say (Msg.searching t.raw)).say Msg.geocodeFailed) := by
      unfold handleTextPlaceSearch
      simp only [hta, hg]
    rw [hx]
    exact ⟨fun st2 h => (by cases h), [Msg.geocodeFailed],
      by simp [Flow.st, St.say, St.send, St.pushBot]⟩
  · have hx : handleTextPlaceSearch cfg env t st =
        finalizeAndReturn cfg env.search
          ({ st.say (Msg.searching t.raw) with
            s := { (st.say (Msg.searching t.raw)).s with
              refinement := some { type := ta.type,
                                   answers := { ta.answers with keyword := some t.raw },
                                   lat := geo.1, lng := geo.2, fromText := true },
              awaiting_location_text := none } } : St) := by
      unfold handleTextPlaceSearch
      simp only [hta, hg]
    rw [hx]
    obtain ⟨hne, extra, he⟩ := finalizeAndReturn_sent cfg env.search
      ({ st.say (Msg.searching t.raw) with
        s := { (st.say (Msg.searching t.raw)).s with
          refinement := some { type := ta.type,
                               answers := { ta.answers with keyword := some t.raw },
                               lat := geo.1, lng := geo.2, fromText := true },
          awaiting_location_text := none } } : St)
    refine ⟨hne, extra, ?_⟩
    rw [he]
    simp [St.say, St.send, St.pushBot]

/-- C28: when `awaiting_location_text` is set and geocoding finds nothing,
`handleTextPlaceSearch` sends the searching message and then the message that asks to write
the place in another way, reports the event as handled, and leaves
`awaiting_location_text`, `refinement`, the lookups, `isFinalizing`, `lastSearch` and `cta`
unchanged; the next text is handled by `handleTextPlaceSearch` again, as the name of a
place. -/
theorem text_place_not_found (cfg : Config) (env : Env) (t : TextMessage) (st : St)
    (ta : TypeAnswers) (hta : st.s.awaiting_location_text = some ta)
    (hgeo : env.geocode = none) :
    handleTextPlaceSearch cfg env t st =
      Flow.done ((st.say (Msg.searching t.raw)).say Msg.geocodeFailed) ∧
    (handleTextPlaceSearch cfg env t st).st.sent =
      st.sent ++ [Msg.searching t.raw, Msg.geocodeFailed] ∧
    (handleTextPlaceSearch cfg env t st).st.s.awaiting_location_text = some ta ∧
    (handleTextPlaceSearch cfg env t st).st.s.refinement = st.s.refinement ∧
    (handleTextPlaceSearch cfg env t st).st.lookups = st.lookups ∧
    (handleTextPlaceSearch cfg env t st).st.s.isFinalizing = st.s.isFinalizing ∧
    (handleTextPlaceSearch cfg env t st).st.s.lastSearch = st.s.lastSearch ∧
    (handleTextPlaceSearch cfg env t st).st.s.cta = st.s.cta ∧
    (∀ (env2 : Env) (t2 : TextMessage),
      (∀ st2, handleTextPlaceSearch cfg env2 t2 (handleTextPlaceSearch cfg env t st).st ≠
        Flow.next st2) ∧
      ∃ extra,
        (handleTextPlaceSearch cfg env2 t2 (handleTextPlaceSearch cfg env t st).st).st.sent =
          (handleTextPlaceSearch cfg env t st).st.sent ++ Msg.searching t2.raw :: extra) := by
  have hres : handleTextPlaceSearch cfg env t st =
      Flow.done ((st.say (Msg.searching t.raw)).say Msg.geocodeFailed) := by
    unfold handleTextPlaceSearch
    simp only [hta, hgeo]
  rw [hres]
  refine ⟨rfl, ?_, hta, rfl, rfl, rfl, rfl, rfl, ?_⟩
  · simp [Flow.st, St.say, St.send, St.pushBot]
  · intro env2 t2
    exact handleTextPlaceSearch_entered cfg env2 t2 _ ta hta

/-- C28 at the text `xyzzy` while a place name is awaited for a bar search. -/
theorem text_place_not_found_witness :
    stAwaitingPlaceText.s.awaiting_location_text = some { type := "bar" } ∧
    (envAt 5).geocode = none ∧
    handleTextPlaceSearch cfgPlain (envAt 5) textUnknownPlace stAwaitingPlaceText =
      Flow.done ((stAwaitingPlaceText.say (Msg.searching "xyzzy")).say Msg.geocodeFailed) ∧
    (handleTextPlaceSearch cfgPlain (envAt 5) textUnknownPlace stAwaitingPlaceText).st.s.awaiting_location_text =
      some { type := "bar" } :=
  ⟨rfl, rfl,
    (text_place_not_found cfgPlain (envAt 5) textUnknownPlace stAwaitingPlaceText
      { type := "bar" } rfl rfl).1,
    (text_place_not_found cfgPlain (envAt 5) textUnknownPlace stAwaitingPlaceText
      { type := "bar" } rfl rfl).2.2.1⟩

/-- C23, the claim fails when all three attempts fail with a transient failure: when the gateway answers every post with status 503, `sendMessage`
posts the text three times and returns without posting the apology; and a failure with
status 400 whose message says `timed out` is retried. -/
theorem gateway_down_no_apology :
    sendMessage "oi" gatewayDown = ([Post.original, Post.original, Post.original], SendEnd.gaveUp) ∧
    Post.apology ∉ (sendMessage "oi" gatewayDown).1 ∧
    gatewaySlowOnce 0 = GatewayResponse.fail (some 400) "Request timed out" ∧
    sendMessage "oi" gatewaySlowOnce = ([Post.original, Post.original], SendEnd.delivered) := by
  decide

/-- C23 (amended): for a text that is not empty after trimming, `sendMessage` posts the text
`n` times with `1 ≤ n ≤ 3`; every post but the last one failed with a transient failure (a
status that is 429 or 5xx, or a status with a message that says `bad gateway` or
`timed out`); when the last post succeeds nothing else is posted; when it fails with a
transient failure it was the third one and the call returns without the apology; when it
fails with another failure the apology is posted once, and the call returns whether that
post succeeds or fails. -/
theorem sendMessage_retries (text : String) (respond : Nat → GatewayResponse)
    (h : (jsTrim text).length ≠ 0) :
    ∃ n, 1 ≤ n ∧ n ≤ 3 ∧
      (∀ k, k + 1 < n → ∃ s m, respond k = GatewayResponse.fail s m ∧ isTransient s m = true) ∧
      (respond (n - 1) = GatewayResponse.ok →
        sendMessage text respond = (List.replicate n Post.original, SendEnd.delivered)) ∧
      (∀ s m, respond (n - 1) = GatewayResponse.fail s m → isTransient s m = true →
        n = 3 ∧ sendMessage text respond = (List.replicate 3 Post.original, SendEnd.gaveUp)) ∧
      (∀ s m, respond (n - 1) = GatewayResponse.fail s m → isTransient s m = false →
        sendMessage text respond =
          (List.replicate n Post.original ++ [Post.apology],
            if respond n = GatewayResponse.ok then SendEnd.apologized
            else SendEnd.apologyFailed)) := by
  unfold sendMessage
  rw [if_neg h]
  rcases h0 : respond 0 with _ | ⟨s0, m0⟩
  · refine ⟨1, le_refl _, by omega, fun k hk => by omega, ?_, ?_, ?_⟩
    · intro _
      simp [sendLoop, h0]
    · intro s m hr
      simp [h0] at hr
    · intro s m hr
      simp [h0] at hr
  · rcases ht0 : isTransient s0 m0 with _ | _
    · refine ⟨1, le_refl _, by omega, fun k hk => by omega, ?_, ?_, ?_⟩
      · intro hr
        simp [h0] at hr
      · intro s m hr ht
        simp only [Nat.sub_self, h0, GatewayResponse.fail.injEq] at hr
        rw [← hr.1, ← hr.2, ht0] at ht
        cases ht
      · intro s m hr ht
        rcases h1 : respond 1 with _ | ⟨s1, m1⟩ <;>
          simp [sendLoop, h0, ht0, h1, GatewayResponse.transient]
    · rcases h1 : respond 1 with _ | ⟨s1, m1⟩
      · refine ⟨2, by omega, by omega, ?_, ?_, ?_, ?_⟩
        · intro k hk
          have hk0 : k = 0 := by omega
          subst hk0
          exact ⟨s0, m0, h0, ht0⟩
        · intro _
          simp [sendLoop, h0, ht0, h1]
        · intro s m hr
          simp [h1] at hr
        · intro s m hr
          simp [h1] at hr
      · rcases ht1 : isTransient s1 m1 with _ | _
        · refine ⟨2, by omega, by omega, ?_, ?_, ?_, ?_⟩
          · intro k hk
            have hk0 : k = 0 := by omega
            subst hk0
            exact ⟨s0, m0, h0, ht0⟩
          · intro hr
            simp [h1] at hr
          · intro s m hr ht
            simp only [Nat.add_one_sub_one, h1, GatewayResponse.fail.injEq] at hr
            rw [← hr.1, ← hr.2, ht1] at ht
            cases ht
          · intro s m hr ht
            rcases h2 : respond 2 with _ | ⟨s2, m2⟩ <;>
              simp [sendLoop, h0, ht0, h1, ht1, h2, GatewayResponse.transient]
        · rcases h2 : respond 2 with _ | ⟨s2, m2⟩
          · refine ⟨3, by omega, by omega, ?_, ?_, ?_, ?_⟩
            · intro k hk
              rcases k with _ | _ | k
              · exact ⟨s0, m0, h0, ht0⟩
              · exact ⟨s1, m1, h1, ht1⟩
              · omega
            · intro _
              simp [sendLoop, h0, ht0, h1, ht1, h2]
            · intro s m hr
              simp [h2] at hr
            · intro s m hr
              simp [h2] at hr
          · refine ⟨3, by omega, by omega, ?_, ?_, ?_, ?_⟩
            · intro k hk
              rcases k with _ | _ | k
              · exact ⟨s0, m0, h0, ht0⟩
              · exact ⟨s1, m1, h1, ht1⟩
              · omega
            · intro hr
              simp [h2] at hr
            · intro s m hr ht
              simp only [Nat.add_one_sub_one, h2, GatewayResponse.fail.injEq] at hr
              rw [← hr.1, ← hr.2] at ht
              refine ⟨rfl, ?_⟩
              simp [sendLoop, h0, ht0, h1, ht1, h2, GatewayResponse.transient, ht]
            · intro s m hr ht
              simp only [Nat.add_one_sub_one, h2, GatewayResponse.fail.injEq] at hr
              rw [← hr.1, ← hr.2] at ht
              rcases h3 : respond 3 with _ | ⟨s3, m3⟩ <;>
                simp [sendLoop, h0, ht0, h1, ht1, h2, GatewayResponse.transient, ht, h3]

/-- C23 (amended) at the text `oi` with a gateway that refuses every post with status 400: one post of the
text, then the apology, whose failure ends the call. -/
theorem sendMessage_retries_witness :
    (jsTrim "oi").length ≠ 0 ∧
    gatewayRefuses 0 = GatewayResponse.fail (some 400) "Bad Request" ∧
    isTransient (some 400) "Bad Request" = false ∧
    sendMessage "oi" gatewayRefuses = ([Post.original, Post.apology], SendEnd.apologyFailed) := by
  obtain ⟨n, h1, _, hk, _, _, hfail⟩ := sendMessage_retries "oi" gatewayRefuses (by decide)
  have hn : n = 1 := by
    by_contra hne
    obtain ⟨s, m, hs, ht⟩ := hk 0 (by omega)
    have h2 : s = some 400 ∧ m = "Bad Request" := by
      simpa [gatewayRefuses] using hs.symm
    rw [h2.1, h2.2] at ht
    exact absurd ht (by decide)
  subst hn
  exact ⟨by decide, rfl, by decide, hfail (some 400) "Bad Request" rfl (by decide)⟩

/-- C30: `detectChosenIntent` does not return the intent whose term comes last. When both
intents are said it compares the last position of `bar` next to a blank, or of `barzinho`,
with the last position of `restaurante` or `restaur`; the words `pub`, `boteco`, `bares`,
`jantar`, `almoco` and `resto` have no position. So `restaurante ou pub` gives
`restaurante`, `bar ou jantar` gives `bar` and `pub ou jantar` gives nothing, while
`bar ou restaurante` and `restaurante ou bar` give the term that comes last. -/
theorem detectChosenIntent_last_mention :
    detectChosenIntent asciiFold "restaurante ou pub" = some "restaurante" ∧
    detectChosenIntent asciiFold "bar ou jantar" = some "bar" ∧
    detectChosenIntent asciiFold "pub ou jantar" = none ∧
    detectChosenIntent asciiFold "bar ou restaurante" = some "restaurante" ∧
    detectChosenIntent asciiFold "restaurante ou bar" = some "bar" := by
  decide

/-! ## Ranking: the order of `rankGeneric` against the combined score -/

/-- The sponsor bonus of the code is the one of the specification. -/
theorem sponsorBonus_eq_spec (sponsored : List Sponsor) (p : Place) :
    (if isSponsored sponsored p = true then (3 : ℚ) else 0) =
      (if ∃ s ∈ sponsored, s.active = true ∧ s.place_id = p.place_id then 3 else 0) := by
  by_cases h : isSponsored sponsored p = true
  · rw [if_pos h, if_pos ((isSponsored_iff sponsored p).1 h)]
  · rw [if_neg h, if_neg (fun h2 => h ((isSponsored_iff sponsored p).2 h2))]

/-- The score of `scorePlace` against the combined score of the claim: they differ by the
price terms. -/
theorem placeScore_eq_spec (log10 : ℚ → ℚ) (sponsored : List Sponsor) (preco : Option String)
    (llm : Place → LlmOutcome) (p : Place)
    (hcount : p.user_ratings_total = none ∨ ∃ n : ℕ, p.user_ratings_total = some (n : ℚ)) :
    placeScore log10 sponsored preco llm p =
      combinedScoreSpec log10 sponsored preco llm p + priceBonus preco p -
        (if priceTierMatchSpec preco p then 2 else 0) := by
  unfold placeScore combinedScoreSpec preScoreSpec
  rw [calculateBasicScore_eq_spec log10 p hcount, sponsorBonus_eq_spec]
  rcases llm p with _ | _ | g
  · simp only []; ring
  · simp only []; ring
  · simp only []
    by_cases hg : 0 ≤ g ∧ g ≤ 5
    · rw [if_pos hg, if_pos hg]; ring
    · rw [if_neg hg, if_neg hg]; ring

/-- Without price answer and for the answers `econômico` and `moderado` the adjustment of the
code is the price-tier match of the specification. -/
theorem priceBonus_matches_spec (preco : Option String) (p : Place)
    (h : preco = none ∨ preco = some "econômico" ∨ preco = some "moderado") :
    priceBonus preco p = (if priceTierMatchSpec preco p then 2 else 0) := by
  rcases h with h | h | h
  · subst h
    rfl
  · subst h
    rw [priceBonus_economico]
    have hb : declaredBracketSpec (some "econômico") = some PriceBracket.economic := by decide
    unfold priceTierMatchSpec
    rw [hb]
    rcases p.price_level with _ | l
    · rfl
    · by_cases hl : l ≤ 1 <;> simp [hl]
  · subst h
    rw [priceBonus_moderado]
    have hb : declaredBracketSpec (some "moderado") = some PriceBracket.moderate := by decide
    unfold priceTierMatchSpec
    rw [hb]
    rcases p.price_level with _ | l
    · simp
    · by_cases hl : l = 2 ∨ l = 3 <;> simp [hl]

/-- For the answer `luxuoso` the specification matches the places of price level 4. -/
theorem priceTierMatch_luxuoso (p : Place) :
    priceTierMatchSpec (some "luxuoso") p = decide (p.price_level = some 4) := by
  have hb : declaredBracketSpec (some "luxuoso") = some PriceBracket.luxury := by decide
  unfold priceTierMatchSpec
  rw [hb]
  rcases p.price_level with _ | l
  · simp
  · simp

/-- C15: the order of `rankGeneric` against the combined score of the claim. With a language
model the output is the stable descending sort by the score that `scorePlace` computes: it
is ordered by that score and the places of one score keep their input order. That score is
the combined score of the claim (base score, plus 2 on a price-tier match, plus 3 for an
active sponsor, plus half the relevance score when it is a number in `[0, 5]`) for a persona
without price answer or with the answer `econômico` or `moderado`, on natural review counts;
for these answers the output is ordered by the combined score of the claim. For the answer
`luxuoso` the score of the code is the combined score less 2 on the places of price level 4:
the code looks for `luxo`. For a restaurant of price level 4 rated 4 and a restaurant rated
4.5 the code scores 8 and 9 and returns the second one first, where the combined score of
the claim is 10 and 9: the output is not ordered by it. Without a language model the output
is the descending sort by the basic score alone. -/
theorem rankGeneric_order (log10 : ℚ → ℚ) (sponsored : List Sponsor)
    (llm : Place → LlmOutcome) (places : List Place) (preco : Option String) :
    (rankGeneric log10 sponsored true llm places preco).Sorted
      (fun a b => placeScore log10 sponsored preco llm b ≤
        placeScore log10 sponsored preco llm a) ∧
    (∀ v : ℚ,
      (rankGeneric log10 sponsored true llm places preco).filter
          (fun p => decide (placeScore log10 sponsored preco llm p = v)) =
        (places.filter (fun p => llm p != LlmOutcome.outerTimeout)).filter
          (fun p => decide (placeScore log10 sponsored preco llm p = v))) ∧
    (∀ p, (p.user_ratings_total = none ∨ ∃ n : ℕ, p.user_ratings_total = some (n : ℚ)) →
      (preco = none ∨ preco = some "econômico" ∨ preco = some "moderado") →
      placeScore log10 sponsored preco llm p = combinedScoreSpec log10 sponsored preco llm p) ∧
    (∀ p, (p.user_ratings_total = none ∨ ∃ n : ℕ, p.user_ratings_total = some (n : ℚ)) →
      placeScore log10 sponsored (some "luxuoso") llm p =
        combinedScoreSpec log10 sponsored (some "luxuoso") llm p -
          (if p.price_level = some 4 then 2 else 0)) ∧
    ((∀ p ∈ places,
        p.user_ratings_total = none ∨ ∃ n : ℕ, p.user_ratings_total = some (n : ℚ)) →
      (preco = none ∨ preco = some "econômico" ∨ preco = some "moderado") →
      rankGeneric log10 sponsored true llm places preco =
        sortDescBy (combinedScoreSpec log10 sponsored preco llm)
          (places.filter (fun p => llm p != LlmOutcome.outerTimeout)) ∧
      (rankGeneric log10 sponsored true llm places preco).Sorted
        (fun a b => combinedScoreSpec log10 sponsored preco llm b ≤
          combinedScoreSpec log10 sponsored preco llm a)) ∧
    (rankGeneric logAtOne [] true llmTimesOut [luxuryRated4, plainRated] (some "luxuoso") =
        [plainRated, luxuryRated4] ∧
      placeScore logAtOne [] (some "luxuoso") llmTimesOut luxuryRated4 = 8 ∧
      placeScore logAtOne [] (some "luxuoso") llmTimesOut plainRated = 9 ∧
      combinedScoreSpec logAtOne [] (some "luxuoso") llmTimesOut luxuryRated4 = 10 ∧
      combinedScoreSpec logAtOne [] (some "luxuoso") llmTimesOut plainRated = 9 ∧
      ¬ (rankGeneric logAtOne [] true llmTimesOut [luxuryRated4, plainRated]
          (some "luxuoso")).Sorted
        (fun a b => combinedScoreSpec logAtOne [] (some "luxuoso") llmTimesOut b ≤
          combinedScoreSpec logAtOne [] (some "luxuoso") llmTimesOut a)) ∧
    rankGeneric log10 sponsored false llm places preco =
      sortDescBy (calculateBasicScore log10) places := by
  have hrank := rankGeneric_with_model log10 sponsored llm places preco
  have hA : placeScore logAtOne [] (some "luxuoso") llmTimesOut luxuryRated4 = 8 := by
    unfold placeScore
    rw [priceBonus_luxuoso]
    with_unfolding_all decide
  have hB : placeScore logAtOne [] (some "luxuoso") llmTimesOut plainRated = 9 := by
    unfold placeScore
    rw [priceBonus_luxuoso]
    with_unfolding_all decide
  have hsA : combinedScoreSpec logAtOne [] (some "luxuoso") llmTimesOut luxuryRated4 = 10 := by
    with_unfolding_all decide
  have hsB : combinedScoreSpec logAtOne [] (some "luxuoso") llmTimesOut plainRated = 9 := by
    with_unfolding_all decide
  have hrun : rankGeneric logAtOne [] true llmTimesOut [luxuryRated4, plainRated]
      (some "luxuoso") = [plainRated, luxuryRated4] := by
    rw [rankGeneric_with_model]
    have hf : [luxuryRated4, plainRated].filter
        (fun p => llmTimesOut p != LlmOutcome.outerTimeout) = [luxuryRated4, plainRated] := by
      rfl
    rw [hf]
    unfold sortDescBy
    simp only [List.insertionSort, List.orderedInsert]
    rw [if_neg (by rw [hA, hB]; norm_num)]
  refine ⟨?_, ?_, ?_, ?_, ?_, ⟨hrun, hA, hB, hsA, hsB, ?_⟩,
    rankGeneric_without_model log10 sponsored llm places preco⟩
  · rw [hrank]
    exact sortDescBy_sorted _ _
  · intro v
    rw [hrank]
    exact sortDescBy_stable _ _ v
  · intro p hcount hp
    rw [placeScore_eq_spec log10 sponsored preco llm p hcount, priceBonus_matches_spec preco p hp]
    ring
  · intro p hcount
    rw [placeScore_eq_spec log10 sponsored _ llm p hcount, priceBonus_luxuoso,
      priceTierMatch_luxuoso]
    by_cases h4 : p.price_level = some 4 <;> simp [h4]
  · intro hall hp
    have hcongr : sortDescBy (placeScore log10 sponsored preco llm)
        (places.filter (fun p => llm p != LlmOutcome.outerTimeout)) =
        sortDescBy (combinedScoreSpec log10 sponsored preco llm)
          (places.filter (fun p => llm p != LlmOutcome.outerTimeout)) := by
      apply sortDescBy_congr
      intro p hmem
      have hpl : p ∈ places := (List.mem_filter.1 hmem).1
      rw [placeScore_eq_spec log10 sponsored preco llm p (hall p hpl),
        priceBonus_matches_spec preco p hp]
      ring
    rw [hrank, hcongr]
    exact ⟨rfl, sortDescBy_sorted _ _⟩
  · rw [hrun]
    intro hs
    have := List.rel_of_sorted_cons hs luxuryRated4 (by simp)
    rw [hsA, hsB] at this
    norm_num at this

end Iae
